import Mathlib

/-!
# Distributed file system: router S1, shards S2 and S4

A shallow embedding of the router `S1.c` and of the shards `S2.c` and `S4.c`.

* C strings are lists of characters (`CStr`); a `char` buffer of size `n` holds
  at most `n - 1` characters, which is what `snprintf` enforces.
* Sockets, the file system, the environment variable `HOME` and `popen` are
  explicit parts of a `World` that every routine takes and returns.
* Every call of `send`, `connect`, `popen` and `system` is logged in `World.trace`.
* A shard is run in a `World` of its own, whose `client` socket is the
  connection the router has opened.
* Loops take a fuel argument that bounds the number of their iterations; the
  callers pass a bound the loop cannot exceed (`recv_file_loop_fuel`,
  `fread_chunks_flatten`).
* Where the source leaves the behaviour C defines (a buffer is overrun), the
  model sets `World.undefined` and stops the routine.
* Paths are compared as strings: no normalisation of `..`, `//` or trailing
  slashes is modelled.
-/

namespace DFS

/-! ## Constants of the sources -/

/-- A C string: the characters before the terminating NUL. -/
abbrev CStr := List Char

def BUFFER_SIZE : Nat := 4096
def COMMAND_SIZE : Nat := 1024
def MAX_FILEPATH : Nat := 1024
def MAX_FILENAME : Nat := 256
def S1_PORT : Nat := 8386
def S2_PORT : Nat := 8387
def S3_PORT : Nat := 8388
def S4_PORT : Nat := 8389
def S1_BASE_DIR : CStr := "~/S1".toList

/-! ## String primitives of the C library -/

/-- The C string held by a byte buffer: everything before the first NUL. -/
def cstr (buf : List Char) : CStr := buf.takeWhile (fun c => c ≠ Char.ofNat 0)

/-- What `snprintf(dst, size, "%s", s)` leaves in `dst`: at most `size - 1` characters. -/
def snprintf (size : Nat) (s : CStr) : CStr := s.take (size - 1)

/-- The test `strncmp(a, b, n) == 0`. -/
def strncmp_eq : Nat → CStr → CStr → Bool
  | 0, _, _ => true
  | _ + 1, [], [] => true
  | n + 1, a :: as, b :: bs => if a = b then strncmp_eq n as bs else false
  | _ + 1, _, _ => false

/-- The test `strcmp(a, b) == 0`. -/
def strcmp_eq (a b : CStr) : Bool := decide (a = b)

/-- The suffix at the last occurrence of `c`, as `strrchr(s, c)` returns it. -/
def strrchr (c : Char) : CStr → Option CStr
  | [] => none
  | x :: xs =>
    match strrchr c xs with
    | some r => some r
    | none => if x = c then some (x :: xs) else none

/-- The offset of the first occurrence of `needle`, as `strstr` finds it. -/
def strstr (needle : CStr) : CStr → Option Nat
  | [] => if needle = [] then some 0 else none
  | c :: cs =>
    if needle.isPrefixOf (c :: cs) then some 0
    else (strstr needle cs).map (fun i => i + 1)

/-- The buffer after `memcpy(dst + off, src, n)`. -/
def memcpy (dst : CStr) (off : Nat) (src : CStr) (n : Nat) : CStr :=
  dst.take off ++ src.take n ++ dst.drop (off + n)

/-- The predicate `isspace` of the C locale. -/
def isspace (c : Char) : Bool :=
  c = ' ' || c = '\t' || c = '\n' || c = '\r' || c = Char.ofNat 11 || c = Char.ofNat 12

/-- The decimal text that `%d` and `%ld` print. -/
def fmt_int (n : Int) : CStr := (toString n).toList

/-- POSIX `basename` of `libgen.h`. -/
def basename (path : CStr) : CStr :=
  if path = [] then ['.']
  else
    let stripped := (path.reverse.dropWhile (fun c => c = '/')).reverse
    if stripped = [] then ['/']
    else (stripped.reverse.takeWhile (fun c => c ≠ '/')).reverse

/-! ## Path helpers of S1.c -/

/-- The function `expand_path`: a leading `~` becomes the value of `HOME`, when set. -/
def expand_path (home : Option CStr) (path : CStr) : CStr :=
  match path with
  | [] => path
  | c :: rest =>
    if c = '~' then
      match home with
      | some h => snprintf MAX_FILEPATH (h ++ rest)
      | none => path
    else path

/-- The function `is_path_in_s1`: `path` starts with the expansion of `~/S1`. -/
def is_path_in_s1 (home : Option CStr) (path : CStr) : Bool :=
  let s1_dir := expand_path home S1_BASE_DIR
  strncmp_eq s1_dir.length path s1_dir

/-- The function `get_file_extension`: the text after the last dot, unless
there is no dot or the last dot is the first character. -/
def get_file_extension (filename : CStr) : Option CStr :=
  match strrchr '.' filename with
  | none => none
  | some dot => if dot.length = filename.length then none else some dot.tail

/-- The function `get_corresponding_server_path`. -/
def get_corresponding_server_path (home : Option CStr) (s1_path : CStr)
    (server_type : Int) : CStr :=
  let s1_base := expand_path home S1_BASE_DIR
  let server_base := snprintf MAX_FILEPATH ("~/S".toList ++ fmt_int server_type)
  let expanded_server_base := expand_path home server_base
  let relative_path := s1_path.drop s1_base.length
  snprintf MAX_FILEPATH (expanded_server_base ++ relative_path)

/-- The destination that `transfer_file_to_server` sends to the shard: the
first `S1` of `dest_path` overwritten by the two characters of `S<n>`. -/
def server_dest_path (dest_path : CStr) (server_type : Int) : CStr :=
  match strstr "S1".toList dest_path with
  | some s1_pos => memcpy dest_path s1_pos (snprintf 3 ("S".toList ++ fmt_int server_type)) 2
  | none => dest_path

/-- The function `atol`: optional blanks, an optional sign, then decimal digits;
clamped to the range of `long` as `strtol` does. -/
def atol (s : CStr) : Int :=
  let t := s.dropWhile isspace
  let neg := decide (t.head? = some '-')
  let u := if t.head? = some '-' ∨ t.head? = some '+' then t.tail else t
  let v : Nat := (u.takeWhile Char.isDigit).foldl (fun acc c => 10 * acc + (c.toNat - 48)) 0
  if neg then max (-(v : Int)) (-(2 : Int) ^ 63) else min (v : Int) ((2 : Int) ^ 63 - 1)

/-! ## The directive `%s` of `sscanf` -/

/-- Matching of the literal characters of a format; on a mismatch the value
`sscanf` returns: `-1` (EOF) when the input is exhausted, `0` otherwise. -/
def scan_literal : CStr → CStr → Except Int CStr
  | [], input => Except.ok input
  | _ :: _, [] => Except.error (-1)
  | c :: lit, i :: input => if c = i then scan_literal lit input else Except.error 0

/-- One `%s`: skip blanks, then take the longest run of non-blanks. -/
def scan_s (input : CStr) : Option (CStr × CStr) :=
  let i := input.dropWhile isspace
  if i = [] then none
  else some (i.takeWhile (fun c => !isspace c), i.dropWhile (fun c => !isspace c))

/-- The strings assigned by `n` successive `%s` directives. -/
def scan_args : Nat → CStr → List CStr
  | 0, _ => []
  | n + 1, input =>
    match scan_s input with
    | none => []
    | some (tok, rest) => tok :: scan_args n rest

/-- The call `sscanf(input, "<lit> %s ... %s", buf_1, ..., buf_n)` where `sizes`
are the sizes of the destination buffers: the return value and the strings
assigned. The result is `none` when an assigned string does not fit its buffer
(the source gives no field width, so the call overflows the buffer). -/
def sscanf (lit : CStr) (sizes : List Nat) (input : CStr) : Option (Int × List CStr) :=
  match scan_literal lit input with
  | Except.error e => some (e, [])
  | Except.ok rest =>
    let args := scan_args sizes.length rest
    if (args.zip sizes).all (fun p => decide (p.1.length < p.2)) then
      some (if args = [] then -1 else (args.length : Int), args)
    else none

/-! ## Sockets -/

/-- One item queued on a socket: bytes sent by the peer, or a receive error. -/
inductive Recv where
  | data (bytes : List Char)
  | err
deriving DecidableEq

abbrev Inbox := List Recv

/-- The call `recv(sock, buf, cap, 0)`: the return value, the bytes stored and
the rest of the queue. An empty queue is a peer that has closed (`0`). Bytes
beyond `cap` stay queued. -/
def recv (cap : Nat) : Inbox → Int × List Char × Inbox
  | [] => (0, [], [])
  | Recv.err :: rest => (-1, [], rest)
  | Recv.data bytes :: rest =>
    if bytes.length ≤ cap then ((bytes.length : Int), bytes, rest)
    else ((cap : Int), bytes.take cap, Recv.data (bytes.drop cap) :: rest)

/-- The number of `recv` calls a queue can satisfy at most, plus the number of its bytes. -/
def inbox_size : Inbox → Nat
  | [] => 0
  | Recv.err :: rest => 1 + inbox_size rest
  | Recv.data bytes :: rest => 1 + bytes.length + inbox_size rest

/-- The return value of one `send` of `len` bytes, from the script of the
socket: `none` is a failure (`-1`), `some k` accepts at most `k` bytes, and
an exhausted script accepts everything. -/
def send_result (script : List (Option Nat)) (len : Nat) : Int :=
  match script with
  | [] => (len : Int)
  | none :: _ => -1
  | some k :: _ => (min k len : Nat)

/-- One end of a TCP connection as the program sees it. -/
structure Sock where
  inbox : Inbox
  sends : List (Option Nat)
deriving DecidableEq

/-- Logged calls. -/
inductive Event where
  | send_client (buf : List Char) (ret : Int)
  | connect (port : Nat) (ok : Bool)
  | send_server (port : Nat) (buf : List Char) (ret : Int)
  | close_server (port : Nat)
  | popen (cmd : CStr) (ok : Bool)
  | system (cmd : CStr) (ok : Bool)
deriving DecidableEq

/-! ## File system -/

inductive Errno where
  | ENOENT
  | EACCES
deriving DecidableEq

/-- The text of `strerror(errno)`. -/
def strerror : Errno → CStr
  | Errno.ENOENT => "No such file or directory".toList
  | Errno.EACCES => "Permission denied".toList

/-- The part of a file system the programs touch. `denied` lists the paths
the process may not create, open, list or unlink; `space` is the number of
bytes that can still be written. -/
structure FS where
  files : List (CStr × List Char)
  dirs : List CStr
  denied : List CStr
  space : Nat
deriving DecidableEq

/-- The size of the buffer stdio gives a stream on a regular file: the block
size of the file system, which is also `BUFFER_SIZE`. -/
def STDIO_BUFFER : Nat := 4096

namespace FS

def lookup (fs : FS) (p : CStr) : Option (List Char) := fs.files.lookup p

def is_file (fs : FS) (p : CStr) : Bool := (fs.lookup p).isSome

/-- The test `stat(p, &st) == 0 && S_ISDIR(st.st_mode)`. -/
def is_dir (fs : FS) (p : CStr) : Bool := decide (p ∈ fs.dirs)

/-- The test `access(p, F_OK) == 0`. -/
def access (fs : FS) (p : CStr) : Bool := fs.is_file p || fs.is_dir p

/-- The test `mkdir(p, 0755) == 0 || errno == EEXIST`, and the file system after the call. -/
def mkdir (fs : FS) (p : CStr) : Bool × FS :=
  if fs.access p then (true, fs)
  else if p = [] ∨ p ∈ fs.denied then (false, fs)
  else (true, { fs with dirs := fs.dirs ++ [p] })

/-- The call `fopen(p, "wb")`: the file exists and is empty afterwards. The
directory of `p` is taken to exist: the list `denied` holds the paths that
cannot be opened, those in a missing directory among them. -/
def fopen_w (fs : FS) (p : CStr) : Option FS :=
  if p = [] ∨ p ∈ fs.denied ∨ fs.is_dir p then none
  else if fs.is_file p then
    some { fs with files := fs.files.map (fun e => if e.1 = p then (e.1, []) else e) }
  else some { fs with files := fs.files ++ [(p, [])] }

/-- The call `fwrite(buf, 1, n, fp)` on the stream opened on `p`, which stdio
buffers with `STDIO_BUFFER` bytes: the count reported and the file system once
the stream has been closed. A write shorter than the buffer stays in the buffer
and is reported in full; it reaches the file when `fclose` flushes the buffer,
as far as the disk has room, and no caller looks at the result of `fclose`. A
write of a whole buffer goes to the disk at once and reports what the disk
took. Every caller writes a short chunk only as its last write. -/
def fwrite (fs : FS) (p : CStr) (bytes : List Char) : Nat × FS :=
  (if bytes.length < STDIO_BUFFER then bytes.length else min bytes.length fs.space,
   { fs with
     files := fs.files.map
       (fun e => if e.1 = p then (e.1, e.2 ++ bytes.take (min bytes.length fs.space)) else e),
     space := fs.space - min bytes.length fs.space })

/-- The call `fopen(p, "rb")` followed by reading the whole file. -/
def fopen_r (fs : FS) (p : CStr) : Option (List Char) :=
  if p ∈ fs.denied then none else fs.lookup p

/-- The call `remove(p)` on a regular file: `none` is success. Removal of a
directory is not modelled and fails. -/
def remove (fs : FS) (p : CStr) : Option Errno × FS :=
  if fs.is_file p then
    if p ∈ fs.denied then (some Errno.EACCES, fs)
    else (none, { fs with files := fs.files.filter (fun e => e.1 ≠ p) })
  else (some Errno.ENOENT, fs)

end FS

/-- A directory entry: its name and whether `d_type == DT_REG`. -/
structure Dirent where
  d_name : CStr
  d_reg : Bool
deriving DecidableEq

/-- The name under which `p` appears directly in `dir`, if it does. -/
def child_name (dir p : CStr) : Option CStr :=
  if (dir ++ ['/']).isPrefixOf p then
    let name := p.drop (dir.length + 1)
    if name ≠ [] ∧ '/' ∉ name then some name else none
  else none

/-- The entries `readdir` yields after a successful `opendir(dir)`. -/
def FS.opendir (fs : FS) (dir : CStr) : Option (List Dirent) :=
  if fs.is_dir dir ∧ dir ∉ fs.denied then
    some ([Dirent.mk ['.'] false, Dirent.mk ['.', '.'] false]
      ++ fs.files.filterMap (fun e => (child_name dir e.1).map (fun n => Dirent.mk n true))
      ++ fs.dirs.filterMap (fun d => (child_name dir d).map (fun n => Dirent.mk n false)))
  else none

/-- The chunks that successive calls `fread(buf, 1, n, fp)` return. -/
def fread_chunks (n : Nat) : Nat → List Char → List (List Char)
  | 0, _ => []
  | fuel + 1, content =>
    if content = [] then [] else content.take n :: fread_chunks n fuel (content.drop n)

/-! ## The world of the router -/

structure World where
  home : Option CStr
  fs : FS
  client : Sock
  net : List (Option Sock)
  pipes : List (Option (List Char))
  trace : List Event
  undefined : Bool
deriving DecidableEq

namespace World

/-- The call `send(client_socket, buf, len, 0)`. -/
def send_client (w : World) (buf : List Char) : Int × World :=
  (send_result w.client.sends buf.length,
   { w with
     client := { w.client with sends := w.client.sends.tail },
     trace := w.trace ++ [Event.send_client buf (send_result w.client.sends buf.length)] })

/-- The call `recv(client_socket, buf, cap, 0)`. -/
def recv_client (w : World) (cap : Nat) : Int × List Char × World :=
  ((recv cap w.client.inbox).1, (recv cap w.client.inbox).2.1,
   { w with client := { w.client with inbox := (recv cap w.client.inbox).2.2 } })

/-- The function `connect_to_server`: the next scripted outcome. -/
def connect_to_server (w : World) (port : Nat) : Option Sock × World :=
  (w.net.head?.join,
   { w with net := w.net.tail,
            trace := w.trace ++ [Event.connect port w.net.head?.join.isSome] })

/-- The call `send(server_socket, buf, len, 0)`. -/
def send_server (w : World) (port : Nat) (s : Sock) (buf : List Char) : Int × Sock × World :=
  (send_result s.sends buf.length, { s with sends := s.sends.tail },
   { w with trace := w.trace ++ [Event.send_server port buf (send_result s.sends buf.length)] })

/-- The call `close(server_socket)`. -/
def close_server (w : World) (port : Nat) : World :=
  { w with trace := w.trace ++ [Event.close_server port] }

/-- The call `popen(cmd, "r")`: the next scripted output, if the pipe opens. -/
def popen (w : World) (cmd : CStr) : Option (List Char) × World :=
  (w.pipes.head?.join,
   { w with pipes := w.pipes.tail,
            trace := w.trace ++ [Event.popen cmd w.pipes.head?.join.isSome] })

/-- The call `system(cmd)` for a command that writes the archive `out`: the
next scripted outcome. With `some bytes` the command exits with status 0 and
`out` holds `bytes`; with `none` it exits with another status. -/
def system_tar (w : World) (cmd out : CStr) : Bool × World :=
  match w.pipes.head?.join with
  | none =>
    (false, { w with pipes := w.pipes.tail, trace := w.trace ++ [Event.system cmd false] })
  | some bytes =>
    (true,
     { w with
       pipes := w.pipes.tail,
       fs := { w.fs with files := w.fs.files.filter (fun e => e.1 ≠ out) ++ [(out, bytes)] },
       trace := w.trace ++ [Event.system cmd true] })

/-- Execution has left the behaviour C defines (a buffer was overrun). -/
def undefined_behaviour (w : World) : World := { w with undefined := true }

end World

/-! ## Directory creation and the receive loop -/

/-- The loop `for (p = tmp + 1; *p; p++) if (*p == '/') ...` of
`create_directory_path`; `done` is the part of `tmp` before `p`. -/
def mkdir_prefixes (done : CStr) : CStr → FS → Bool × FS
  | [], fs => (true, fs)
  | c :: rest, fs =>
    if c = '/' then
      if (fs.mkdir done).1 then mkdir_prefixes (done ++ [c]) rest (fs.mkdir done).2
      else (false, (fs.mkdir done).2)
    else mkdir_prefixes (done ++ [c]) rest fs

/-- The function `create_directory_path`. The result is `none` for the empty
path, on which the source reads outside `tmp`. -/
def create_directory_path (fs : FS) (path : CStr) : Option (Int × FS) :=
  if snprintf MAX_FILEPATH path = [] then none
  else
    let tmp :=
      if (snprintf MAX_FILEPATH path).getLast? = some '/' then (snprintf MAX_FILEPATH path).dropLast
      else snprintf MAX_FILEPATH path
    let r := mkdir_prefixes (tmp.take 1) (tmp.drop 1) fs
    if r.1 then some (if (r.2.mkdir tmp).1 then 0 else -1, (r.2.mkdir tmp).2)
    else some (-1, r.2)

/-- The function `create_directory_path` run in a world. -/
def World.create_directory_path (w : World) (path : CStr) : Int × World :=
  match DFS.create_directory_path w.fs path with
  | none => (-1, w.undefined_behaviour)
  | some r => (r.1, { w with fs := r.2 })

/-- The copy of `filepath` cut at its last slash, when it has one. -/
def dir_of (filepath : CStr) : Option CStr :=
  (strrchr '/' filepath).map (fun last_slash => filepath.take (filepath.length - last_slash.length))

/-- The block `if (last_slash) { *last_slash = 0; create_directory_path(dir_path); }`. -/
def make_parent (w : World) (filepath : CStr) : World :=
  match dir_of filepath with
  | some dir_path => (w.create_directory_path dir_path).2
  | none => w

/-- How a receive loop ended. -/
inductive RecvEnd where
  | done
  | write_failed
  | recv_failed
  | no_fuel
deriving DecidableEq

/-- The loop
`while ((bytes_read = recv(sock, buffer, BUFFER_SIZE, 0)) > 0) { fwrite ...; if (bytes_read < BUFFER_SIZE) break; }`
that all receive routines share, with the test `bytes_read < 0` that follows it. -/
def recv_file_loop : Nat → CStr → Inbox → FS → RecvEnd × Inbox × FS
  | 0, _, inbox, fs => (RecvEnd.no_fuel, inbox, fs)
  | fuel + 1, path, inbox, fs =>
    if (recv BUFFER_SIZE inbox).1 > 0 then
      if ((fs.fwrite path (recv BUFFER_SIZE inbox).2.1).1 : Int) ≠ (recv BUFFER_SIZE inbox).1 then
        (RecvEnd.write_failed, (recv BUFFER_SIZE inbox).2.2,
          (fs.fwrite path (recv BUFFER_SIZE inbox).2.1).2)
      else if (recv BUFFER_SIZE inbox).1 < BUFFER_SIZE then
        (RecvEnd.done, (recv BUFFER_SIZE inbox).2.2, (fs.fwrite path (recv BUFFER_SIZE inbox).2.1).2)
      else
        recv_file_loop fuel path (recv BUFFER_SIZE inbox).2.2
          (fs.fwrite path (recv BUFFER_SIZE inbox).2.1).2
    else if (recv BUFFER_SIZE inbox).1 < 0 then (RecvEnd.recv_failed, (recv BUFFER_SIZE inbox).2.2, fs)
    else (RecvEnd.done, (recv BUFFER_SIZE inbox).2.2, fs)

/-- The world after `remove(filepath)`, whose result the callers ignore. -/
def World.unlink (w : World) (filepath : CStr) : World :=
  { w with fs := (w.fs.remove filepath).2 }

/-- The function `receive_file_from_client` of S1.c. -/
def receive_file_from_client (filepath : CStr) (w : World) : Int × World :=
  match (make_parent w filepath).fs.fopen_w filepath with
  | none => (-1, ((make_parent w filepath).send_client "ERROR: Failed to create file".toList).2)
  | some fs1 =>
    let w1 := make_parent w filepath
    let r := recv_file_loop (inbox_size w1.client.inbox + 1) filepath w1.client.inbox fs1
    let w2 : World := { w1 with client := { w1.client with inbox := r.2.1 }, fs := r.2.2 }
    match r.1 with
    | RecvEnd.done => (0, w2)
    | RecvEnd.write_failed => (-1, w2.unlink filepath)
    | RecvEnd.recv_failed => (-1, w2.unlink filepath)
    | RecvEnd.no_fuel => (-1, w2)

/-! ## Transfers between the router and a shard -/

/-- The `switch (server_type)` that picks the shard to connect to. -/
def server_port (server_type : Int) : Option Nat :=
  if server_type = 2 then some S2_PORT
  else if server_type = 3 then some S3_PORT
  else if server_type = 4 then some S4_PORT
  else none

/-- The loop `while ((bytes_read = fread(...)) > 0) if (send(server_socket, ...) < 0) ...`. -/
def send_chunks_server (port : Nat) : List (List Char) → Sock → World → Int × Sock × World
  | [], s, w => (0, s, w)
  | chunk :: rest, s, w =>
    if (w.send_server port s chunk).1 < 0 then
      (-1, (w.send_server port s chunk).2.1, (w.send_server port s chunk).2.2)
    else send_chunks_server port rest (w.send_server port s chunk).2.1 (w.send_server port s chunk).2.2

/-- The function `transfer_file_to_server` of S1.c (it returns nothing). -/
def transfer_file_to_server (filename dest_path : CStr) (server_type : Int) (w : World) : World :=
  match server_port server_type with
  | none => w
  | some port =>
    match (w.connect_to_server port).1 with
    | none => (w.connect_to_server port).2
    | some s =>
      let w1 := (w.connect_to_server port).2
      let server_command := snprintf COMMAND_SIZE
        ("RECEIVE ".toList ++ basename filename ++ " ".toList ++ server_dest_path dest_path server_type)
      let r1 := w1.send_server port s server_command
      if r1.1 < 0 then r1.2.2.close_server port
      else
        let r2 := recv (BUFFER_SIZE - 1) r1.2.1.inbox
        if r2.1 ≤ 0 ∨ cstr r2.2.1 ≠ "READY_TO_RECEIVE".toList then r1.2.2.close_server port
        else
          match r1.2.2.fs.fopen_r filename with
          | none => r1.2.2.close_server port
          | some content =>
            (send_chunks_server port (fread_chunks BUFFER_SIZE content.length content)
              { r1.2.1 with inbox := r2.2.2 } r1.2.2).2.2.close_server port

/-- The function `retrieve_file_from_server` of S1.c. -/
def retrieve_file_from_server (filename : CStr) (server_type : Int) (w : World) : Int × World :=
  match server_port server_type with
  | none => (-1, w)
  | some port =>
    match (w.connect_to_server port).1 with
    | none => (-1, (w.connect_to_server port).2)
    | some s =>
      let w1 := (w.connect_to_server port).2
      let server_command := snprintf COMMAND_SIZE
        ("SEND ".toList ++ get_corresponding_server_path w.home filename server_type)
      let r1 := w1.send_server port s server_command
      if r1.1 < 0 then (-1, r1.2.2.close_server port)
      else
        let r2 := recv (BUFFER_SIZE - 1) r1.2.1.inbox
        if r2.1 ≤ 0 ∨ strncmp_eq 13 (cstr r2.2.1) "READY_TO_SEND".toList = false then
          (-1, r1.2.2.close_server port)
        else
          let w2 := make_parent r1.2.2 filename
          match w2.fs.fopen_w filename with
          | none => (-1, w2.close_server port)
          | some fs1 =>
            let r := recv_file_loop (inbox_size r2.2.2 + 1) filename r2.2.2 fs1
            let w3 : World := { w2 with fs := r.2.2 }
            match r.1 with
            | RecvEnd.done => (0, w3.close_server port)
            | RecvEnd.write_failed => (-1, (w3.close_server port).unlink filename)
            | RecvEnd.recv_failed => (-1, (w3.close_server port).unlink filename)
            | RecvEnd.no_fuel => (-1, w3)

/-- The loop `while ((bytes_read = fread(...)) > 0) if (send(client_socket, ...) < 0) return -1;`. -/
def send_chunks_client : List (List Char) → World → Int × World
  | [], w => (0, w)
  | chunk :: rest, w =>
    if (w.send_client chunk).1 < 0 then (-1, (w.send_client chunk).2)
    else send_chunks_client rest (w.send_client chunk).2

/-- The function `send_file_to_client` of S1.c. -/
def send_file_to_client (filepath : CStr) (w : World) : Int × World :=
  match w.fs.fopen_r filepath with
  | none => (-1, (w.send_client "ERROR: File not found or cannot be opened".toList).2)
  | some content => send_chunks_client (fread_chunks BUFFER_SIZE content.length content) w

/-! ## Command handlers of the router -/

/-- The negation of the test
`strcmp(ext, "c") != 0 && strcmp(ext, "pdf") != 0 && strcmp(ext, "txt") != 0 && strcmp(ext, "zip") != 0`. -/
def valid_ext (ext : CStr) : Bool :=
  strcmp_eq ext "c".toList || strcmp_eq ext "pdf".toList
    || strcmp_eq ext "txt".toList || strcmp_eq ext "zip".toList

/-- The chain `if pdf: server_type = 2; else if txt: 3; else if zip: 4` starting from `0`. -/
def server_type_of_ext (ext : CStr) : Int :=
  if strcmp_eq ext "pdf".toList then 2
  else if strcmp_eq ext "txt".toList then 3
  else if strcmp_eq ext "zip".toList then 4
  else 0

def msg_unsupported : CStr :=
  "ERROR: Unsupported file type. Only .c, .pdf, .txt, and .zip are allowed".toList

/-- The function `handle_upload_command` of S1.c. -/
def handle_upload_command (command : CStr) (w : World) : Int × World :=
  match sscanf "uploadf".toList [MAX_FILENAME, MAX_FILEPATH] command with
  | none => (-1, w.undefined_behaviour)
  | some parsed =>
    if parsed.1 ≠ 2 then
      (-1, (w.send_client "ERROR: Invalid uploadf command syntax".toList).2)
    else
      let filename := parsed.2.getD 0 []
      let dest_path := parsed.2.getD 1 []
      let expanded_path := expand_path w.home dest_path
      if is_path_in_s1 w.home expanded_path = false then
        (-1, (w.send_client "ERROR: Destination path must be within ~/S1".toList).2)
      else
        let d := w.create_directory_path expanded_path
        if d.1 ≠ 0 then
          (-1, (d.2.send_client "ERROR: Failed to create destination directory".toList).2)
        else
          match get_file_extension filename with
          | none => (-1, (d.2.send_client "ERROR: File must have an extension".toList).2)
          | some ext =>
            if valid_ext ext = false then (-1, (d.2.send_client msg_unsupported).2)
            else
              let w1 := (d.2.send_client "READY_TO_RECEIVE".toList).2
              let filepath := snprintf MAX_FILEPATH (expanded_path ++ "/".toList ++ basename filename)
              let r := receive_file_from_client filepath w1
              if r.1 ≠ 0 then (-1, r.2)
              else if strcmp_eq ext "c".toList then
                (0, (r.2.send_client "SUCCESS: File uploaded successfully to S1".toList).2)
              else
                let w2 := transfer_file_to_server filepath dest_path (server_type_of_ext ext) r.2
                (0, ((w2.unlink filepath).send_client "SUCCESS: File uploaded successfully".toList).2)

/-- The function `handle_download_command` of S1.c. -/
def handle_download_command (command : CStr) (w : World) : Int × World :=
  match sscanf "downlf".toList [MAX_FILEPATH] command with
  | none => (-1, w.undefined_behaviour)
  | some parsed =>
    if parsed.1 ≠ 1 then
      (-1, (w.send_client "ERROR: Invalid downlf command syntax".toList).2)
    else
      let expanded_path := expand_path w.home (parsed.2.getD 0 [])
      if is_path_in_s1 w.home expanded_path = false then
        (-1, (w.send_client "ERROR: File path must be within ~/S1".toList).2)
      else
        match get_file_extension expanded_path with
        | none => (-1, (w.send_client "ERROR: File must have an extension".toList).2)
        | some ext =>
          if valid_ext ext = false then (-1, (w.send_client msg_unsupported).2)
          else if strcmp_eq ext "c".toList then
            if w.fs.access expanded_path = false then
              (-1, (w.send_client "ERROR: File not found".toList).2)
            else send_file_to_client expanded_path (w.send_client "READY_TO_SEND".toList).2
          else
            let r := retrieve_file_from_server expanded_path (server_type_of_ext ext) w
            if r.1 ≠ 0 then
              (-1, (r.2.send_client "ERROR: Failed to retrieve file from server".toList).2)
            else
              let result := send_file_to_client expanded_path (r.2.send_client "READY_TO_SEND".toList).2
              (result.1, result.2.unlink expanded_path)

/-- The shard and port that `handle_remove_command` connects to for an extension. -/
def remove_target (ext : CStr) : Option (Int × Nat) :=
  if strcmp_eq ext "pdf".toList then some (2, S2_PORT)
  else if strcmp_eq ext "txt".toList then some (3, S3_PORT)
  else if strcmp_eq ext "zip".toList then some (4, S4_PORT)
  else none

def msg_removed : CStr := "SUCCESS: File removed successfully".toList

/-- The function `handle_remove_command` of S1.c. -/
def handle_remove_command (command : CStr) (w : World) : Int × World :=
  match sscanf "removef".toList [MAX_FILEPATH] command with
  | none => (-1, w.undefined_behaviour)
  | some parsed =>
    if parsed.1 ≠ 1 then
      (-1, (w.send_client "ERROR: Invalid removef command syntax".toList).2)
    else
      let expanded_path := expand_path w.home (parsed.2.getD 0 [])
      if is_path_in_s1 w.home expanded_path = false then
        (-1, (w.send_client "ERROR: File path must be within ~/S1".toList).2)
      else
        match get_file_extension expanded_path with
        | none => (-1, (w.send_client "ERROR: File must have an extension".toList).2)
        | some ext =>
          if valid_ext ext = false then (-1, (w.send_client msg_unsupported).2)
          else if strcmp_eq ext "c".toList then
            match (w.fs.remove expanded_path).1 with
            | some errno =>
              (-1, ((w.unlink expanded_path).send_client
                ("ERROR: Failed to remove file - ".toList ++ strerror errno)).2)
            | none => (0, ((w.unlink expanded_path).send_client msg_removed).2)
          else
            match remove_target ext with
            | none => (-1, (w.send_client "ERROR: Failed to connect to server".toList).2)
            | some target =>
              match (w.connect_to_server target.2).1 with
              | none =>
                (-1, ((w.connect_to_server target.2).2.send_client
                  "ERROR: Failed to connect to server".toList).2)
              | some s =>
                let w1 := (w.connect_to_server target.2).2
                let server_command := snprintf COMMAND_SIZE
                  ("REMOVE ".toList ++ get_corresponding_server_path w.home expanded_path target.1)
                let r1 := w1.send_server target.2 s server_command
                if r1.1 < 0 then
                  (-1, ((r1.2.2.close_server target.2).send_client
                    "ERROR: Failed to send command to server".toList).2)
                else
                  let r2 := recv (BUFFER_SIZE - 1) r1.2.1.inbox
                  if r2.1 ≤ 0 then
                    (-1, ((r1.2.2.close_server target.2).send_client
                      "ERROR: Failed to receive response from server".toList).2)
                  else if strncmp_eq 7 (cstr r2.2.1) "SUCCESS".toList = false then
                    (-1, ((r1.2.2.close_server target.2).send_client (cstr r2.2.1)).2)
                  else (0, ((r1.2.2.close_server target.2).send_client msg_removed).2)

/-- The loop `while (bytes_sent < bytes_read) { sent = send(client_socket, ...); if (sent <= 0) fail; bytes_sent += sent; }`
on the bytes still to be sent; the result is `true` when all were sent. -/
def send_all_client : Nat → List Char → World → Bool × World
  | 0, _, w => (true, w)
  | fuel + 1, pending, w =>
    if pending = [] then (true, w)
    else if (w.send_client pending).1 ≤ 0 then (false, (w.send_client pending).2)
    else send_all_client fuel (pending.drop (w.send_client pending).1.toNat) (w.send_client pending).2

/-- The transfer loop of the `c` branch of `handle_download_tar_command` over
the chunks `fread` returns. -/
def send_tar_chunks_client : List (List Char) → World → Int × World
  | [], w => (0, w)
  | chunk :: rest, w =>
    if (send_all_client chunk.length chunk w).1 then
      send_tar_chunks_client rest (send_all_client chunk.length chunk w).2
    else (-1, (send_all_client chunk.length chunk w).2)

/-- The shell command of the `c` branch of `handle_download_tar_command`. -/
def tar_command_c (s1_path : CStr) : CStr :=
  snprintf BUFFER_SIZE ("find \"".toList ++ s1_path
    ++ "\" -name \"*.c\" -type f | tar -cf - -T - 2>/dev/null".toList)

/-- The `c` branch of `handle_download_tar_command`. -/
def download_tar_local (w : World) : Int × World :=
  let cmd := tar_command_c (expand_path w.home S1_BASE_DIR)
  match (w.popen cmd).1 with
  | none => (-1, ((w.popen cmd).2.send_client "TAR_CREATION_FAILED".toList).2)
  | some counted =>
    let w1 := (w.popen cmd).2
    if counted.length = 0 then (-1, (w1.send_client "NO_FILES".toList).2)
    else
      match (w1.popen cmd).1 with
      | none => (-1, ((w1.popen cmd).2.send_client "TAR_CREATION_FAILED".toList).2)
      | some output =>
        let sent := (w1.popen cmd).2.send_client (fmt_int counted.length)
        if sent.1 ≤ 0 then (-1, sent.2)
        else
          let ack := sent.2.recv_client BUFFER_SIZE
          if ack.1 ≤ 0 then (-1, ack.2.2)
          else send_tar_chunks_client (fread_chunks BUFFER_SIZE output.length output) ack.2.2

/-- The loop `while (total_received < filesize)` of the `pdf`, `txt` and `zip`
branches of `handle_download_tar_command`. The variable `bytes_received` is a
`size_t`, so a failed `recv` makes it `2^64 - 1`, and the inner loop then hands
`send` more bytes than `buffer` holds. -/
def relay_tar_loop : Nat → Nat → Nat → Nat → Sock → World → Int × World
  | 0, _, _, port, _, w => (0, w.close_server port)
  | fuel + 1, filesize, total_received, port, s, w =>
    if total_received < filesize then
      let bytes_received : Nat := ((recv BUFFER_SIZE s.inbox).1 % (2 : Int) ^ 64).toNat
      if bytes_received = 0 then (0, w.close_server port)
      else if bytes_received > BUFFER_SIZE then (-1, w.undefined_behaviour)
      else if (send_all_client bytes_received (recv BUFFER_SIZE s.inbox).2.1 w).1 then
        relay_tar_loop fuel filesize (total_received + bytes_received) port
          { s with inbox := (recv BUFFER_SIZE s.inbox).2.2 }
          (send_all_client bytes_received (recv BUFFER_SIZE s.inbox).2.1 w).2
      else (-1, (send_all_client bytes_received (recv BUFFER_SIZE s.inbox).2.1 w).2.close_server port)
    else (0, w.close_server port)

/-- The `pdf`, `txt` and `zip` branches of `handle_download_tar_command`, which
differ in the port only. -/
def download_tar_remote (port : Nat) (filetype : CStr) (w : World) : Int × World :=
  match (w.connect_to_server port).1 with
  | none => (-1, ((w.connect_to_server port).2.send_client "SERVER_CONNECTION_FAILED".toList).2)
  | some s =>
    let r1 := (w.connect_to_server port).2.send_server port s
      (snprintf BUFFER_SIZE ("CREATETAR ".toList ++ filetype))
    if r1.1 ≤ 0 then
      (-1, ((r1.2.2.close_server port).send_client "SERVER_CONNECTION_FAILED".toList).2)
    else
      let r2 := recv (BUFFER_SIZE - 1) r1.2.1.inbox
      if strcmp_eq (cstr r2.2.1) "TAR_CREATION_FAILED".toList then
        (-1, ((r1.2.2.close_server port).send_client "TAR_CREATION_FAILED".toList).2)
      else
        let filesize := atol (cstr r2.2.1)
        if filesize ≤ 0 then
          (-1, ((r1.2.2.close_server port).send_client "TAR_CREATION_FAILED".toList).2)
        else
          let sent := r1.2.2.send_client (fmt_int filesize)
          if sent.1 ≤ 0 then (-1, sent.2.close_server port)
          else
            let ack := sent.2.recv_client BUFFER_SIZE
            if ack.1 ≤ 0 then (-1, ack.2.2.close_server port)
            else if ack.1 = BUFFER_SIZE ∧ Char.ofNat 0 ∉ ack.2.1 then (-1, ack.2.2.undefined_behaviour)
            else
              let fwd := ack.2.2.send_server port { r1.2.1 with inbox := r2.2.2 } (cstr ack.2.1)
              relay_tar_loop filesize.toNat filesize.toNat 0 port fwd.2.1 fwd.2.2

/-- The function `handle_download_tar_command` of S1.c. -/
def handle_download_tar_command (command : CStr) (w : World) : Int × World :=
  match sscanf "downltar".toList [BUFFER_SIZE] command with
  | none => (-1, w.undefined_behaviour)
  | some parsed =>
    if parsed.1 ≠ 1 then
      (-1, (w.send_client "ERROR: Invalid downltar command syntax".toList).2)
    else
      let filetype := parsed.2.getD 0 []
      if strcmp_eq filetype "c".toList then download_tar_local w
      else if strcmp_eq filetype "pdf".toList then download_tar_remote S2_PORT filetype w
      else if strcmp_eq filetype "txt".toList then download_tar_remote S3_PORT filetype w
      else if strcmp_eq filetype "zip".toList then download_tar_remote S4_PORT filetype w
      else (-1, (w.send_client "ERROR: Unsupported file type".toList).2)

/-- The `readdir` loop of `list_files_in_directory`: the names of the regular
files with extension `c`, each followed by a newline, in directory order. -/
def c_files_of : List Dirent → CStr
  | [] => []
  | entry :: rest =>
    if entry.d_reg = true ∧ get_file_extension entry.d_name = some "c".toList then
      entry.d_name ++ "\n".toList ++ c_files_of rest
    else c_files_of rest

/-- One of the three blocks `server_socket = connect_to_server(...); if (server_socket >= 0) ...`
of `list_files_in_directory`: the text copied into the block and the world afterwards. -/
def list_from_server (port : Nat) (server_type : Int) (ext path : CStr) (w : World) : CStr × World :=
  match (w.connect_to_server port).1 with
  | none => ([], (w.connect_to_server port).2)
  | some s =>
    let server_command := snprintf COMMAND_SIZE
      ("LIST ".toList ++ get_corresponding_server_path w.home path server_type ++ " ".toList ++ ext)
    let r := (w.connect_to_server port).2.send_server port s server_command
    if r.1 ≥ 0 then
      (if (recv (BUFFER_SIZE - 1) r.2.1.inbox).1 > 0 then cstr (recv (BUFFER_SIZE - 1) r.2.1.inbox).2.1
        else [],
       r.2.2.close_server port)
    else ([], r.2.2.close_server port)

/-- The function `list_files_in_directory` of S1.c. -/
def list_files_in_directory (path : CStr) (w : World) : Int × World :=
  match w.fs.opendir path with
  | none => (-1, w)
  | some entries =>
    let c_files := c_files_of entries
    if c_files.length ≥ BUFFER_SIZE then (-1, w.undefined_behaviour)
    else
      let pdf := list_from_server S2_PORT 2 "pdf".toList path w
      let txt := list_from_server S3_PORT 3 "txt".toList path pdf.2
      let zip := list_from_server S4_PORT 4 "zip".toList path txt.2
      let file_list := c_files ++ pdf.1 ++ txt.1 ++ zip.1
      let ack := (zip.2.send_client "FILES_COMING".toList).2.recv_client (BUFFER_SIZE - 1)
      if ack.1 ≤ 0 ∨ cstr ack.2.1 ≠ "READY".toList then (-1, ack.2.2)
      else if file_list.length = 0 then
        (0, (ack.2.2.send_client "No files found in this directory".toList).2)
      else (0, (ack.2.2.send_client file_list).2)

/-- The function `handle_display_filenames_command` of S1.c. -/
def handle_display_filenames_command (command : CStr) (w : World) : Int × World :=
  match sscanf "dispfnames".toList [MAX_FILEPATH] command with
  | none => (-1, w.undefined_behaviour)
  | some parsed =>
    if parsed.1 ≠ 1 then
      (-1, (w.send_client "ERROR: Invalid dispfnames command syntax".toList).2)
    else
      let expanded_path := expand_path w.home (parsed.2.getD 0 [])
      if is_path_in_s1 w.home expanded_path = false then
        (-1, (w.send_client "ERROR: Path must be within ~/S1".toList).2)
      else if w.fs.is_dir expanded_path = false then
        (-1, (w.send_client "ERROR: Directory not found or is not a directory".toList).2)
      else
        let listed := list_files_in_directory expanded_path w
        if listed.1 ≠ 0 then (-1, (listed.2.send_client "ERROR: Failed to list files".toList).2)
        else (0, listed.2)

/-! ## The session loop of the router -/

/-- The chain of `strncmp` tests in the body of the loop of `process_client`;
the value a handler returns is dropped. -/
def dispatch (command : CStr) (w : World) : World :=
  if strncmp_eq 8 command "uploadf ".toList then (handle_upload_command command w).2
  else if strncmp_eq 7 command "downlf ".toList then (handle_download_command command w).2
  else if strncmp_eq 8 command "removef ".toList then (handle_remove_command command w).2
  else if strncmp_eq 9 command "downltar ".toList then (handle_download_tar_command command w).2
  else if strncmp_eq 11 command "dispfnames ".toList then
    (handle_display_filenames_command command w).2
  else (w.send_client "ERROR: Invalid command".toList).2

/-- How a run of `process_client` ended: the loop was left by its `break`, with
the value of `bytes_received` at that moment, or the fuel of the model ran out. -/
inductive SessionEnd where
  | left_loop (bytes_received : Int)
  | no_fuel
deriving DecidableEq

/-- The function `process_client` of S1.c: `while (1) { recv; if (bytes_received <= 0) break; dispatch }`. -/
def process_client : Nat → World → SessionEnd × World
  | 0, w => (SessionEnd.no_fuel, w)
  | fuel + 1, w =>
    if (w.recv_client (COMMAND_SIZE - 1)).1 ≤ 0 then
      (SessionEnd.left_loop (w.recv_client (COMMAND_SIZE - 1)).1,
        (w.recv_client (COMMAND_SIZE - 1)).2.2)
    else
      process_client fuel
        (dispatch (cstr (w.recv_client (COMMAND_SIZE - 1)).2.1) (w.recv_client (COMMAND_SIZE - 1)).2.2)

/-! ## The receive routines of the shards -/

namespace S2

/-- The function `receive_file` of S2.c; the socket is `w.client`. -/
def receive_file (filepath : CStr) (w : World) : Int × World :=
  match w.fs.fopen_w filepath with
  | none => (-1, w)
  | some fs1 =>
    let r := recv_file_loop (inbox_size w.client.inbox + 1) filepath w.client.inbox fs1
    let w2 : World := { w with client := { w.client with inbox := r.2.1 }, fs := r.2.2 }
    match r.1 with
    | RecvEnd.done => (0, w2)
    | RecvEnd.write_failed => (-1, w2)
    | RecvEnd.recv_failed => (-1, w2)
    | RecvEnd.no_fuel => (-1, w2)

end S2

namespace S4

/-- The function `receive_file` of S4.c; the socket is `w.client`. -/
def receive_file (filepath : CStr) (w : World) : Int × World :=
  match (make_parent w filepath).fs.fopen_w filepath with
  | none => (-1, make_parent w filepath)
  | some fs1 =>
    let w1 := make_parent w filepath
    let r := recv_file_loop (inbox_size w1.client.inbox + 1) filepath w1.client.inbox fs1
    let w2 : World := { w1 with client := { w1.client with inbox := r.2.1 }, fs := r.2.2 }
    match r.1 with
    | RecvEnd.done => (0, w2)
    | RecvEnd.write_failed => (-1, w2)
    | RecvEnd.recv_failed => (-1, w2)
    | RecvEnd.no_fuel => (-1, w2)

end S4

/-! ## Definitions that follow the wording of the specification -/

/-- Spec wording: `path` with the first occurrence of `S1` replaced by `S<n>`. -/
def spec_translate (n : Int) : CStr → CStr
  | [] => []
  | c :: cs =>
    if "S1".toList.isPrefixOf (c :: cs) then ("S".toList ++ fmt_int n) ++ cs.drop 1
    else c :: spec_translate n cs

/-- Spec wording: the text after the last `.` of a name, when the name has a dot. -/
def text_after_last_dot (name : CStr) : Option CStr :=
  if '.' ∈ name then some (name.reverse.takeWhile (fun c => c ≠ '.')).reverse else none

/-- Spec wording: `pdf` maps to shard 2 on port 8387, `txt` to shard 3 on port 8388,
`zip` to shard 4 on port 8389; every other extension has no shard. -/
def spec_home_port (ext : CStr) : Option Nat :=
  if ext = "pdf".toList then some 8387
  else if ext = "txt".toList then some 8388
  else if ext = "zip".toList then some 8389
  else none

/-- The ports of the connection attempts logged in a trace, in order. -/
def connect_ports : List Event → List Nat
  | [] => []
  | Event.connect port _ :: rest => port :: connect_ports rest
  | _ :: rest => connect_ports rest

/-- The check `get_file_extension` returned `NULL` or an extension outside the four. -/
def missing_or_unsupported (ext : Option CStr) : Bool :=
  match ext with
  | none => true
  | some e => !valid_ext e

/-- The precondition checks of the router on a command: unknown command word,
bad syntax, path outside `~/S1`, missing or unsupported extension, unsupported
`downltar` tag, `dispfnames` directory missing. -/
def precondition_fails (w : World) (command : CStr) : Bool :=
  if strncmp_eq 8 command "uploadf ".toList then
    match sscanf "uploadf".toList [MAX_FILENAME, MAX_FILEPATH] command with
    | none => false
    | some parsed =>
      decide (parsed.1 ≠ 2)
        || !is_path_in_s1 w.home (expand_path w.home (parsed.2.getD 1 []))
        || missing_or_unsupported (get_file_extension (parsed.2.getD 0 []))
  else if strncmp_eq 7 command "downlf ".toList then
    match sscanf "downlf".toList [MAX_FILEPATH] command with
    | none => false
    | some parsed =>
      decide (parsed.1 ≠ 1)
        || !is_path_in_s1 w.home (expand_path w.home (parsed.2.getD 0 []))
        || missing_or_unsupported (get_file_extension (expand_path w.home (parsed.2.getD 0 [])))
  else if strncmp_eq 8 command "removef ".toList then
    match sscanf "removef".toList [MAX_FILEPATH] command with
    | none => false
    | some parsed =>
      decide (parsed.1 ≠ 1)
        || !is_path_in_s1 w.home (expand_path w.home (parsed.2.getD 0 []))
        || missing_or_unsupported (get_file_extension (expand_path w.home (parsed.2.getD 0 [])))
  else if strncmp_eq 9 command "downltar ".toList then
    match sscanf "downltar".toList [BUFFER_SIZE] command with
    | none => false
    | some parsed => decide (parsed.1 ≠ 1) || !valid_ext (parsed.2.getD 0 [])
  else if strncmp_eq 11 command "dispfnames ".toList then
    match sscanf "dispfnames".toList [MAX_FILEPATH] command with
    | none => false
    | some parsed =>
      decide (parsed.1 ≠ 1)
        || !is_path_in_s1 w.home (expand_path w.home (parsed.2.getD 0 []))
        || !w.fs.is_dir (expand_path w.home (parsed.2.getD 0 []))
  else true

/-- The shape of a rejection: one message to the client, beginning `ERROR: `,
no other call logged, no file written or deleted, no connection attempted. -/
def Rejected (w : World) (result : World) : Prop :=
  (∃ msg ret, result.trace = w.trace ++ [Event.send_client msg ret]
      ∧ "ERROR: ".toList.isPrefixOf msg = true)
    ∧ result.fs.files = w.fs.files ∧ result.net = w.net

/-- Chunk sequences in which only the last chunk is shorter than the buffer:
every chunk before the last has exactly `BUFFER_SIZE` bytes and the last has
between one and `BUFFER_SIZE` bytes. -/
def short_read_only_last : List (List Char) → Bool
  | [] => true
  | [c] => decide (1 ≤ c.length ∧ c.length ≤ BUFFER_SIZE)
  | c :: rest => decide (c.length = BUFFER_SIZE) && short_read_only_last rest

/-- The file system after appending `bytes` to the open file `p`. -/
def FS.appended (fs : FS) (p : CStr) (bytes : List Char) : FS :=
  { fs with
    files := fs.files.map (fun e => if e.1 = p then (e.1, e.2 ++ bytes) else e),
    space := fs.space - bytes.length }

/-! ## Sample inputs -/

/-- A file system with the home directory `/home/u` and the root `~/S1` of the router. -/
def sample_fs : FS :=
  { files := [], dirs := ["/home/u".toList, "/home/u/S1".toList], denied := [], space := 1000000 }

/-- A router whose client has sent `inbox` and whose connection attempts end as `net` says. -/
def sample_world (inbox : Inbox) (net : List (Option Sock)) : World :=
  { home := some "/home/u".toList, fs := sample_fs, client := Sock.mk inbox [], net := net,
    pipes := [], trace := [], undefined := false }


/-! ## File names in a listing -/

/-- The function `strcmp`: zero for equal strings, otherwise the difference of
the first two bytes that differ. The end of a list counts as the byte 0 that
ends a string, and the comparison stops at a byte 0 the two strings share. -/
def strcmp : CStr → CStr → Int
  | [], [] => 0
  | [], b :: _ => -(b.toNat : Int)
  | a :: _, [] => (a.toNat : Int)
  | a :: as, b :: bs =>
    if a = b then (if a = Char.ofNat 0 then 0 else strcmp as bs)
    else (a.toNat : Int) - (b.toNat : Int)

/-- The names that the `readdir` loops of the shards keep: those of the regular
files whose extension is `extension`, in directory order. -/
def matching_names (extension : CStr) : List Dirent → List CStr
  | [] => []
  | entry :: rest =>
    if entry.d_reg = true ∧ get_file_extension entry.d_name = some extension then
      entry.d_name :: matching_names extension rest
    else matching_names extension rest

/-- The loop `for (...) { strcat(result, filenames[i]); strcat(result, "\n"); }`. -/
def join_lines : List CStr → CStr
  | [] => []
  | name :: rest => name ++ "\n".toList ++ join_lines rest

/-! ## The shard S2 -/

namespace S2

def PATH_MAX_LEN : Nat := 1024
def CMD_SIZE : Nat := 1024
def S2_BASE_DIR : CStr := "~/S2".toList

/-- The function `send_file` of S2.c; the socket is `w.client`. -/
def send_file (filepath : CStr) (w : World) : Int × World :=
  match w.fs.fopen_r filepath with
  | none => (-1, w)
  | some content => send_chunks_client (fread_chunks BUFFER_SIZE content.length content) w

/-- The call `qsort(filenames, count, sizeof(char *), compare_strings)`, by the
contract of the library routine: the array in non-decreasing order under
`strcmp`. Strings that compare equal are equal, so their order is the same
under every sorting method. -/
def qsort (filenames : List CStr) : List CStr :=
  filenames.insertionSort (fun a b => strcmp a b ≤ 0)

/-- The function `get_sorted_files` of S2.c: the text left in `result`, which
the caller has filled with zeros. The value is `none` when the names do not
fit the `BUFFER_SIZE` bytes of `result`. -/
def get_sorted_files (dirpath extension : CStr) (fs : FS) : Option CStr :=
  match fs.opendir dirpath with
  | none => some []
  | some entries =>
    if (join_lines (qsort (matching_names extension entries))).length < BUFFER_SIZE then
      some (join_lines (qsort (matching_names extension entries)))
    else none

/-- The branch `strcmp(cmd_type, "RECEIVE") == 0` of `process_s1_request`.
The function `create_directory_recursive` has the text of `create_directory_path` of S1.c. -/
def receive_branch (arg1 arg2 : CStr) (w : World) : World :=
  let filepath := snprintf PATH_MAX_LEN (expand_path w.home arg2 ++ "/".toList ++ arg1)
  (receive_file filepath ((make_parent w filepath).send_client "READY_TO_RECEIVE".toList).2).2

/-- The branch `strcmp(cmd_type, "SEND") == 0` of `process_s1_request`. -/
def send_branch (arg1 : CStr) (w : World) : World :=
  if w.fs.access (expand_path w.home arg1) = false then
    (w.send_client "ERROR: File not found".toList).2
  else (send_file (expand_path w.home arg1) (w.send_client "READY_TO_SEND".toList).2).2

/-- The branch `strcmp(cmd_type, "REMOVE") == 0` of `process_s1_request`. -/
def remove_branch (arg1 : CStr) (w : World) : World :=
  if w.fs.access (expand_path w.home arg1) = false then
    (w.send_client "ERROR: File not found".toList).2
  else
    match (w.fs.remove (expand_path w.home arg1)).1 with
    | none => ((w.unlink (expand_path w.home arg1)).send_client "SUCCESS: File removed".toList).2
    | some errno =>
      ((w.unlink (expand_path w.home arg1)).send_client
        (snprintf BUFFER_SIZE ("ERROR: Failed to remove file - ".toList ++ strerror errno))).2

/-- The shell command of the branch `CREATETAR`. -/
def tar_command (s2_path : CStr) : CStr :=
  snprintf CMD_SIZE ("find \"".toList ++ s2_path
    ++ "\" -name \"*.pdf\" -type f | tar -cf - -T - 2>/dev/null".toList)

/-- The branch `strcmp(cmd_type, "CREATETAR") == 0` of `process_s1_request`. -/
def createtar_branch (arg1 : CStr) (w : World) : World :=
  if strcmp_eq arg1 "pdf".toList = false then (w.send_client "INVALID_FILETYPE".toList).2
  else
    let cmd := tar_command (expand_path w.home S2_BASE_DIR)
    match (w.popen cmd).1 with
    | none => ((w.popen cmd).2.send_client "TAR_CREATION_FAILED".toList).2
    | some counted =>
      let w1 := (w.popen cmd).2
      if counted.length = 0 then (w1.send_client "NO_FILES".toList).2
      else
        match (w1.popen cmd).1 with
        | none => ((w1.popen cmd).2.send_client "TAR_CREATION_FAILED".toList).2
        | some output =>
          let sent := (w1.popen cmd).2.send_client (fmt_int counted.length)
          if sent.1 ≤ 0 then sent.2
          else
            let ack := sent.2.recv_client (BUFFER_SIZE - 1)
            if ack.1 ≤ 0 then ack.2.2
            else (send_tar_chunks_client (fread_chunks BUFFER_SIZE output.length output) ack.2.2).2

/-- The branch `strcmp(cmd_type, "LIST") == 0` of `process_s1_request`. -/
def list_branch (arg1 arg2 : CStr) (w : World) : World :=
  if w.fs.is_dir (expand_path w.home arg1) = false then (w.send_client []).2
  else
    match get_sorted_files (expand_path w.home arg1) arg2 w.fs with
    | none => w.undefined_behaviour
    | some result => (w.send_client result).2

/-- The chain of `strcmp` tests on `cmd_type` in `process_s1_request`. -/
def run_command (cmd_type arg1 arg2 : CStr) (w : World) : World :=
  if strcmp_eq cmd_type "RECEIVE".toList then receive_branch arg1 arg2 w
  else if strcmp_eq cmd_type "SEND".toList then send_branch arg1 w
  else if strcmp_eq cmd_type "REMOVE".toList then remove_branch arg1 w
  else if strcmp_eq cmd_type "CREATETAR".toList then createtar_branch arg1 w
  else if strcmp_eq cmd_type "LIST".toList then list_branch arg1 arg2 w
  else (w.send_client "ERROR: Unknown command".toList).2

/-- The function `process_s1_request` of S2.c; the socket is `w.client`. The
three buffers of `sscanf(command, "%s %s %s", cmd_type, arg1, arg2)` start
filled with zeros, so a missing field is the empty string. -/
def process_s1_request (w : World) : World :=
  if (w.recv_client (CMD_SIZE - 1)).1 ≤ 0 then (w.recv_client (CMD_SIZE - 1)).2.2
  else
    match sscanf [] [20, PATH_MAX_LEN, PATH_MAX_LEN] (cstr (w.recv_client (CMD_SIZE - 1)).2.1) with
    | none => (w.recv_client (CMD_SIZE - 1)).2.2.undefined_behaviour
    | some parsed =>
      run_command (parsed.2.getD 0 []) (parsed.2.getD 1 []) (parsed.2.getD 2 [])
        (w.recv_client (CMD_SIZE - 1)).2.2

end S2

/-! ## The shard S4 -/

namespace S4

def S4_BASE_DIR : CStr := "~/S4".toList

/-- The function `send_file` of S4.c; the socket is `w.client`. -/
def send_file (filepath : CStr) (w : World) : Int × World :=
  match w.fs.fopen_r filepath with
  | none => (-1, w)
  | some content => send_chunks_client (fread_chunks BUFFER_SIZE content.length content) w

/-- The statements `temp = files[j]; files[j] = files[k]; files[k] = temp;`. -/
def swap (files : List CStr) (j k : Nat) : List CStr :=
  (files.set j (files.getD k [])).set k (files.getD j [])

/-- The loop `for (k = j + 1; k < i; k++) if (strcmp(files[j], files[k]) > 0) swap`
from the current value of `k`. -/
def sort_inner (j : Nat) : Nat → Nat → List CStr → List CStr
  | 0, _, files => files
  | fuel + 1, k, files =>
    if k < files.length then
      sort_inner j fuel (k + 1)
        (if strcmp (files.getD j []) (files.getD k []) > 0 then swap files j k else files)
    else files

/-- The loop `for (j = 0; j < i - 1; j++)` from the current value of `j`. -/
def sort_outer : Nat → Nat → List CStr → List CStr
  | 0, _, files => files
  | fuel + 1, j, files =>
    if j + 1 < files.length then sort_outer fuel (j + 1) (sort_inner j files.length (j + 1) files)
    else files

/-- The function `list_files_in_directory` of S4.c: its return value and the
text left in `file_list`, which the caller has filled with zeros. The value is
`none` when the names do not fit the `BUFFER_SIZE` bytes of `file_list`. The
first pass over the directory counts the matching entries and the second
stores at most that many. -/
def list_files_in_directory (path extension : CStr) (fs : FS) : Option (Int × CStr) :=
  match fs.opendir path with
  | none => some (-1, [])
  | some entries =>
    let count := (matching_names extension entries).length
    let files := (matching_names extension entries).take count
    if (join_lines (sort_outer files.length 0 files)).length < BUFFER_SIZE then
      some (0, join_lines (sort_outer files.length 0 files))
    else none

/-- The function `handle_receive_command` of S4.c. The function
`create_directory_path` of S4.c differs from the one of S1.c in a test
`len > 0`, which does not change what the call does. -/
def handle_receive_command (command : CStr) (w : World) : Int × World :=
  match sscanf "RECEIVE".toList [MAX_FILENAME, MAX_FILEPATH] command with
  | none => (-1, w.undefined_behaviour)
  | some parsed =>
    if parsed.1 ≠ 2 then
      (-1, (w.send_client "ERROR: Invalid RECEIVE command syntax".toList).2)
    else
      let expanded_path := expand_path w.home (parsed.2.getD 1 [])
      let d := w.create_directory_path expanded_path
      if d.1 ≠ 0 then
        (-1, (d.2.send_client "ERROR: Failed to create destination directory".toList).2)
      else
        let filepath := snprintf MAX_FILEPATH (expanded_path ++ "/".toList ++ parsed.2.getD 0 [])
        let r := receive_file filepath (d.2.send_client "READY_TO_RECEIVE".toList).2
        if r.1 ≠ 0 then (-1, (r.2.send_client "ERROR: Failed to receive file".toList).2)
        else (0, (r.2.send_client "SUCCESS: File received and stored successfully".toList).2)

/-- The function `handle_send_command` of S4.c. -/
def handle_send_command (command : CStr) (w : World) : Int × World :=
  match sscanf "SEND".toList [MAX_FILEPATH] command with
  | none => (-1, w.undefined_behaviour)
  | some parsed =>
    if parsed.1 ≠ 1 then (-1, (w.send_client "ERROR: Invalid SEND command syntax".toList).2)
    else if w.fs.access (expand_path w.home (parsed.2.getD 0 [])) = false then
      (-1, (w.send_client "ERROR: File not found".toList).2)
    else
      send_file (expand_path w.home (parsed.2.getD 0 [])) (w.send_client "READY_TO_SEND".toList).2

/-- The function `handle_remove_command` of S4.c. -/
def handle_remove_command (command : CStr) (w : World) : Int × World :=
  match sscanf "REMOVE".toList [MAX_FILEPATH] command with
  | none => (-1, w.undefined_behaviour)
  | some parsed =>
    if parsed.1 ≠ 1 then (-1, (w.send_client "ERROR: Invalid REMOVE command syntax".toList).2)
    else
      match (w.fs.remove (expand_path w.home (parsed.2.getD 0 []))).1 with
      | some errno =>
        (-1, ((w.unlink (expand_path w.home (parsed.2.getD 0 []))).send_client
          (snprintf BUFFER_SIZE ("ERROR: Failed to remove file - ".toList ++ strerror errno))).2)
      | none =>
        (0, ((w.unlink (expand_path w.home (parsed.2.getD 0 []))).send_client
          "SUCCESS: File removed successfully".toList).2)

/-- The function `handle_list_command` of S4.c. -/
def handle_list_command (command : CStr) (w : World) : Int × World :=
  match sscanf "LIST".toList [MAX_FILEPATH, 10] command with
  | none => (-1, w.undefined_behaviour)
  | some parsed =>
    if parsed.1 ≠ 2 then (-1, (w.send_client "ERROR: Invalid LIST command syntax".toList).2)
    else if w.fs.is_dir (expand_path w.home (parsed.2.getD 0 [])) = false then
      (0, (w.send_client []).2)
    else
      match list_files_in_directory (expand_path w.home (parsed.2.getD 0 []))
          (parsed.2.getD 1 []) w.fs with
      | none => (-1, w.undefined_behaviour)
      | some listed => (0, (w.send_client listed.2).2)

/-- The shell command of `handle_create_tar_command`. -/
def tar_command (s4_dir tar_filename : CStr) : CStr :=
  snprintf COMMAND_SIZE ("find ".toList ++ s4_dir
    ++ " -name \"*.zip\" -type f -print0 | tar -cvf ".toList ++ tar_filename
    ++ " --null -T -".toList)

/-- The function `handle_create_tar_command` of S4.c. -/
def handle_create_tar_command (command : CStr) (w : World) : Int × World :=
  match sscanf "CREATE_TAR".toList [10] command with
  | none => (-1, w.undefined_behaviour)
  | some parsed =>
    if parsed.1 ≠ 1 then
      (-1, (w.send_client "ERROR: Invalid CREATE_TAR command syntax".toList).2)
    else if strcmp_eq (parsed.2.getD 0 []) "zip".toList = false then
      (-1, (w.send_client "ERROR: S4 only handles zip files".toList).2)
    else
      let tar_filename := "zip.tar".toList
      let made := w.system_tar (tar_command (expand_path w.home S4_BASE_DIR) tar_filename)
        tar_filename
      if made.1 = false then
        (-1, (made.2.send_client "ERROR: Failed to create tar file".toList).2)
      else if made.2.fs.access tar_filename = false then
        (-1, (made.2.send_client "ERROR: Failed to create tar file".toList).2)
      else
        let ready := made.2.send_client
          (snprintf BUFFER_SIZE ("READY_TO_SEND_TAR ".toList ++ tar_filename))
        let ack := ready.2.recv_client (BUFFER_SIZE - 1)
        if ack.1 ≤ 0 ∨ cstr ack.2.1 ≠ "READY".toList then (-1, ack.2.2.unlink tar_filename)
        else
          let result := send_file tar_filename ack.2.2
          (result.1, result.2.unlink tar_filename)

/-- The chain of `strncmp` tests of `process_client_request`; the value a
handler returns is dropped. -/
def dispatch (command : CStr) (w : World) : World :=
  if strncmp_eq 8 command "RECEIVE ".toList then (handle_receive_command command w).2
  else if strncmp_eq 5 command "SEND ".toList then (handle_send_command command w).2
  else if strncmp_eq 7 command "REMOVE ".toList then (handle_remove_command command w).2
  else if strncmp_eq 5 command "LIST ".toList then (handle_list_command command w).2
  else if strncmp_eq 11 command "CREATE_TAR ".toList then (handle_create_tar_command command w).2
  else (w.send_client "ERROR: Invalid command".toList).2

/-- The function `process_client_request` of S4.c; the socket is `w.client`. -/
def process_client_request (w : World) : World :=
  if (w.recv_client (COMMAND_SIZE - 1)).1 ≤ 0 then (w.recv_client (COMMAND_SIZE - 1)).2.2
  else
    dispatch (cstr (w.recv_client (COMMAND_SIZE - 1)).2.1) (w.recv_client (COMMAND_SIZE - 1)).2.2

end S4

/-! ## Definitions used to state the properties of listings -/

/-- The buffers handed to `send` on the client socket, in the order of the calls. -/
def client_sends : List Event → List (List Char)
  | [] => []
  | Event.send_client buf _ :: rest => buf :: client_sends rest
  | _ :: rest => client_sends rest

/-- Spec wording: the lines a shard contributes to a listing. A shard that
cannot be reached, that does not take the command or that sends nothing
contributes no lines; otherwise the lines are its reply, as the C string the
router finds in a buffer of `BUFFER_SIZE` bytes. -/
def shard_block (conn : Option Sock) : CStr :=
  match conn with
  | none => []
  | some s =>
    if s.sends.head? = some none then []
    else
      match s.inbox with
      | Recv.data reply :: _ => cstr (reply.take (BUFFER_SIZE - 1))
      | _ => []

/-- Spec wording: the listing of a directory: the block of `c` names of the
router, then the blocks of the shards asked for `pdf`, `txt` and `zip`, whose
connections are attempted in that order. -/
def spec_listing (c_block : CStr) (net : List (Option Sock)) : CStr :=
  c_block ++ shard_block net.head?.join ++ shard_block net.tail.head?.join
    ++ shard_block net.tail.tail.head?.join

/-- A file system in which `~/S1/d` holds `b.c`, `a.c` and `notes.md`, which
`readdir` yields in this order, and `~/S1/e` is empty. -/
def listing_fs : FS :=
  { files := [("/home/u/S1/d/b.c".toList, "int b;".toList),
              ("/home/u/S1/d/a.c".toList, "int a;".toList),
              ("/home/u/S1/d/notes.md".toList, "notes".toList)],
    dirs := ["/home/u".toList, "/home/u/S1".toList, "/home/u/S1/d".toList,
             "/home/u/S1/e".toList],
    denied := [], space := 1000000 }

/-- A router over `listing_fs` whose client acknowledges with `READY` and whose
connection attempts end as `net` says. -/
def listing_world (net : List (Option Sock)) : World :=
  { home := some "/home/u".toList, fs := listing_fs,
    client := Sock.mk [Recv.data "READY".toList] [], net := net,
    pipes := [], trace := [], undefined := false }

/-- A file system of a shard host: `~/S2/d` holds `b.pdf`, `a.pdf` and `c.txt`
and `~/S4/d` holds `z.zip` and `y.zip`, which `readdir` yields in these orders. -/
def shard_fs : FS :=
  { files := [("/home/u/S2/d/b.pdf".toList, "B".toList),
              ("/home/u/S2/d/a.pdf".toList, "A".toList),
              ("/home/u/S2/d/c.txt".toList, "C".toList),
              ("/home/u/S4/d/z.zip".toList, "Z".toList),
              ("/home/u/S4/d/y.zip".toList, "Y".toList)],
    dirs := ["/home/u".toList, "/home/u/S2".toList, "/home/u/S2/d".toList,
             "/home/u/S4".toList, "/home/u/S4/d".toList],
    denied := [], space := 1000000 }

/-- A shard over `shard_fs` to which the router has sent `inbox` and on which
the archiver produces the outputs `pipes`. -/
def shard_world (inbox : Inbox) (pipes : List (Option (List Char))) : World :=
  { home := some "/home/u".toList, fs := shard_fs, client := Sock.mk inbox [], net := [],
    pipes := pipes, trace := [], undefined := false }

/-- Spec wording: a status line begins with `SUCCESS:` or `ERROR:`. -/
def is_status (msg : CStr) : Bool :=
  "SUCCESS:".toList.isPrefixOf msg || "ERROR:".toList.isPrefixOf msg

/-! ## Definitions used to state the properties of command lines -/

/-- Spec wording: the whitespace-separated words of the rest of a line, `cur`
holding the characters of the word being read, last character first. -/
def words_go : CStr → CStr → List CStr
  | cur, [] => if cur = [] then [] else [cur.reverse]
  | cur, c :: cs =>
    if isspace c then (if cur = [] then words_go [] cs else cur.reverse :: words_go [] cs)
    else words_go (c :: cur) cs

/-- Spec wording: the whitespace-separated words of a line: the command word
followed by the arguments. -/
def words (line : CStr) : List CStr := words_go [] line

/-- Spec wording: the number of arguments the grammar gives each command word:
two for `uploadf`, one for `downlf`, `removef`, `downltar` and `dispfnames`. -/
def grammar_args (word : CStr) : Option Nat :=
  if word = "uploadf".toList then some 2
  else if word = "downlf".toList ∨ word = "removef".toList ∨ word = "downltar".toList
      ∨ word = "dispfnames".toList then some 1
  else none

/-! ## The client w25clients.c

The client runs in a `World` of its own: `client` is its connection to the
router and `fs` is the directory it was started in. What it prints is not
modelled. -/

namespace W25

def CMD_SIZE : Nat := 1024

/-- The function `validate_file_existence`: `stat` succeeds on a regular file. -/
def validate_file_existence (fs : FS) (filename : CStr) : Bool := fs.is_file filename

/-- The function `validate_file_extension`. -/
def validate_file_extension (filename : CStr) : Bool :=
  match strrchr '.' filename with
  | none => false
  | some dot =>
    if dot.length = filename.length then false
    else strcmp_eq dot.tail "c".toList || strcmp_eq dot.tail "pdf".toList
      || strcmp_eq dot.tail "txt".toList || strcmp_eq dot.tail "zip".toList

/-- The function `validate_s1_path`: the test `strncmp(path, "~/S1", 4) == 0`. -/
def validate_s1_path (path : CStr) : Bool := strncmp_eq 4 path "~/S1".toList

/-- The function `validate_tar_filetype`. -/
def validate_tar_filetype (filetype : CStr) : Bool :=
  strcmp_eq filetype "c".toList || strcmp_eq filetype "pdf".toList
    || strcmp_eq filetype "txt".toList

/-- The function `send_file_to_server`. -/
def send_file_to_server (filename : CStr) (w : World) : Int × World :=
  match w.fs.fopen_r filename with
  | none => (-1, w)
  | some content => send_chunks_client (fread_chunks BUFFER_SIZE content.length content) w

/-- The function `receive_file_from_server`. -/
def receive_file_from_server (filename : CStr) (w : World) : Int × World :=
  match w.fs.fopen_w filename with
  | none => (-1, w)
  | some fs1 =>
    let r := recv_file_loop (inbox_size w.client.inbox + 1) filename w.client.inbox fs1
    let w2 : World := { w with client := { w.client with inbox := r.2.1 }, fs := r.2.2 }
    match r.1 with
    | RecvEnd.done => (0, w2)
    | RecvEnd.write_failed => (-1, w2)
    | RecvEnd.recv_failed => (-1, w2)
    | RecvEnd.no_fuel => (-1, w2)

/-- The function `handle_uploadf`. -/
def handle_uploadf (filename destination : CStr) (w : World) : Int × World :=
  if validate_file_existence w.fs filename = false then (-1, w)
  else if validate_file_extension filename = false then (-1, w)
  else if validate_s1_path destination = false then (-1, w)
  else
    let sent := w.send_client (snprintf CMD_SIZE
      ("uploadf ".toList ++ basename filename ++ " ".toList ++ destination))
    if sent.1 < 0 then (-1, sent.2)
    else
      let r := sent.2.recv_client (BUFFER_SIZE - 1)
      if r.1 ≤ 0 then (-1, r.2.2)
      else if cstr r.2.1 ≠ "READY_TO_RECEIVE".toList then (-1, r.2.2)
      else
        let s := send_file_to_server filename r.2.2
        if s.1 ≠ 0 then (-1, s.2)
        else
          let f := s.2.recv_client (BUFFER_SIZE - 1)
          if f.1 ≤ 0 then (-1, f.2.2) else (0, f.2.2)

/-- The function `handle_downlf`. -/
def handle_downlf (filepath : CStr) (w : World) : Int × World :=
  if validate_s1_path filepath = false then (-1, w)
  else
    let sent := w.send_client (snprintf CMD_SIZE ("downlf ".toList ++ filepath))
    if sent.1 < 0 then (-1, sent.2)
    else
      let r := sent.2.recv_client (BUFFER_SIZE - 1)
      if r.1 ≤ 0 then (-1, r.2.2)
      else if cstr r.2.1 ≠ "READY_TO_SEND".toList then (-1, r.2.2)
      else
        let got := receive_file_from_server (basename filepath) r.2.2
        if got.1 ≠ 0 then (-1, got.2) else (0, got.2)

/-- The function `handle_removef`. -/
def handle_removef (filepath : CStr) (w : World) : Int × World :=
  if validate_s1_path filepath = false then (-1, w)
  else
    let sent := w.send_client (snprintf CMD_SIZE ("removef ".toList ++ filepath))
    if sent.1 < 0 then (-1, sent.2)
    else
      let r := sent.2.recv_client (BUFFER_SIZE - 1)
      if r.1 ≤ 0 then (-1, r.2.2) else (0, r.2.2)

/-- The function `handle_downltar`; `tar_filename` has 256 bytes. -/
def handle_downltar (filetype : CStr) (w : World) : Int × World :=
  if validate_tar_filetype filetype = false then (-1, w)
  else
    let sent := w.send_client (snprintf CMD_SIZE ("downltar ".toList ++ filetype))
    if sent.1 < 0 then (-1, sent.2)
    else
      let r := sent.2.recv_client (BUFFER_SIZE - 1)
      if r.1 ≤ 0 then (-1, r.2.2)
      else
        match sscanf "READY_TO_SEND_TAR".toList [256] (cstr r.2.1) with
        | none => (-1, r.2.2.undefined_behaviour)
        | some parsed =>
          if parsed.1 ≠ 1 then (-1, r.2.2)
          else
            let ready := r.2.2.send_client "READY".toList
            if ready.1 < 0 then (-1, ready.2)
            else
              let got := receive_file_from_server (parsed.2.getD 0 []) ready.2
              if got.1 ≠ 0 then (-1, got.2) else (0, got.2)

/-- The function `handle_dispfnames`. -/
def handle_dispfnames (pathname : CStr) (w : World) : Int × World :=
  if validate_s1_path pathname = false then (-1, w)
  else
    let sent := w.send_client (snprintf CMD_SIZE ("dispfnames ".toList ++ pathname))
    if sent.1 < 0 then (-1, sent.2)
    else
      let r := sent.2.recv_client (BUFFER_SIZE - 1)
      if r.1 ≤ 0 then (-1, r.2.2)
      else if cstr r.2.1 ≠ "FILES_COMING".toList then (-1, r.2.2)
      else
        let ready := r.2.2.send_client "READY".toList
        if ready.1 < 0 then (-1, ready.2)
        else
          let list := ready.2.recv_client (BUFFER_SIZE - 1)
          if list.1 ≤ 0 then (-1, list.2.2) else (0, list.2.2)

end W25

/-- A client started in a directory that holds `note.pdf`, to which the router
sends `inbox`. -/
def client_world (inbox : Inbox) : World :=
  { home := some "/home/u".toList,
    fs := { files := [("note.pdf".toList, "%PDF".toList)], dirs := [], denied := [],
            space := 1000000 },
    client := Sock.mk inbox [], net := [], pipes := [], trace := [], undefined := false }

/-- A router whose directory `~/S1/d` holds the file `.c`. -/
def hidden_file_world : World :=
  { home := some "/home/u".toList,
    fs := { files := [("/home/u/S1/d/.c".toList, "x".toList)],
            dirs := ["/home/u".toList, "/home/u/S1".toList, "/home/u/S1/d".toList],
            denied := [], space := 1000000 },
    client := Sock.mk [Recv.data "x".toList] [], net := [], pipes := [], trace := [],
    undefined := false }

/-- The first buffer handed to `send` on the client socket after the calls
logged in `old`, in a run whose log is `new`. -/
def first_client_message (old new : List Event) : Option (List Char) :=
  ((client_sends new).drop (client_sends old).length).head?

/-- The buffers handed to `send` on a connection to a shard, each with the port
of the shard, in the order of the calls. -/
def server_sends : List Event → List (Nat × List Char)
  | [] => []
  | Event.send_server port buf _ :: rest => (port, buf) :: server_sends rest
  | _ :: rest => server_sends rest

/-- Spec wording: a token of a command line, free of whitespace and of NUL. -/
def is_token (s : CStr) : Bool := s.all (fun c => !isspace c && decide (c ≠ Char.ofNat 0))

/-- Spec wording: the block of `c` names of a directory: the names of its
regular files whose extension is `c`, each followed by a newline, in the order
in which `readdir` yields the entries. -/
def spec_c_block (entries : List Dirent) : CStr :=
  ((entries.filter
    (fun e => e.d_reg && decide (get_file_extension e.d_name = some "c".toList))).map
      (fun e => e.d_name ++ ['\n'])).flatten
/-! ## Path translation -/

theorem strncmp_eq_append (l : CStr) :
    ∀ p : CStr, strncmp_eq l.length p l = true → ∃ r, p = l ++ r := by
  induction l with
  | nil => intro p _; exact ⟨p, rfl⟩
  | cons a l ih =>
    intro p h
    cases p with
    | nil => simp [strncmp_eq] at h
    | cons b p =>
      simp only [List.length_cons, strncmp_eq] at h
      split at h
      · next hab =>
        obtain ⟨r, hr⟩ := ih p h
        exact ⟨r, by simp [hab, hr]⟩
      · simp at h

theorem server_digit (n : Int) (hn : n = 2 ∨ n = 3 ∨ n = 4) :
    ∃ d : Char, d ≠ '1' ∧ fmt_int n = [d] := by
  rcases hn with h | h | h <;> subst h
  · exact ⟨'2', by decide, by decide⟩
  · exact ⟨'3', by decide, by decide⟩
  · exact ⟨'4', by decide, by decide⟩

theorem S1_lit : "S1".toList = ['S', '1'] := by decide
theorem S_lit : "S".toList = ['S'] := by decide
theorem S1_BASE_DIR_lit : S1_BASE_DIR = ['~', '/', 'S', '1'] := by decide

theorem isPrefixOf_S1 (s : CStr) :
    "S1".toList.isPrefixOf s = true ↔ ∃ r, s = 'S' :: '1' :: r := by
  rw [S1_lit]
  constructor
  · intro h
    obtain ⟨r, hr⟩ := List.isPrefixOf_iff_prefix.mp h
    exact ⟨r, by simpa using hr.symm⟩
  · rintro ⟨r, rfl⟩
    exact List.isPrefixOf_iff_prefix.mpr ⟨r, by simp⟩

/-- Where `strstr` finds `S1`, the string splits there. -/
theorem strstr_S1_some : ∀ (s : CStr) (i : Nat), strstr ['S', '1'] s = some i →
    ∃ r, s = s.take i ++ 'S' :: '1' :: r ∧ (s.take i).length = i := by
  intro s
  induction s with
  | nil => intro i h; simp [strstr] at h
  | cons c cs ih =>
    intro i h
    unfold strstr at h
    split at h
    · next hp =>
      rw [← S1_lit] at hp
      obtain ⟨r, hr⟩ := (isPrefixOf_S1 _).mp hp
      simp at h; subst h
      exact ⟨r, by simpa using hr, by simp⟩
    · cases hs : strstr ['S', '1'] cs with
      | none => simp [hs] at h
      | some j =>
        simp [hs] at h
        subst h
        obtain ⟨r, hr, hl⟩ := ih j hs
        refine ⟨r, ?_, ?_⟩
        · simp only [List.take_succ_cons, List.cons_append]
          rw [← hr]
        · simp [hl]

theorem server_dest_path_def (p : CStr) (n : Int) :
    server_dest_path p n = match strstr ['S', '1'] p with
      | some s1_pos => memcpy p s1_pos (snprintf 3 ('S' :: fmt_int n)) 2
      | none => p := rfl

theorem server_dest_path_fix (p : CStr) (n : Int) (hn : n = 2 ∨ n = 3 ∨ n = 4) :
    server_dest_path (server_dest_path p n) n = server_dest_path p n
      ↔ strstr "S1".toList (server_dest_path p n) = none := by
  obtain ⟨d, hd, hf⟩ := server_digit n hn
  rw [S1_lit]
  generalize server_dest_path p n = q
  constructor
  · intro h
    cases hq : strstr ['S', '1'] q with
    | none => rfl
    | some i =>
      exfalso
      obtain ⟨r, hr, hl⟩ := strstr_S1_some _ i hq
      have h2 : server_dest_path q n = q.take i ++ 'S' :: d :: r := by
        rw [server_dest_path_def, hq]
        simp only [memcpy, snprintf, hf]
        conv_lhs => rw [hr]
        simp [hl, List.take_append_eq_append_take, List.drop_append_eq_append_drop]
      rw [h2] at h
      conv_rhs at h => rw [hr]
      simp at h
      exact hd h
  · intro h
    rw [server_dest_path_def, h]


theorem server_base_lit (d : Char) :
    snprintf MAX_FILEPATH ("~/S".toList ++ [d]) = ['~', '/', 'S', d] := by
  simp [snprintf, MAX_FILEPATH]

/-- The two bases have the same length, and it fits a path buffer. -/
theorem base_length (home : Option CStr) (d : Char) :
    (expand_path home ['~', '/', 'S', d]).length = (expand_path home S1_BASE_DIR).length
      ∧ (expand_path home ['~', '/', 'S', d]).length ≤ MAX_FILEPATH - 1 := by
  cases home with
  | none => simp [expand_path, S1_BASE_DIR_lit, MAX_FILEPATH]
  | some h => simp [expand_path, S1_BASE_DIR_lit, snprintf, MAX_FILEPATH]

theorem gcsp_def (home : Option CStr) (p : CStr) (n : Int) (d : Char) (hf : fmt_int n = [d]) :
    get_corresponding_server_path home p n
      = (expand_path home ['~', '/', 'S', d]
          ++ p.drop (expand_path home S1_BASE_DIR).length).take (MAX_FILEPATH - 1) := by
  have h := server_base_lit d
  simp only [snprintf] at h
  simp only [get_corresponding_server_path, hf, snprintf, h]

theorem gcsp_idem (home : Option CStr) (p : CStr) (n : Int) (hn : n = 2 ∨ n = 3 ∨ n = 4) :
    get_corresponding_server_path home (get_corresponding_server_path home p n) n
      = get_corresponding_server_path home p n := by
  obtain ⟨d, _, hf⟩ := server_digit n hn
  obtain ⟨hl, hle⟩ := base_length home d
  rw [gcsp_def home _ n d hf, gcsp_def home p n d hf]
  generalize p.drop (expand_path home S1_BASE_DIR).length = x
  rw [← hl]
  generalize expand_path home ['~', '/', 'S', d] = e at hle
  rw [List.take_append_eq_append_take, List.take_of_length_le hle]
  simp [List.take_append_eq_append_take, List.take_of_length_le hle, List.take_take]


theorem isPrefixOf_S1_cons (c : Char) (cs : CStr) :
    (['S', '1'] : CStr).isPrefixOf (c :: cs) = true ↔ c = 'S' ∧ cs.head? = some '1' := by
  cases cs with
  | nil => simp [List.isPrefixOf]
  | cons c2 r =>
    simp only [List.isPrefixOf, Bool.and_true, Bool.and_eq_true, beq_iff_eq, List.head?_cons,
      Option.some.injEq]
    constructor
    · rintro ⟨h1, h2⟩; exact ⟨h1.symm, h2.symm⟩
    · rintro ⟨h1, h2⟩; exact ⟨h1.symm, h2.symm⟩

theorem strstr_cons (needle : CStr) (c : Char) (cs : CStr) :
    strstr needle (c :: cs)
      = if needle.isPrefixOf (c :: cs) then some 0
        else (strstr needle cs).map (fun i => i + 1) := by
  rw [strstr]

theorem strstr_cons_none (c : Char) (cs : CStr) :
    strstr ['S', '1'] (c :: cs) = none
      ↔ ¬ (c = 'S' ∧ cs.head? = some '1') ∧ strstr ['S', '1'] cs = none := by
  rw [strstr_cons]
  by_cases hp : (['S', '1'] : CStr).isPrefixOf (c :: cs) = true
  · have := (isPrefixOf_S1_cons c cs).mp hp
    rw [if_pos hp]
    simp only [this, and_self, not_true_eq_false, false_and, iff_false]
    exact fun h => by cases h
  · have hn : ¬ (c = 'S' ∧ cs.head? = some '1') := fun h => hp ((isPrefixOf_S1_cons c cs).mpr h)
    rw [if_neg hp]
    cases strstr ['S', '1'] cs with
    | none => simp only [Option.map_none', true_iff, and_true]; exact hn
    | some v => simp

theorem spec_translate_cons (n : Int) (c : Char) (cs : CStr) :
    spec_translate n (c :: cs)
      = if c = 'S' ∧ cs.head? = some '1' then ('S' :: fmt_int n) ++ cs.drop 1
        else c :: spec_translate n cs := by
  rw [spec_translate, S1_lit, S_lit]
  by_cases hp : (['S', '1'] : CStr).isPrefixOf (c :: cs) = true
  · rw [if_pos hp, if_pos ((isPrefixOf_S1_cons c cs).mp hp)]
    rfl
  · have hn : ¬ (c = 'S' ∧ cs.head? = some '1') := fun h => hp ((isPrefixOf_S1_cons c cs).mpr h)
    rw [if_neg hp, if_neg hn]

theorem spec_translate_noS1 (n : Int) : ∀ s : CStr, strstr ['S', '1'] s = none →
    spec_translate n s = s := by
  intro s
  induction s with
  | nil => intro _; rfl
  | cons c cs ih =>
    intro h
    obtain ⟨h1, h2⟩ := (strstr_cons_none c cs).mp h
    rw [spec_translate_cons, if_neg h1, ih h2]

theorem noS1_take : ∀ (s : CStr) (m : Nat), strstr ['S', '1'] s = none →
    strstr ['S', '1'] (s.take m) = none := by
  intro s
  induction s with
  | nil => intro m _; simp [strstr]
  | cons c cs ih =>
    intro m h
    obtain ⟨h1, h2⟩ := (strstr_cons_none c cs).mp h
    cases m with
    | zero => simp [strstr]
    | succ m =>
      rw [List.take_succ_cons, strstr_cons_none]
      refine ⟨?_, ih m h2⟩
      rintro ⟨hc, hh⟩
      apply h1
      refine ⟨hc, ?_⟩
      cases cs with
      | nil => simp at hh
      | cons c2 r =>
        cases m with
        | zero => simp at hh
        | succ m => simpa using hh

theorem noS1_append_slash (x : CStr) (hx : strstr ['S', '1'] ('/' :: x) = none) :
    ∀ h : CStr, strstr ['S', '1'] h = none → strstr ['S', '1'] (h ++ '/' :: x) = none := by
  intro h
  induction h with
  | nil => intro _; simpa using hx
  | cons c cs ih =>
    intro hh
    obtain ⟨h1, h2⟩ := (strstr_cons_none c cs).mp hh
    rw [List.cons_append, strstr_cons_none]
    refine ⟨?_, ih h2⟩
    rintro ⟨hc, hd⟩
    apply h1
    refine ⟨hc, ?_⟩
    cases cs with
    | nil => simp at hd
    | cons c2 r => simpa using hd

theorem spec_translate_append_slash (n : Int) (x : CStr) :
    ∀ h : CStr, strstr ['S', '1'] h = none →
      spec_translate n (h ++ '/' :: x) = h ++ '/' :: spec_translate n x := by
  intro h
  induction h with
  | nil =>
    intro _
    rw [List.nil_append, spec_translate_cons, if_neg (by simp)]
    rfl
  | cons c cs ih =>
    intro hh
    obtain ⟨h1, h2⟩ := (strstr_cons_none c cs).mp hh
    have h3 : ¬ (c = 'S' ∧ (cs ++ '/' :: x).head? = some '1') := by
      rintro ⟨hc, hd⟩
      apply h1
      refine ⟨hc, ?_⟩
      cases cs with
      | nil => simp at hd
      | cons c2 r => simpa using hd
    rw [List.cons_append, spec_translate_cons, if_neg h3, ih h2]
    rfl


theorem take_append_last (h : CStr) (a b x : Char) (m : Nat) (hm : m ≤ h.length + 2) :
    (h ++ [a, b, x]).take m = (h ++ [a, b]).take m := by
  have e : h ++ [a, b, x] = (h ++ [a, b]) ++ [x] := by simp
  rw [e, List.take_append_of_le_length (by simpa using hm)]

theorem gcsp_eq_spec_translate (home : Option CStr) (p : CStr) (n : Int)
    (hn : n = 2 ∨ n = 3 ∨ n = 4) (hlen : p.length < MAX_FILEPATH)
    (hin : is_path_in_s1 home p = true)
    (hhome : ∀ h, home = some h → strstr "S1".toList h = none) :
    get_corresponding_server_path home p n = spec_translate n p := by
  obtain ⟨d, _, hf⟩ := server_digit n hn
  rw [gcsp_def home p n d hf]
  obtain ⟨r, hr⟩ := strncmp_eq_append _ p hin
  simp only [MAX_FILEPATH] at hlen ⊢
  cases home with
  | none =>
    have e1 : expand_path none S1_BASE_DIR = ['~', '/', 'S', '1'] := by decide
    have e2 : expand_path none ['~', '/', 'S', d] = ['~', '/', 'S', d] := by simp [expand_path]
    rw [e1] at hr
    subst hr
    rw [e1, e2]
    have hl : ('~' :: '/' :: 'S' :: d :: r).length ≤ 1023 := by simp at hlen ⊢; omega
    simp only [List.cons_append, List.nil_append, List.length_cons, List.length_nil,
      List.drop_succ_cons, List.drop_zero]
    rw [List.take_of_length_le hl]
    simp [spec_translate_cons, hf]
  | some h =>
    have hh : strstr ['S', '1'] h = none := by
      have := hhome h rfl
      rwa [S1_lit] at this
    have e1 : expand_path (some h) S1_BASE_DIR = (h ++ ['/', 'S', '1']).take 1023 := by
      simp [expand_path, S1_BASE_DIR_lit, snprintf, MAX_FILEPATH]
    have e2 : expand_path (some h) ['~', '/', 'S', d] = (h ++ ['/', 'S', d]).take 1023 := by
      simp [expand_path, snprintf, MAX_FILEPATH]
    rw [e1] at hr
    rw [e1, e2]
    by_cases hl : h.length + 3 ≤ 1023
    · rw [List.take_of_length_le (by simpa using hl)] at hr
      rw [List.take_of_length_le (l := h ++ ['/', 'S', '1']) (by simpa using hl),
        List.take_of_length_le (l := h ++ ['/', 'S', d]) (by simpa using hl)]
      subst hr
      have hl2 : (h ++ ['/', 'S', d] ++ r).length ≤ 1023 := by
        simp at hlen ⊢; omega
      simp only [List.length_append, List.length_cons, List.length_nil, List.drop_append,
        List.drop_left']
      rw [List.take_of_length_le hl2]
      rw [show h ++ ['/', 'S', '1'] ++ r = h ++ '/' :: ('S' :: '1' :: r) by simp,
        spec_translate_append_slash n _ h hh, spec_translate_cons]
      simp [hf]
    · have hm : 1023 ≤ h.length + 2 := by omega
      have hlt : ((h ++ ['/', 'S', '1']).take 1023).length = 1023 := by
        simp; omega
      have hr0 : r = [] := by
        have : p.length = 1023 + r.length := by rw [hr, List.length_append, hlt]
        have : r.length = 0 := by omega
        exact List.length_eq_zero.mp this
      subst hr0
      rw [List.append_nil] at hr
      subst hr
      rw [hlt, List.drop_of_length_le (by rw [hlt]), List.append_nil, List.take_take,
        Nat.min_self, take_append_last h _ _ _ _ hm, take_append_last h _ _ _ _ hm]
      symm
      apply spec_translate_noS1
      apply noS1_take
      apply noS1_append_slash _ _ h hh
      decide


/-! ## The file system and the receive loop -/

theorem lookup_map_update (p : CStr) (f : List Char → List Char) :
    ∀ files : List (CStr × List Char),
      List.lookup p (files.map (fun e => if e.1 = p then (e.1, f e.2) else e))
        = (List.lookup p files).map f := by
  intro files
  induction files with
  | nil => rfl
  | cons e rest ih =>
    obtain ⟨k, v⟩ := e
    by_cases hk : k = p
    · subst hk
      rw [List.map_cons, if_pos rfl]
      simp [List.lookup]
    · have hb : (p == k) = false := by simpa using fun h => hk h.symm
      rw [List.map_cons, if_neg hk]
      simp only [List.lookup, hb]
      exact ih

theorem lookup_append_new (p : CStr) (v : List Char) :
    ∀ files : List (CStr × List Char), List.lookup p files = none →
      List.lookup p (files ++ [(p, v)]) = some v := by
  intro files
  induction files with
  | nil => intro _; simp [List.lookup]
  | cons e rest ih =>
    obtain ⟨k, u⟩ := e
    intro h
    by_cases hk : p = k
    · subst hk; simp [List.lookup] at h
    · have hb : (p == k) = false := by simpa using hk
      simp only [List.lookup, hb] at h
      simp only [List.cons_append, List.lookup, hb]
      exact ih h

/-- A file that `fopen(p, "wb")` has opened exists and is empty. -/
theorem fopen_w_lookup (fs fs1 : FS) (p : CStr) (h : fs.fopen_w p = some fs1) :
    fs1.lookup p = some [] := by
  unfold FS.fopen_w at h
  split at h
  · cases h
  · split at h
    · next hf =>
      cases h
      simp only [FS.lookup]
      have := lookup_map_update p (fun _ => []) fs.files
      rw [this]
      simp only [FS.is_file, FS.lookup] at hf
      cases hl : List.lookup p fs.files with
      | none => simp [hl] at hf
      | some v => rfl
    · next hf =>
      cases h
      simp only [FS.lookup]
      apply lookup_append_new
      simp only [FS.is_file, FS.lookup] at hf
      cases hl : List.lookup p fs.files with
      | none => rfl
      | some v => simp [hl] at hf

theorem fopen_w_space (fs fs1 : FS) (p : CStr) (h : fs.fopen_w p = some fs1) :
    fs1.space = fs.space := by
  unfold FS.fopen_w at h
  split at h
  · cases h
  · split at h <;> cases h <;> rfl

theorem fwrite_enough (fs : FS) (p : CStr) (bytes : List Char) (h : bytes.length ≤ fs.space) :
    fs.fwrite p bytes = (bytes.length, fs.appended p bytes) := by
  simp only [FS.fwrite, FS.appended, Nat.min_eq_left h, List.take_length, ite_self]

theorem appended_nil (fs : FS) (p : CStr) : fs.appended p [] = fs := by
  obtain ⟨files, dirs, denied, space⟩ := fs
  simp only [FS.appended, List.append_nil, List.length_nil, Nat.sub_zero, FS.mk.injEq, and_true,
    true_and]
  conv_rhs => rw [← List.map_id files]
  apply List.map_congr_left
  intro e _
  split <;> rfl

theorem appended_appended (fs : FS) (p : CStr) (a b : List Char) :
    (fs.appended p a).appended p b = fs.appended p (a ++ b) := by
  simp only [FS.appended, List.map_map, List.length_append, FS.mk.injEq, true_and]
  refine ⟨?_, by omega⟩
  apply List.map_congr_left
  intro e _
  simp only [Function.comp]
  by_cases hk : e.1 = p
  · simp [hk]
  · simp [hk]

theorem appended_lookup (fs : FS) (p : CStr) (bytes : List Char) :
    (fs.appended p bytes).lookup p = (fs.lookup p).map (fun c => c ++ bytes) := by
  simp only [FS.appended, FS.lookup]
  exact lookup_map_update p (fun c => c ++ bytes) fs.files

theorem recv_data_fits (cap : Nat) (bytes : List Char) (rest : Inbox) (h : bytes.length ≤ cap) :
    recv cap (Recv.data bytes :: rest) = ((bytes.length : Int), bytes, rest) := by
  simp [recv, h]

/-- On a stream whose only short read is the last one, the loop writes every byte. -/
theorem recv_file_loop_good (path : CStr) :
    ∀ (chunks : List (List Char)) (fuel : Nat) (fs : FS),
      short_read_only_last chunks = true → chunks.length < fuel →
      chunks.flatten.length ≤ fs.space →
      recv_file_loop fuel path (chunks.map Recv.data) fs
        = (RecvEnd.done, [], fs.appended path chunks.flatten) := by
  intro chunks
  induction chunks with
  | nil =>
    intro fuel fs _ hf _
    cases fuel with
    | zero => simp at hf
    | succ fuel =>
      simp [recv_file_loop, recv, appended_nil]
  | cons c rest ih =>
    intro fuel fs hg hf hs
    cases fuel with
    | zero => simp at hf
    | succ fuel =>
      have hc : 1 ≤ c.length ∧ c.length ≤ BUFFER_SIZE ∧
          (c.length < BUFFER_SIZE → rest = []) ∧ short_read_only_last rest = true := by
        cases rest with
        | nil =>
          simp only [short_read_only_last, decide_eq_true_eq] at hg
          exact ⟨hg.1, hg.2, fun _ => rfl, rfl⟩
        | cons c2 r2 =>
          simp only [short_read_only_last, Bool.and_eq_true, decide_eq_true_eq] at hg
          refine ⟨by rw [hg.1]; decide, le_of_eq hg.1, fun h => by omega, ?_⟩
          exact hg.2
      obtain ⟨h1, h2, h3, h4⟩ := hc
      have hsp : c.length ≤ fs.space := by
        simp only [List.flatten_cons, List.length_append] at hs; omega
      rw [recv_file_loop, List.map_cons, recv_data_fits _ _ _ h2]
      simp only [fwrite_enough fs path c hsp]
      have hpos : ((c.length : Nat) : Int) > 0 := by omega
      rw [if_pos hpos, if_neg (by simp)]
      by_cases hsh : c.length < BUFFER_SIZE
      · have hr := h3 hsh
        subst hr
        rw [if_pos (by exact_mod_cast hsh)]
        simp
      · rw [if_neg (by intro h; exact hsh (by exact_mod_cast h))]
        rw [ih fuel (fs.appended path c) h4 (by simp at hf; omega)
          (by simp only [List.flatten_cons, List.length_append] at hs
              simp only [FS.appended]; omega)]
        rw [appended_appended]
        simp

theorem inbox_size_ge_length : ∀ inbox : Inbox, inbox.length ≤ inbox_size inbox := by
  intro inbox
  induction inbox with
  | nil => simp [inbox_size]
  | cons e rest ih =>
    cases e with
    | data b => simp only [inbox_size, List.length_cons]; omega
    | err => simp only [inbox_size, List.length_cons]; omega

/-- A successful `recv` shortens the queue. -/
theorem recv_decreases (cap : Nat) (inbox : Inbox) (h : (recv cap inbox).1 > 0) :
    inbox_size (recv cap inbox).2.2 < inbox_size inbox := by
  cases inbox with
  | nil => simp [recv] at h
  | cons e rest =>
    cases e with
    | err => simp [recv] at h
    | data b =>
      by_cases hb : b.length ≤ cap
      · simp only [recv, if_pos hb, inbox_size]; omega
      · simp only [recv, if_neg hb] at h ⊢
        simp only [inbox_size, List.length_drop]
        have : 0 < cap := by exact_mod_cast h
        omega

/-- The fuel the receive routines pass to the loop is never used up. -/
theorem recv_file_loop_fuel (path : CStr) : ∀ (fuel : Nat) (inbox : Inbox) (fs : FS),
    inbox_size inbox < fuel → (recv_file_loop fuel path inbox fs).1 ≠ RecvEnd.no_fuel := by
  intro fuel
  induction fuel with
  | zero => intro inbox fs h; simp at h
  | succ fuel ih =>
    intro inbox fs h
    rw [recv_file_loop]
    split
    · next hpos =>
      split
      · simp
      · split
        · simp
        · apply ih
          have := recv_decreases BUFFER_SIZE inbox hpos
          omega
    · split <;> simp

/-- The chunks `fread` returns make up the whole content. -/
theorem fread_chunks_flatten (n : Nat) (hn : 0 < n) : ∀ (fuel : Nat) (content : List Char),
    content.length ≤ fuel → (fread_chunks n fuel content).flatten = content := by
  intro fuel
  induction fuel with
  | zero =>
    intro content h
    have : content = [] := List.length_eq_zero.mp (Nat.le_zero.mp h)
    subst this
    rfl
  | succ fuel ih =>
    intro content h
    rw [fread_chunks]
    split
    · next he => rw [he]; rfl
    · next he =>
      have hpos : 0 < content.length := List.length_pos.mpr he
      rw [List.flatten_cons, ih (content.drop n) (by rw [List.length_drop]; omega),
        List.take_append_drop]

/-! ## Frame lemmas for the primitives of the world -/

@[simp] theorem send_client_fs (w : World) (buf : List Char) :
    (w.send_client buf).2.fs = w.fs := rfl
@[simp] theorem send_client_home (w : World) (buf : List Char) :
    (w.send_client buf).2.home = w.home := rfl
@[simp] theorem send_client_net (w : World) (buf : List Char) :
    (w.send_client buf).2.net = w.net := rfl
@[simp] theorem send_client_inbox (w : World) (buf : List Char) :
    (w.send_client buf).2.client.inbox = w.client.inbox := rfl
@[simp] theorem send_client_trace (w : World) (buf : List Char) :
    (w.send_client buf).2.trace
      = w.trace ++ [Event.send_client buf (send_result w.client.sends buf.length)] := rfl
@[simp] theorem recv_client_fs (w : World) (cap : Nat) :
    (w.recv_client cap).2.2.fs = w.fs := rfl
@[simp] theorem recv_client_trace (w : World) (cap : Nat) :
    (w.recv_client cap).2.2.trace = w.trace := rfl
@[simp] theorem recv_client_home (w : World) (cap : Nat) :
    (w.recv_client cap).2.2.home = w.home := rfl
@[simp] theorem recv_client_net (w : World) (cap : Nat) :
    (w.recv_client cap).2.2.net = w.net := rfl
@[simp] theorem connect_fst (w : World) (port : Nat) :
    (w.connect_to_server port).1 = w.net.head?.join := rfl
@[simp] theorem connect_fs (w : World) (port : Nat) :
    (w.connect_to_server port).2.fs = w.fs := rfl
@[simp] theorem connect_home (w : World) (port : Nat) :
    (w.connect_to_server port).2.home = w.home := rfl
@[simp] theorem connect_client (w : World) (port : Nat) :
    (w.connect_to_server port).2.client = w.client := rfl
@[simp] theorem connect_trace (w : World) (port : Nat) :
    (w.connect_to_server port).2.trace
      = w.trace ++ [Event.connect port w.net.head?.join.isSome] := rfl
@[simp] theorem send_server_fst (w : World) (port : Nat) (s : Sock) (buf : List Char) :
    (w.send_server port s buf).1 = send_result s.sends buf.length := rfl
@[simp] theorem send_server_inbox (w : World) (port : Nat) (s : Sock) (buf : List Char) :
    (w.send_server port s buf).2.1.inbox = s.inbox := rfl
@[simp] theorem send_server_sends (w : World) (port : Nat) (s : Sock) (buf : List Char) :
    (w.send_server port s buf).2.1.sends = s.sends.tail := rfl
@[simp] theorem send_server_fs (w : World) (port : Nat) (s : Sock) (buf : List Char) :
    (w.send_server port s buf).2.2.fs = w.fs := rfl
@[simp] theorem send_server_home (w : World) (port : Nat) (s : Sock) (buf : List Char) :
    (w.send_server port s buf).2.2.home = w.home := rfl
@[simp] theorem send_server_client (w : World) (port : Nat) (s : Sock) (buf : List Char) :
    (w.send_server port s buf).2.2.client = w.client := rfl
@[simp] theorem send_server_trace (w : World) (port : Nat) (s : Sock) (buf : List Char) :
    (w.send_server port s buf).2.2.trace
      = w.trace ++ [Event.send_server port buf (send_result s.sends buf.length)] := rfl
@[simp] theorem close_server_fs (w : World) (port : Nat) : (w.close_server port).fs = w.fs := rfl
@[simp] theorem close_server_home (w : World) (port : Nat) :
    (w.close_server port).home = w.home := rfl
@[simp] theorem close_server_client (w : World) (port : Nat) :
    (w.close_server port).client = w.client := rfl
@[simp] theorem close_server_trace (w : World) (port : Nat) :
    (w.close_server port).trace = w.trace ++ [Event.close_server port] := rfl
@[simp] theorem unlink_fs (w : World) (p : CStr) : (w.unlink p).fs = (w.fs.remove p).2 := rfl
@[simp] theorem unlink_trace (w : World) (p : CStr) : (w.unlink p).trace = w.trace := rfl
@[simp] theorem unlink_home (w : World) (p : CStr) : (w.unlink p).home = w.home := rfl
@[simp] theorem unlink_client (w : World) (p : CStr) : (w.unlink p).client = w.client := rfl
@[simp] theorem undefined_behaviour_trace (w : World) : w.undefined_behaviour.trace = w.trace := rfl
@[simp] theorem undefined_behaviour_fs (w : World) : w.undefined_behaviour.fs = w.fs := rfl

theorem send_result_nil (len : Nat) : send_result [] len = (len : Int) := rfl

/-! ## Directory creation leaves files alone -/

theorem mkdir_keeps (fs : FS) (p : CStr) :
    (fs.mkdir p).2.files = fs.files ∧ (fs.mkdir p).2.denied = fs.denied
      ∧ (fs.mkdir p).2.space = fs.space
      ∧ ∀ d ∈ (fs.mkdir p).2.dirs, d ∈ fs.dirs ∨ d = p := by
  unfold FS.mkdir
  split
  · exact ⟨rfl, rfl, rfl, fun d hd => Or.inl hd⟩
  · split
    · exact ⟨rfl, rfl, rfl, fun d hd => Or.inl hd⟩
    · refine ⟨rfl, rfl, rfl, fun d hd => ?_⟩
      simp only [List.mem_append, List.mem_singleton] at hd
      exact hd

theorem mkdir_prefixes_keeps : ∀ (rest done : CStr) (fs : FS),
    (mkdir_prefixes done rest fs).2.files = fs.files
      ∧ (mkdir_prefixes done rest fs).2.denied = fs.denied
      ∧ (mkdir_prefixes done rest fs).2.space = fs.space
      ∧ ∀ d ∈ (mkdir_prefixes done rest fs).2.dirs,
          d ∈ fs.dirs ∨ d.length < done.length + rest.length := by
  intro rest
  induction rest with
  | nil => intro done fs; exact ⟨rfl, rfl, rfl, fun d hd => Or.inl hd⟩
  | cons c rest ih =>
    intro done fs
    obtain ⟨m1, m2, m3, m4⟩ := mkdir_keeps fs done
    rw [mkdir_prefixes]
    split
    · split
      · obtain ⟨i1, i2, i3, i4⟩ := ih (done ++ [c]) (fs.mkdir done).2
        refine ⟨i1.trans m1, i2.trans m2, i3.trans m3, fun d hd => ?_⟩
        rcases i4 d hd with h | h
        · rcases m4 d h with h | h
          · exact Or.inl h
          · right; subst h; simp
        · right; simp at h ⊢; omega
      · refine ⟨m1, m2, m3, fun d hd => ?_⟩
        rcases m4 d hd with h | h
        · exact Or.inl h
        · right; subst h; simp
    · obtain ⟨i1, i2, i3, i4⟩ := ih (done ++ [c]) fs
      refine ⟨i1, i2, i3, fun d hd => ?_⟩
      rcases i4 d hd with h | h
      · exact Or.inl h
      · right; simp at h ⊢; omega

theorem create_directory_path_keeps (fs : FS) (path : CStr) (r : Int × FS)
    (h : create_directory_path fs path = some r) :
    r.2.files = fs.files ∧ r.2.denied = fs.denied ∧ r.2.space = fs.space
      ∧ ∀ d ∈ r.2.dirs, d ∈ fs.dirs ∨ d.length ≤ path.length := by
  unfold create_directory_path at h
  split at h
  · cases h
  · generalize htmp : (if (snprintf MAX_FILEPATH path).getLast? = some '/'
        then (snprintf MAX_FILEPATH path).dropLast else snprintf MAX_FILEPATH path) = tmp at h
    have hlen : tmp.length ≤ path.length := by
      rw [← htmp]
      split
      · simp only [snprintf, List.length_dropLast, List.length_take]; omega
      · simp only [snprintf, List.length_take]; omega
    obtain ⟨i1, i2, i3, i4⟩ := mkdir_prefixes_keeps (tmp.drop 1) (tmp.take 1) fs
    have hsum : (tmp.take 1).length + (tmp.drop 1).length = tmp.length := by
      rw [← List.length_append, List.take_append_drop]
    simp only at h
    split at h
    · obtain ⟨m1, m2, m3, m4⟩ := mkdir_keeps (mkdir_prefixes (tmp.take 1) (tmp.drop 1) fs).2 tmp
      cases h
      refine ⟨m1.trans i1, m2.trans i2, m3.trans i3, fun d hd => ?_⟩
      rcases m4 d hd with h | h
      · rcases i4 d h with h | h
        · exact Or.inl h
        · right; omega
      · right; subst h; exact hlen
    · cases h
      refine ⟨i1, i2, i3, fun d hd => ?_⟩
      rcases i4 d hd with h | h
      · exact Or.inl h
      · right; omega

theorem strrchr_length (c : Char) : ∀ (s r : CStr), strrchr c s = some r →
    1 ≤ r.length ∧ r.length ≤ s.length := by
  intro s
  induction s with
  | nil => intro r h; simp [strrchr] at h
  | cons x xs ih =>
    intro r h
    rw [strrchr] at h
    split at h
    · next r2 h2 =>
      cases h
      have := ih r h2
      simp only [List.length_cons]; omega
    · split at h
      · cases h; simp
      · cases h

/-- What `make_parent` leaves unchanged, and which directories it can add. -/
theorem make_parent_keeps (w : World) (filepath : CStr) :
    (make_parent w filepath).fs.files = w.fs.files
      ∧ (make_parent w filepath).fs.denied = w.fs.denied
      ∧ (make_parent w filepath).fs.space = w.fs.space
      ∧ (make_parent w filepath).client = w.client
      ∧ (make_parent w filepath).trace = w.trace
      ∧ (make_parent w filepath).net = w.net
      ∧ (make_parent w filepath).home = w.home
      ∧ ∀ d ∈ (make_parent w filepath).fs.dirs, d ∈ w.fs.dirs ∨ d.length < filepath.length := by
  unfold make_parent dir_of
  cases hs : strrchr '/' filepath with
  | none => exact ⟨rfl, rfl, rfl, rfl, rfl, rfl, rfl, fun d hd => Or.inl hd⟩
  | some last_slash =>
    obtain ⟨l1, l2⟩ := strrchr_length '/' filepath last_slash hs
    simp only [Option.map_some', World.create_directory_path]
    cases hc : create_directory_path w.fs
        (List.take (filepath.length - last_slash.length) filepath) with
    | none => exact ⟨rfl, rfl, rfl, rfl, rfl, rfl, rfl, fun d hd => Or.inl hd⟩
    | some r =>
      obtain ⟨k1, k2, k3, k4⟩ := create_directory_path_keeps _ _ r hc
      refine ⟨k1, k2, k3, rfl, rfl, rfl, rfl, fun d hd => ?_⟩
      rcases k4 d hd with h | h
      · exact Or.inl h
      · right
        simp only [List.length_take] at h
        omega

/-- Opening the destination for writing succeeds after `make_parent` when it
would have succeeded before. -/
theorem fopen_w_after_make_parent (w : World) (filepath : CStr)
    (h1 : filepath ≠ []) (h2 : filepath ∉ w.fs.denied) (h3 : filepath ∉ w.fs.dirs) :
    ∃ fs1, (make_parent w filepath).fs.fopen_w filepath = some fs1 := by
  obtain ⟨_, k2, _, _, _, _, _, k8⟩ := make_parent_keeps w filepath
  have hd : filepath ∉ (make_parent w filepath).fs.dirs := by
    intro hm
    rcases k8 _ hm with h | h
    · exact h3 h
    · omega
  unfold FS.fopen_w
  rw [if_neg (by rw [k2]; simp [FS.is_dir, h1, h2, hd])]
  split
  · exact ⟨_, rfl⟩
  · exact ⟨_, rfl⟩

theorem fopen_w_plain (fs : FS) (filepath : CStr)
    (h1 : filepath ≠ []) (h2 : filepath ∉ fs.denied) (h3 : filepath ∉ fs.dirs) :
    ∃ fs1, fs.fopen_w filepath = some fs1 := by
  unfold FS.fopen_w
  rw [if_neg (by simp [FS.is_dir, h1, h2, h3])]
  split
  · exact ⟨_, rfl⟩
  · exact ⟨_, rfl⟩

@[simp] theorem make_parent_trace (w : World) (filepath : CStr) :
    (make_parent w filepath).trace = w.trace := (make_parent_keeps w filepath).2.2.2.2.1
@[simp] theorem make_parent_client (w : World) (filepath : CStr) :
    (make_parent w filepath).client = w.client := (make_parent_keeps w filepath).2.2.2.1
@[simp] theorem make_parent_net (w : World) (filepath : CStr) :
    (make_parent w filepath).net = w.net := (make_parent_keeps w filepath).2.2.2.2.2.1
@[simp] theorem make_parent_home (w : World) (filepath : CStr) :
    (make_parent w filepath).home = w.home := (make_parent_keeps w filepath).2.2.2.2.2.2.1
@[simp] theorem make_parent_files (w : World) (filepath : CStr) :
    (make_parent w filepath).fs.files = w.fs.files := (make_parent_keeps w filepath).1

/-! ## The receive routines -/

/-- The outcome of a receive loop started on a freshly opened file when only the
last chunk is short. -/
theorem recv_file_loop_fresh (filepath : CStr) (chunks : List (List Char)) (fs1 : FS)
    (hg : short_read_only_last chunks = true) (hs : chunks.flatten.length ≤ fs1.space)
    (hl : fs1.lookup filepath = some []) :
    recv_file_loop (inbox_size (chunks.map Recv.data) + 1) filepath (chunks.map Recv.data) fs1
        = (RecvEnd.done, [], fs1.appended filepath chunks.flatten)
      ∧ (fs1.appended filepath chunks.flatten).lookup filepath = some chunks.flatten := by
  refine ⟨recv_file_loop_good filepath chunks _ fs1 hg ?_ hs, ?_⟩
  · have := inbox_size_ge_length (chunks.map Recv.data)
    simp only [List.length_map] at this
    omega
  · rw [appended_lookup, hl]
    simp

theorem receive_file_from_client_good (filepath : CStr) (chunks : List (List Char)) (w : World)
    (hg : short_read_only_last chunks = true) (hin : w.client.inbox = chunks.map Recv.data)
    (h1 : filepath ≠ []) (h2 : filepath ∉ w.fs.denied) (h3 : filepath ∉ w.fs.dirs)
    (hs : chunks.flatten.length ≤ w.fs.space) :
    (receive_file_from_client filepath w).1 = 0
      ∧ (receive_file_from_client filepath w).2.fs.lookup filepath = some chunks.flatten := by
  obtain ⟨fs1, hf⟩ := fopen_w_after_make_parent w filepath h1 h2 h3
  obtain ⟨_, _, k3, k4, _, _, _, _⟩ := make_parent_keeps w filepath
  have hsp : chunks.flatten.length ≤ fs1.space := by
    rw [fopen_w_space _ _ _ hf, k3]; exact hs
  obtain ⟨e1, e2⟩ := recv_file_loop_fresh filepath chunks fs1 hg hsp (fopen_w_lookup _ _ _ hf)
  unfold receive_file_from_client
  simp only [hf, k4, hin, e1]
  exact ⟨trivial, e2⟩

theorem S2_receive_file_good (filepath : CStr) (chunks : List (List Char)) (w : World)
    (hg : short_read_only_last chunks = true) (hin : w.client.inbox = chunks.map Recv.data)
    (h1 : filepath ≠ []) (h2 : filepath ∉ w.fs.denied) (h3 : filepath ∉ w.fs.dirs)
    (hs : chunks.flatten.length ≤ w.fs.space) :
    (S2.receive_file filepath w).1 = 0
      ∧ (S2.receive_file filepath w).2.fs.lookup filepath = some chunks.flatten := by
  obtain ⟨fs1, hf⟩ := fopen_w_plain w.fs filepath h1 h2 h3
  have hsp : chunks.flatten.length ≤ fs1.space := by
    rw [fopen_w_space _ _ _ hf]; exact hs
  obtain ⟨e1, e2⟩ := recv_file_loop_fresh filepath chunks fs1 hg hsp (fopen_w_lookup _ _ _ hf)
  unfold S2.receive_file
  simp only [hf, hin, e1]
  exact ⟨trivial, e2⟩

theorem S4_receive_file_good (filepath : CStr) (chunks : List (List Char)) (w : World)
    (hg : short_read_only_last chunks = true) (hin : w.client.inbox = chunks.map Recv.data)
    (h1 : filepath ≠ []) (h2 : filepath ∉ w.fs.denied) (h3 : filepath ∉ w.fs.dirs)
    (hs : chunks.flatten.length ≤ w.fs.space) :
    (S4.receive_file filepath w).1 = 0
      ∧ (S4.receive_file filepath w).2.fs.lookup filepath = some chunks.flatten := by
  obtain ⟨fs1, hf⟩ := fopen_w_after_make_parent w filepath h1 h2 h3
  obtain ⟨_, _, k3, k4, _, _, _, _⟩ := make_parent_keeps w filepath
  have hsp : chunks.flatten.length ≤ fs1.space := by
    rw [fopen_w_space _ _ _ hf, k3]; exact hs
  obtain ⟨e1, e2⟩ := recv_file_loop_fresh filepath chunks fs1 hg hsp (fopen_w_lookup _ _ _ hf)
  unfold S4.receive_file
  simp only [hf, k4, hin, e1]
  exact ⟨trivial, e2⟩

theorem retrieve_file_from_server_good (filepath : CStr) (chunks : List (List Char)) (w : World)
    (server_type : Int) (port : Nat) (rest : List (Option Sock))
    (hp : server_port server_type = some port)
    (hnet : w.net
      = some (Sock.mk (Recv.data "READY_TO_SEND".toList :: chunks.map Recv.data) []) :: rest)
    (hg : short_read_only_last chunks = true)
    (h1 : filepath ≠ []) (h2 : filepath ∉ w.fs.denied) (h3 : filepath ∉ w.fs.dirs)
    (hs : chunks.flatten.length ≤ w.fs.space) :
    (retrieve_file_from_server filepath server_type w).1 = 0
      ∧ (retrieve_file_from_server filepath server_type w).2.fs.lookup filepath
          = some chunks.flatten := by
  have hr : recv (BUFFER_SIZE - 1) (Recv.data "READY_TO_SEND".toList :: chunks.map Recv.data)
      = (13, "READY_TO_SEND".toList, chunks.map Recv.data) := by
    rw [recv_data_fits _ _ _ (by decide)]; rfl
  have hc : cstr "READY_TO_SEND".toList = "READY_TO_SEND".toList := by decide
  have hcmp : strncmp_eq 13 "READY_TO_SEND".toList "READY_TO_SEND".toList = true := by decide
  have hcon : w.net.head?.join
      = some (Sock.mk (Recv.data "READY_TO_SEND".toList :: chunks.map Recv.data) []) := by
    rw [hnet]; rfl
  unfold retrieve_file_from_server
  simp only [hp, connect_fst, hcon, send_server_fst, send_result_nil, send_server_inbox, hr, hc,
    hcmp]
  rw [if_neg (by omega), if_neg (by simp)]
  generalize hw2 : ((w.connect_to_server port).2.send_server port
      (Sock.mk (Recv.data "READY_TO_SEND".toList :: chunks.map Recv.data) [])
      (snprintf COMMAND_SIZE ("SEND ".toList
        ++ get_corresponding_server_path w.home filepath server_type))).2.2 = w2
  have hfs : w2.fs = w.fs := by subst hw2; rfl
  obtain ⟨fs1, hf⟩ := fopen_w_after_make_parent w2 filepath h1 (by rw [hfs]; exact h2)
    (by rw [hfs]; exact h3)
  obtain ⟨_, _, k3, _, _, _, _, _⟩ := make_parent_keeps w2 filepath
  have hsp : chunks.flatten.length ≤ fs1.space := by
    rw [fopen_w_space _ _ _ hf, k3, hfs]; exact hs
  obtain ⟨e1, e2⟩ := recv_file_loop_fresh filepath chunks fs1 hg hsp (fopen_w_lookup _ _ _ hf)
  simp only [hf, e1]
  exact ⟨trivial, e2⟩

/-! ## Rejections by the handlers -/

theorem world_create_directory_path_keeps (w : World) (path : CStr) :
    (w.create_directory_path path).2.trace = w.trace
      ∧ (w.create_directory_path path).2.fs.files = w.fs.files
      ∧ (w.create_directory_path path).2.net = w.net
      ∧ (w.create_directory_path path).2.client = w.client
      ∧ (w.create_directory_path path).2.home = w.home := by
  unfold World.create_directory_path
  cases hc : create_directory_path w.fs path with
  | none => exact ⟨rfl, rfl, rfl, rfl, rfl⟩
  | some r => exact ⟨rfl, (create_directory_path_keeps _ _ r hc).1, rfl, rfl, rfl⟩

theorem rejected_send (w w1 : World) (msg : CStr) (ht : w1.trace = w.trace)
    (hf : w1.fs.files = w.fs.files) (hn : w1.net = w.net)
    (hm : "ERROR: ".toList.isPrefixOf msg = true) :
    Rejected w (w1.send_client msg).2 :=
  ⟨⟨msg, _, by rw [send_client_trace, ht], hm⟩, by rw [send_client_fs, hf],
    by rw [send_client_net, hn]⟩

theorem upload_rejected (w : World) (command : CStr) (parsed : Int × List CStr)
    (hs : sscanf "uploadf".toList [MAX_FILENAME, MAX_FILEPATH] command = some parsed)
    (h : parsed.1 ≠ 2
      ∨ is_path_in_s1 w.home (expand_path w.home (parsed.2.getD 1 [])) = false
      ∨ missing_or_unsupported (get_file_extension (parsed.2.getD 0 [])) = true) :
    Rejected w (handle_upload_command command w).2 := by
  obtain ⟨k1, k2, k3, _, _⟩ := world_create_directory_path_keeps w
    (expand_path w.home (parsed.2.getD 1 []))
  unfold handle_upload_command
  simp only [hs]
  split
  · exact rejected_send w w _ rfl rfl rfl (by decide)
  · split
    · exact rejected_send w w _ rfl rfl rfl (by decide)
    · split
      · exact rejected_send w _ _ k1 k2 k3 (by decide)
      · next h1 h2 h3 =>
        have h4 : missing_or_unsupported (get_file_extension (parsed.2.getD 0 [])) = true := by
          rcases h with h | h | h
          · exact absurd h h1
          · exact absurd h h2
          · exact h
        split
        · exact rejected_send w _ _ k1 k2 k3 (by decide)
        · next ext he =>
          rw [he] at h4
          simp only [missing_or_unsupported, Bool.not_eq_true'] at h4
          rw [if_pos h4]
          exact rejected_send w _ _ k1 k2 k3 (by decide)

theorem download_rejected (w : World) (command : CStr) (parsed : Int × List CStr)
    (hs : sscanf "downlf".toList [MAX_FILEPATH] command = some parsed)
    (h : parsed.1 ≠ 1
      ∨ is_path_in_s1 w.home (expand_path w.home (parsed.2.getD 0 [])) = false
      ∨ missing_or_unsupported
          (get_file_extension (expand_path w.home (parsed.2.getD 0 []))) = true) :
    Rejected w (handle_download_command command w).2 := by
  unfold handle_download_command
  simp only [hs]
  split
  · exact rejected_send w w _ rfl rfl rfl (by decide)
  · split
    · exact rejected_send w w _ rfl rfl rfl (by decide)
    · next h1 h2 =>
      have h4 : missing_or_unsupported
          (get_file_extension (expand_path w.home (parsed.2.getD 0 []))) = true := by
        rcases h with h | h | h
        · exact absurd h h1
        · exact absurd h h2
        · exact h
      split
      · exact rejected_send w w _ rfl rfl rfl (by decide)
      · next ext he =>
        rw [he] at h4
        simp only [missing_or_unsupported, Bool.not_eq_true'] at h4
        rw [if_pos h4]
        exact rejected_send w w _ rfl rfl rfl (by decide)

theorem remove_rejected (w : World) (command : CStr) (parsed : Int × List CStr)
    (hs : sscanf "removef".toList [MAX_FILEPATH] command = some parsed)
    (h : parsed.1 ≠ 1
      ∨ is_path_in_s1 w.home (expand_path w.home (parsed.2.getD 0 [])) = false
      ∨ missing_or_unsupported
          (get_file_extension (expand_path w.home (parsed.2.getD 0 []))) = true) :
    Rejected w (handle_remove_command command w).2 := by
  unfold handle_remove_command
  simp only [hs]
  split
  · exact rejected_send w w _ rfl rfl rfl (by decide)
  · split
    · exact rejected_send w w _ rfl rfl rfl (by decide)
    · next h1 h2 =>
      have h4 : missing_or_unsupported
          (get_file_extension (expand_path w.home (parsed.2.getD 0 []))) = true := by
        rcases h with h | h | h
        · exact absurd h h1
        · exact absurd h h2
        · exact h
      split
      · exact rejected_send w w _ rfl rfl rfl (by decide)
      · next ext he =>
        rw [he] at h4
        simp only [missing_or_unsupported, Bool.not_eq_true'] at h4
        rw [if_pos h4]
        exact rejected_send w w _ rfl rfl rfl (by decide)

theorem download_tar_rejected (w : World) (command : CStr) (parsed : Int × List CStr)
    (hs : sscanf "downltar".toList [BUFFER_SIZE] command = some parsed)
    (h : parsed.1 ≠ 1 ∨ valid_ext (parsed.2.getD 0 []) = false) :
    Rejected w (handle_download_tar_command command w).2 := by
  unfold handle_download_tar_command
  simp only [hs]
  split
  · exact rejected_send w w _ rfl rfl rfl (by decide)
  · next h1 =>
    have h2 : valid_ext (parsed.2.getD 0 []) = false := by
      rcases h with h | h
      · exact absurd h h1
      · exact h
    simp only [valid_ext, Bool.or_eq_false_iff] at h2
    obtain ⟨⟨⟨a, b⟩, c⟩, d⟩ := h2
    simp only [a, b, c, d]
    exact rejected_send w w _ rfl rfl rfl (by decide)

theorem display_filenames_rejected (w : World) (command : CStr) (parsed : Int × List CStr)
    (hs : sscanf "dispfnames".toList [MAX_FILEPATH] command = some parsed)
    (h : parsed.1 ≠ 1
      ∨ is_path_in_s1 w.home (expand_path w.home (parsed.2.getD 0 [])) = false
      ∨ w.fs.is_dir (expand_path w.home (parsed.2.getD 0 [])) = false) :
    Rejected w (handle_display_filenames_command command w).2 := by
  unfold handle_display_filenames_command
  simp only [hs]
  split
  · exact rejected_send w w _ rfl rfl rfl (by decide)
  · split
    · exact rejected_send w w _ rfl rfl rfl (by decide)
    · next h1 h2 =>
      have h4 : w.fs.is_dir (expand_path w.home (parsed.2.getD 0 [])) = false := by
        rcases h with h | h | h
        · exact absurd h h1
        · exact absurd h h2
        · exact h
      rw [if_pos h4]
      exact rejected_send w w _ rfl rfl rfl (by decide)

/-- Every command on which `precondition_fails` holds is rejected. -/
theorem precondition_fails_rejected (w : World) (command : CStr)
    (h : precondition_fails w command = true) : Rejected w (dispatch command w) := by
  unfold precondition_fails at h
  unfold dispatch
  split at h
  · next c1 =>
    rw [if_pos c1]
    cases hs : sscanf "uploadf".toList [MAX_FILENAME, MAX_FILEPATH] command with
    | none => rw [hs] at h; simp at h
    | some parsed =>
      simp only [hs, Bool.or_eq_true, decide_eq_true_eq, Bool.not_eq_true'] at h
      exact upload_rejected w command parsed hs (by tauto)
  · next c1 =>
    rw [if_neg c1]
    split at h
    · next c2 =>
      rw [if_pos c2]
      cases hs : sscanf "downlf".toList [MAX_FILEPATH] command with
      | none => rw [hs] at h; simp at h
      | some parsed =>
        simp only [hs, Bool.or_eq_true, decide_eq_true_eq, Bool.not_eq_true'] at h
        exact download_rejected w command parsed hs (by tauto)
    · next c2 =>
      rw [if_neg c2]
      split at h
      · next c3 =>
        rw [if_pos c3]
        cases hs : sscanf "removef".toList [MAX_FILEPATH] command with
        | none => rw [hs] at h; simp at h
        | some parsed =>
          simp only [hs, Bool.or_eq_true, decide_eq_true_eq, Bool.not_eq_true'] at h
          exact remove_rejected w command parsed hs (by tauto)
      · next c3 =>
        rw [if_neg c3]
        split at h
        · next c4 =>
          rw [if_pos c4]
          cases hs : sscanf "downltar".toList [BUFFER_SIZE] command with
          | none => rw [hs] at h; simp at h
          | some parsed =>
            simp only [hs, Bool.or_eq_true, decide_eq_true_eq, Bool.not_eq_true'] at h
            exact download_tar_rejected w command parsed hs (by tauto)
        · next c4 =>
          rw [if_neg c4]
          split at h
          · next c5 =>
            rw [if_pos c5]
            cases hs : sscanf "dispfnames".toList [MAX_FILEPATH] command with
            | none => rw [hs] at h; simp at h
            | some parsed =>
              simp only [hs, Bool.or_eq_true, decide_eq_true_eq, Bool.not_eq_true'] at h
              exact display_filenames_rejected w command parsed hs (by tauto)
          · next c5 =>
            rw [if_neg c5]
            exact rejected_send w w _ rfl rfl rfl (by decide)

/-! ## Connection attempts of the handlers -/

theorem connect_ports_append (a b : List Event) :
    connect_ports (a ++ b) = connect_ports a ++ connect_ports b := by
  induction a with
  | nil => rfl
  | cons e rest ih =>
    cases e <;> simp [connect_ports, ih]

theorem receive_file_from_client_connects (filepath : CStr) (w : World) :
    connect_ports (receive_file_from_client filepath w).2.trace = connect_ports w.trace := by
  unfold receive_file_from_client
  split
  · simp [connect_ports, connect_ports_append]
  · simp only
    split <;> simp [connect_ports, connect_ports_append]

theorem send_chunks_server_connects (port : Nat) : ∀ (chunks : List (List Char)) (s : Sock)
    (w : World),
    connect_ports (send_chunks_server port chunks s w).2.2.trace = connect_ports w.trace := by
  intro chunks
  induction chunks with
  | nil => intro s w; rfl
  | cons c rest ih =>
    intro s w
    rw [send_chunks_server]
    split
    · simp [connect_ports, connect_ports_append]
    · rw [ih]; simp [connect_ports, connect_ports_append]

theorem send_chunks_client_connects : ∀ (chunks : List (List Char)) (w : World),
    connect_ports (send_chunks_client chunks w).2.trace = connect_ports w.trace := by
  intro chunks
  induction chunks with
  | nil => intro w; rfl
  | cons c rest ih =>
    intro w
    rw [send_chunks_client]
    split
    · simp [connect_ports, connect_ports_append]
    · rw [ih]; simp [connect_ports, connect_ports_append]

theorem send_file_to_client_connects (filepath : CStr) (w : World) :
    connect_ports (send_file_to_client filepath w).2.trace = connect_ports w.trace := by
  unfold send_file_to_client
  split
  · simp [connect_ports, connect_ports_append]
  · exact send_chunks_client_connects _ _

theorem transfer_file_to_server_connects (filename dest_path : CStr) (server_type : Int)
    (port : Nat) (w : World) (hp : server_port server_type = some port) :
    connect_ports (transfer_file_to_server filename dest_path server_type w).trace
      = connect_ports w.trace ++ [port] := by
  unfold transfer_file_to_server
  simp only [hp]
  split
  · simp [connect_ports, connect_ports_append]
  · split
    · simp [connect_ports, connect_ports_append]
    · split
      · simp [connect_ports, connect_ports_append]
      · split
        · simp [connect_ports, connect_ports_append]
        · simp [send_chunks_server_connects, connect_ports, connect_ports_append]

theorem retrieve_file_from_server_connects (filename : CStr) (server_type : Int)
    (port : Nat) (w : World) (hp : server_port server_type = some port) :
    connect_ports (retrieve_file_from_server filename server_type w).2.trace
      = connect_ports w.trace ++ [port] := by
  unfold retrieve_file_from_server
  simp only [hp]
  split
  · simp [connect_ports, connect_ports_append]
  · split
    · simp [connect_ports, connect_ports_append]
    · split
      · simp [connect_ports, connect_ports_append]
      · split
        · simp [connect_ports, connect_ports_append]
        · split <;> simp [connect_ports, connect_ports_append]

theorem valid_ext_cases (ext : CStr) (h : valid_ext ext = true) :
    ext = "c".toList ∨ ext = "pdf".toList ∨ ext = "txt".toList ∨ ext = "zip".toList := by
  simp only [valid_ext, strcmp_eq, Bool.or_eq_true, decide_eq_true_eq] at h
  tauto

/-- The shard the handlers pick for a supported extension is the one the
specification names; for `c` there is none. -/
theorem shard_of_valid_ext (ext : CStr) (h : valid_ext ext = true) :
    (strcmp_eq ext "c".toList = true ∧ spec_home_port ext = none)
      ∨ (strcmp_eq ext "c".toList = false
          ∧ ∃ port, spec_home_port ext = some port
              ∧ server_port (server_type_of_ext ext) = some port
              ∧ ∃ st, remove_target ext = some (st, port)) := by
  rcases valid_ext_cases ext h with h | h | h | h <;> subst h
  · left; decide
  · right; exact ⟨by decide, 8387, by decide, by decide, 2, by decide⟩
  · right; exact ⟨by decide, 8388, by decide, by decide, 3, by decide⟩
  · right; exact ⟨by decide, 8389, by decide, by decide, 4, by decide⟩

theorem world_create_directory_path_trace (w : World) (path : CStr) :
    (w.create_directory_path path).2.trace = w.trace :=
  (world_create_directory_path_keeps w path).1

theorem upload_connects (w : World) (command : CStr) (parsed : Int × List CStr) (ext : CStr)
    (hs : sscanf "uploadf".toList [MAX_FILENAME, MAX_FILEPATH] command = some parsed)
    (he : get_file_extension (parsed.2.getD 0 []) = some ext) (hv : valid_ext ext = true) :
    connect_ports (handle_upload_command command w).2.trace
      = connect_ports w.trace
          ++ (if (handle_upload_command command w).1 = 0 then (spec_home_port ext).toList
              else []) := by
  unfold handle_upload_command
  simp only [hs, he, hv]
  split
  · simp [connect_ports, connect_ports_append]
  · split
    · simp [connect_ports, connect_ports_append]
    · split
      · simp [connect_ports, connect_ports_append, world_create_directory_path_trace]
      · rw [if_neg (by simp)]
        split
        · simp [connect_ports, connect_ports_append, world_create_directory_path_trace,
            receive_file_from_client_connects]
        · rcases shard_of_valid_ext ext hv with ⟨hc, hn⟩ | ⟨hc, port, hp, hsp, _⟩
          · rw [if_pos hc]
            simp [hn, connect_ports, connect_ports_append,
              world_create_directory_path_trace, receive_file_from_client_connects]
          · rw [if_neg (by rw [hc]; simp)]
            simp [hp, connect_ports, connect_ports_append,
              world_create_directory_path_trace, receive_file_from_client_connects,
              transfer_file_to_server_connects _ _ _ port _ hsp]

theorem download_connects (w : World) (command : CStr) (parsed : Int × List CStr) (ext : CStr)
    (hs : sscanf "downlf".toList [MAX_FILEPATH] command = some parsed)
    (h1 : parsed.1 = 1)
    (hin : is_path_in_s1 w.home (expand_path w.home (parsed.2.getD 0 [])) = true)
    (he : get_file_extension (expand_path w.home (parsed.2.getD 0 [])) = some ext)
    (hv : valid_ext ext = true) :
    connect_ports (handle_download_command command w).2.trace
      = connect_ports w.trace ++ (spec_home_port ext).toList := by
  unfold handle_download_command
  simp only [hs, he, hv, hin, h1]
  rw [if_neg (by simp), if_neg (by simp), if_neg (by simp)]
  rcases shard_of_valid_ext ext hv with ⟨hc, hn⟩ | ⟨hc, port, hp, hsp, _⟩
  · rw [if_pos hc, hn]
    split
    · simp [connect_ports, connect_ports_append]
    · simp [connect_ports, connect_ports_append, send_file_to_client_connects]
  · rw [if_neg (by rw [hc]; simp), hp]
    split
    · simp [connect_ports, connect_ports_append,
        retrieve_file_from_server_connects _ _ port _ hsp]
    · simp [connect_ports, connect_ports_append, send_file_to_client_connects,
        retrieve_file_from_server_connects _ _ port _ hsp]

theorem remove_connects (w : World) (command : CStr) (parsed : Int × List CStr) (ext : CStr)
    (hs : sscanf "removef".toList [MAX_FILEPATH] command = some parsed)
    (h1 : parsed.1 = 1)
    (hin : is_path_in_s1 w.home (expand_path w.home (parsed.2.getD 0 [])) = true)
    (he : get_file_extension (expand_path w.home (parsed.2.getD 0 [])) = some ext)
    (hv : valid_ext ext = true) :
    connect_ports (handle_remove_command command w).2.trace
      = connect_ports w.trace ++ (spec_home_port ext).toList := by
  unfold handle_remove_command
  simp only [hs, he, hv, hin, h1]
  rw [if_neg (by simp), if_neg (by simp), if_neg (by simp)]
  rcases shard_of_valid_ext ext hv with ⟨hc, hn⟩ | ⟨hc, port, hp, _, st, hrt⟩
  · rw [if_pos hc, hn]
    split <;> simp [connect_ports, connect_ports_append]
  · rw [if_neg (by rw [hc]; simp), hp]
    simp only [hrt]
    split
    · simp [connect_ports, connect_ports_append]
    · split
      · simp [connect_ports, connect_ports_append]
      · split
        · simp [connect_ports, connect_ports_append]
        · split <;> simp [connect_ports, connect_ports_append]

/-! ## The extension of a name -/

theorem strrchr_none (c : Char) : ∀ s : CStr, strrchr c s = none → c ∉ s := by
  intro s
  induction s with
  | nil => intro _; simp
  | cons x xs ih =>
    intro h
    rw [strrchr] at h
    split at h
    · cases h
    · next hn =>
      split at h
      · cases h
      · next hx =>
        simp only [List.mem_cons, not_or]
        exact ⟨fun e => hx e.symm, ih hn⟩

theorem strrchr_some (c : Char) : ∀ (s r : CStr), strrchr c s = some r →
    ∃ pre t, s = pre ++ c :: t ∧ r = c :: t ∧ c ∉ t := by
  intro s
  induction s with
  | nil => intro r h; simp [strrchr] at h
  | cons x xs ih =>
    intro r h
    rw [strrchr] at h
    split at h
    · next r2 h2 =>
      cases h
      obtain ⟨pre, t, e1, e2, e3⟩ := ih r h2
      exact ⟨x :: pre, t, by rw [e1]; rfl, e2, e3⟩
    · next hn =>
      split at h
      · next hx =>
        cases h
        subst hx
        exact ⟨[], xs, rfl, rfl, strrchr_none _ xs hn⟩
      · cases h

theorem takeWhile_append_stop (p : Char → Bool) (a : Char) (ha : p a = false) :
    ∀ (l1 l2 : List Char), (∀ x ∈ l1, p x = true) → (l1 ++ a :: l2).takeWhile p = l1 := by
  intro l1
  induction l1 with
  | nil => intro l2 _; simp [List.takeWhile, ha]
  | cons x xs ih =>
    intro l2 h
    have hx : p x = true := h x (by simp)
    rw [List.cons_append, List.takeWhile_cons, hx]
    simp only [if_true]
    rw [ih l2 (fun y hy => h y (by simp [hy]))]

/-- The extension `get_file_extension` returns is the text after the last dot. -/
theorem get_file_extension_text (name e : CStr) (h : get_file_extension name = some e) :
    text_after_last_dot name = some e := by
  unfold get_file_extension at h
  cases hs : strrchr '.' name with
  | none => rw [hs] at h; cases h
  | some dot =>
    rw [hs] at h
    obtain ⟨pre, t, e1, e2, e3⟩ := strrchr_some '.' name dot hs
    simp only at h
    split at h
    · cases h
    · cases h
      subst e2
      unfold text_after_last_dot
      rw [if_pos (by rw [e1]; simp)]
      have hr : name.reverse = t.reverse ++ '.' :: pre.reverse := by
        rw [e1]; simp
      rw [hr, takeWhile_append_stop _ '.' (by simp) t.reverse pre.reverse
        (by
          intro x hx
          have hx2 : x ∈ t := List.mem_reverse.mp hx
          simp only [ne_eq, decide_not, Bool.not_eq_true', decide_eq_false_iff_not]
          intro hdot
          exact e3 (hdot ▸ hx2))]
      simp

theorem unsupported_of_text (name : CStr)
    (h : ∀ e, text_after_last_dot name = some e →
      e ≠ "c".toList ∧ e ≠ "pdf".toList ∧ e ≠ "txt".toList ∧ e ≠ "zip".toList) :
    missing_or_unsupported (get_file_extension name) = true := by
  cases he : get_file_extension name with
  | none => rfl
  | some e =>
    obtain ⟨a, b, c, d⟩ := h e (get_file_extension_text name e he)
    simp only [missing_or_unsupported, valid_ext, strcmp_eq, a, b, c, d]
    rfl

/-! ## The command word picks the handler -/

theorem strncmp_eq_head (n : Nat) (a b : CStr) (h : strncmp_eq (n + 1) a b = true) :
    a.head? = b.head? := by
  cases a with
  | nil => cases b with
    | nil => rfl
    | cons y ys => simp [strncmp_eq] at h
  | cons x xs => cases b with
    | nil => simp [strncmp_eq] at h
    | cons y ys =>
      simp only [strncmp_eq] at h
      split at h
      · next hxy => simp [hxy]
      · cases h

theorem dispatch_uploadf (command : CStr) (w : World)
    (h : strncmp_eq 8 command "uploadf ".toList = true) :
    dispatch command w = (handle_upload_command command w).2 := by
  unfold dispatch
  rw [if_pos h]

theorem dispatch_downlf (command : CStr) (w : World)
    (h : strncmp_eq 7 command "downlf ".toList = true) :
    dispatch command w = (handle_download_command command w).2 := by
  have hh := strncmp_eq_head _ _ _ h
  have n1 : ¬ strncmp_eq 8 command "uploadf ".toList = true := by
    intro h1
    have := strncmp_eq_head _ _ _ h1
    rw [hh] at this
    exact absurd this (by decide)
  unfold dispatch
  rw [if_neg n1, if_pos h]

theorem dispatch_removef (command : CStr) (w : World)
    (h : strncmp_eq 8 command "removef ".toList = true) :
    dispatch command w = (handle_remove_command command w).2 := by
  have hh := strncmp_eq_head _ _ _ h
  have n1 : ¬ strncmp_eq 8 command "uploadf ".toList = true := by
    intro h1
    have := strncmp_eq_head _ _ _ h1
    rw [hh] at this
    exact absurd this (by decide)
  have n2 : ¬ strncmp_eq 7 command "downlf ".toList = true := by
    intro h1
    have := strncmp_eq_head _ _ _ h1
    rw [hh] at this
    exact absurd this (by decide)
  unfold dispatch
  rw [if_neg n1, if_neg n2, if_pos h]

/-! ## The session loop -/

/-- The loop of `process_client` is left only with `bytes_received <= 0`. -/
theorem process_client_left_loop : ∀ (fuel : Nat) (w : World) (r : Int) (w_end : World),
    process_client fuel w = (SessionEnd.left_loop r, w_end) → r ≤ 0 := by
  intro fuel
  induction fuel with
  | zero => intro w r w_end h; simp [process_client] at h
  | succ fuel ih =>
    intro w r w_end h
    rw [process_client] at h
    split at h
    · next hle =>
      cases h
      exact hle
    · exact ih _ r w_end h

theorem valid_ext_of_cases (ext : CStr)
    (h : ext = "c".toList ∨ ext = "pdf".toList ∨ ext = "txt".toList ∨ ext = "zip".toList) :
    valid_ext ext = true := by
  rcases h with h | h | h | h <;> subst h <;> decide

/-! ## Streams that end early -/

theorem inbox_fuel (pre : List (List Char)) (x : Recv) (rest : Inbox) :
    pre.length < inbox_size (pre.map Recv.data ++ x :: rest) + 1 := by
  have := inbox_size_ge_length (pre.map Recv.data ++ x :: rest)
  simp only [List.length_append, List.length_map, List.length_cons] at this
  omega

/-- Chunks of exactly `BUFFER_SIZE` bytes are written and the loop goes on. -/
theorem recv_file_loop_full (path : CStr) :
    ∀ (pre : List (List Char)) (fuel : Nat) (tail : Inbox) (fs : FS),
      (∀ c ∈ pre, c.length = BUFFER_SIZE) → pre.flatten.length ≤ fs.space →
      recv_file_loop (fuel + pre.length) path (pre.map Recv.data ++ tail) fs
        = recv_file_loop fuel path tail (fs.appended path pre.flatten) := by
  intro pre
  induction pre with
  | nil =>
    intro fuel tail fs _ _
    simp [appended_nil]
  | cons c rest ih =>
    intro fuel tail fs hfull hs
    have hc : c.length = BUFFER_SIZE := hfull c (List.mem_cons_self _ _)
    have hsp : c.length ≤ fs.space := by
      simp only [List.flatten_cons, List.length_append] at hs; omega
    have e : fuel + (c :: rest).length = (fuel + rest.length) + 1 := by
      simp only [List.length_cons]; omega
    rw [e, recv_file_loop, List.map_cons, List.cons_append,
      recv_data_fits _ _ _ (le_of_eq hc)]
    simp only [fwrite_enough fs path c hsp]
    have hpos : ((c.length : Nat) : Int) > 0 := by
      rw [hc]; decide
    rw [if_pos hpos, if_neg (by simp), if_neg (by rw [hc]; simp)]
    rw [ih fuel tail (fs.appended path c) (fun x hx => hfull x (List.mem_cons_of_mem _ hx))
      (by simp only [List.flatten_cons, List.length_append] at hs
          simp only [FS.appended]; omega)]
    rw [appended_appended]
    simp

/-- A failing `recv` after full chunks ends the loop with the chunks written. -/
theorem recv_file_loop_err (path : CStr) (pre : List (List Char)) (rest : Inbox) (fs : FS)
    (hfull : ∀ c ∈ pre, c.length = BUFFER_SIZE) (hs : pre.flatten.length ≤ fs.space) :
    recv_file_loop (inbox_size (pre.map Recv.data ++ Recv.err :: rest) + 1) path
        (pre.map Recv.data ++ Recv.err :: rest) fs
      = (RecvEnd.recv_failed, rest, fs.appended path pre.flatten) := by
  obtain ⟨k, hk⟩ : ∃ k, inbox_size (pre.map Recv.data ++ Recv.err :: rest) + 1
      = (k + 1) + pre.length := ⟨inbox_size (pre.map Recv.data ++ Recv.err :: rest) - pre.length,
        by have := inbox_fuel pre Recv.err rest; omega⟩
  rw [hk, recv_file_loop_full path pre (k + 1) _ fs hfull hs, recv_file_loop]
  simp [recv]

/-- A chunk shorter than `BUFFER_SIZE` after full chunks ends the loop, whatever follows. -/
theorem recv_file_loop_short (path : CStr) (pre : List (List Char)) (short : List Char)
    (rest : Inbox) (fs : FS)
    (hfull : ∀ c ∈ pre, c.length = BUFFER_SIZE)
    (h1 : 1 ≤ short.length) (h2 : short.length < BUFFER_SIZE)
    (hs : (pre.flatten ++ short).length ≤ fs.space) :
    recv_file_loop (inbox_size (pre.map Recv.data ++ Recv.data short :: rest) + 1) path
        (pre.map Recv.data ++ Recv.data short :: rest) fs
      = (RecvEnd.done, rest, fs.appended path (pre.flatten ++ short)) := by
  obtain ⟨k, hk⟩ : ∃ k, inbox_size (pre.map Recv.data ++ Recv.data short :: rest) + 1
      = (k + 1) + pre.length :=
    ⟨inbox_size (pre.map Recv.data ++ Recv.data short :: rest) - pre.length,
      by have := inbox_fuel pre (Recv.data short) rest; omega⟩
  have hs1 : pre.flatten.length ≤ fs.space := by
    simp only [List.length_append] at hs; omega
  have hs2 : short.length ≤ (fs.appended path pre.flatten).space := by
    simp only [List.length_append] at hs
    simp only [FS.appended]; omega
  rw [hk, recv_file_loop_full path pre (k + 1) _ fs hfull hs1, recv_file_loop,
    recv_data_fits _ _ _ (le_of_lt h2)]
  simp only [fwrite_enough _ path short hs2]
  have hpos : ((short.length : Nat) : Int) > 0 := by omega
  rw [if_pos hpos, if_neg (by simp), if_pos (by exact_mod_cast h2), appended_appended]

theorem fopen_w_denied (fs fs1 : FS) (p : CStr) (h : fs.fopen_w p = some fs1) :
    fs1.denied = fs.denied := by
  unfold FS.fopen_w at h
  split at h
  · cases h
  · split at h <;> cases h <;> rfl

theorem remove_lookup_none (fs : FS) (p : CStr) (h : p ∉ fs.denied) :
    (fs.remove p).2.lookup p = none := by
  unfold FS.remove
  by_cases hf : fs.is_file p = true
  · rw [if_pos hf, if_neg h]
    simp only [FS.lookup]
    rw [List.lookup_eq_none_iff]
    intro a hm
    have := (List.mem_filter.mp hm).2
    simp only [ne_eq, decide_not, Bool.not_eq_true', decide_eq_false_iff_not] at this
    simp only [bne_iff_ne, ne_eq]
    exact fun e => this e.symm
  · rw [if_neg hf]
    simp only [FS.is_file, Option.isSome_iff_exists, not_exists] at hf
    cases hl : fs.lookup p with
    | none => rfl
    | some v => exact absurd hl (hf v)

theorem receive_file_from_client_short (filepath : CStr) (pre : List (List Char))
    (short : List Char) (rest : Inbox) (w : World)
    (hfull : ∀ c ∈ pre, c.length = BUFFER_SIZE)
    (hs1 : 1 ≤ short.length) (hs2 : short.length < BUFFER_SIZE)
    (hin : w.client.inbox = pre.map Recv.data ++ Recv.data short :: rest)
    (h1 : filepath ≠ []) (h2 : filepath ∉ w.fs.denied) (h3 : filepath ∉ w.fs.dirs)
    (hs : (pre.flatten ++ short).length ≤ w.fs.space) :
    (receive_file_from_client filepath w).1 = 0
      ∧ (receive_file_from_client filepath w).2.fs.lookup filepath
          = some (pre.flatten ++ short) := by
  obtain ⟨fs1, hf⟩ := fopen_w_after_make_parent w filepath h1 h2 h3
  obtain ⟨_, _, k3, k4, _, _, _, _⟩ := make_parent_keeps w filepath
  have hsp : (pre.flatten ++ short).length ≤ fs1.space := by
    rw [fopen_w_space _ _ _ hf, k3]; exact hs
  unfold receive_file_from_client
  simp only [hf, k4, hin, recv_file_loop_short filepath pre short rest fs1 hfull hs1 hs2 hsp]
  refine ⟨trivial, ?_⟩
  rw [appended_lookup, fopen_w_lookup _ _ _ hf]
  simp

theorem receive_file_from_client_err (filepath : CStr) (pre : List (List Char))
    (rest : Inbox) (w : World)
    (hfull : ∀ c ∈ pre, c.length = BUFFER_SIZE)
    (hin : w.client.inbox = pre.map Recv.data ++ Recv.err :: rest)
    (h1 : filepath ≠ []) (h2 : filepath ∉ w.fs.denied) (h3 : filepath ∉ w.fs.dirs)
    (hs : pre.flatten.length ≤ w.fs.space) :
    (receive_file_from_client filepath w).1 = -1
      ∧ (receive_file_from_client filepath w).2.fs.lookup filepath = none := by
  obtain ⟨fs1, hf⟩ := fopen_w_after_make_parent w filepath h1 h2 h3
  obtain ⟨_, k2, k3, k4, _, _, _, _⟩ := make_parent_keeps w filepath
  have hsp : pre.flatten.length ≤ fs1.space := by
    rw [fopen_w_space _ _ _ hf, k3]; exact hs
  unfold receive_file_from_client
  simp only [hf, k4, hin, recv_file_loop_err filepath pre rest fs1 hfull hsp]
  refine ⟨trivial, ?_⟩
  simp only [unlink_fs]
  apply remove_lookup_none
  simp only [FS.appended]
  rw [fopen_w_denied _ _ _ hf, k2]
  exact h2

theorem S2_receive_file_short (filepath : CStr) (pre : List (List Char))
    (short : List Char) (rest : Inbox) (w : World)
    (hfull : ∀ c ∈ pre, c.length = BUFFER_SIZE)
    (hs1 : 1 ≤ short.length) (hs2 : short.length < BUFFER_SIZE)
    (hin : w.client.inbox = pre.map Recv.data ++ Recv.data short :: rest)
    (h1 : filepath ≠ []) (h2 : filepath ∉ w.fs.denied) (h3 : filepath ∉ w.fs.dirs)
    (hs : (pre.flatten ++ short).length ≤ w.fs.space) :
    (S2.receive_file filepath w).1 = 0
      ∧ (S2.receive_file filepath w).2.fs.lookup filepath = some (pre.flatten ++ short) := by
  obtain ⟨fs1, hf⟩ := fopen_w_plain w.fs filepath h1 h2 h3
  have hsp : (pre.flatten ++ short).length ≤ fs1.space := by
    rw [fopen_w_space _ _ _ hf]; exact hs
  unfold S2.receive_file
  simp only [hf, hin, recv_file_loop_short filepath pre short rest fs1 hfull hs1 hs2 hsp]
  refine ⟨trivial, ?_⟩
  rw [appended_lookup, fopen_w_lookup _ _ _ hf]
  simp

theorem S2_receive_file_err (filepath : CStr) (pre : List (List Char))
    (rest : Inbox) (w : World)
    (hfull : ∀ c ∈ pre, c.length = BUFFER_SIZE)
    (hin : w.client.inbox = pre.map Recv.data ++ Recv.err :: rest)
    (h1 : filepath ≠ []) (h2 : filepath ∉ w.fs.denied) (h3 : filepath ∉ w.fs.dirs)
    (hs : pre.flatten.length ≤ w.fs.space) :
    (S2.receive_file filepath w).1 = -1
      ∧ (S2.receive_file filepath w).2.fs.lookup filepath = some pre.flatten := by
  obtain ⟨fs1, hf⟩ := fopen_w_plain w.fs filepath h1 h2 h3
  have hsp : pre.flatten.length ≤ fs1.space := by
    rw [fopen_w_space _ _ _ hf]; exact hs
  unfold S2.receive_file
  simp only [hf, hin, recv_file_loop_err filepath pre rest fs1 hfull hsp]
  refine ⟨trivial, ?_⟩
  rw [appended_lookup, fopen_w_lookup _ _ _ hf]
  simp

theorem S4_receive_file_short (filepath : CStr) (pre : List (List Char))
    (short : List Char) (rest : Inbox) (w : World)
    (hfull : ∀ c ∈ pre, c.length = BUFFER_SIZE)
    (hs1 : 1 ≤ short.length) (hs2 : short.length < BUFFER_SIZE)
    (hin : w.client.inbox = pre.map Recv.data ++ Recv.data short :: rest)
    (h1 : filepath ≠ []) (h2 : filepath ∉ w.fs.denied) (h3 : filepath ∉ w.fs.dirs)
    (hs : (pre.flatten ++ short).length ≤ w.fs.space) :
    (S4.receive_file filepath w).1 = 0
      ∧ (S4.receive_file filepath w).2.fs.lookup filepath = some (pre.flatten ++ short) := by
  obtain ⟨fs1, hf⟩ := fopen_w_after_make_parent w filepath h1 h2 h3
  obtain ⟨_, _, k3, k4, _, _, _, _⟩ := make_parent_keeps w filepath
  have hsp : (pre.flatten ++ short).length ≤ fs1.space := by
    rw [fopen_w_space _ _ _ hf, k3]; exact hs
  unfold S4.receive_file
  simp only [hf, k4, hin, recv_file_loop_short filepath pre short rest fs1 hfull hs1 hs2 hsp]
  refine ⟨trivial, ?_⟩
  rw [appended_lookup, fopen_w_lookup _ _ _ hf]
  simp

theorem S4_receive_file_err (filepath : CStr) (pre : List (List Char))
    (rest : Inbox) (w : World)
    (hfull : ∀ c ∈ pre, c.length = BUFFER_SIZE)
    (hin : w.client.inbox = pre.map Recv.data ++ Recv.err :: rest)
    (h1 : filepath ≠ []) (h2 : filepath ∉ w.fs.denied) (h3 : filepath ∉ w.fs.dirs)
    (hs : pre.flatten.length ≤ w.fs.space) :
    (S4.receive_file filepath w).1 = -1
      ∧ (S4.receive_file filepath w).2.fs.lookup filepath = some pre.flatten := by
  obtain ⟨fs1, hf⟩ := fopen_w_after_make_parent w filepath h1 h2 h3
  obtain ⟨_, _, k3, k4, _, _, _, _⟩ := make_parent_keeps w filepath
  have hsp : pre.flatten.length ≤ fs1.space := by
    rw [fopen_w_space _ _ _ hf, k3]; exact hs
  unfold S4.receive_file
  simp only [hf, k4, hin, recv_file_loop_err filepath pre rest fs1 hfull hsp]
  refine ⟨trivial, ?_⟩
  rw [appended_lookup, fopen_w_lookup _ _ _ hf]
  simp

theorem retrieve_file_from_server_short (filepath : CStr) (pre : List (List Char))
    (short : List Char) (rest : Inbox) (w : World)
    (server_type : Int) (port : Nat) (more : List (Option Sock))
    (hp : server_port server_type = some port)
    (hnet : w.net = some (Sock.mk (Recv.data "READY_TO_SEND".toList
      :: (pre.map Recv.data ++ Recv.data short :: rest)) []) :: more)
    (hfull : ∀ c ∈ pre, c.length = BUFFER_SIZE)
    (hs1 : 1 ≤ short.length) (hs2 : short.length < BUFFER_SIZE)
    (h1 : filepath ≠ []) (h2 : filepath ∉ w.fs.denied) (h3 : filepath ∉ w.fs.dirs)
    (hs : (pre.flatten ++ short).length ≤ w.fs.space) :
    (retrieve_file_from_server filepath server_type w).1 = 0
      ∧ (retrieve_file_from_server filepath server_type w).2.fs.lookup filepath
          = some (pre.flatten ++ short) := by
  have hr : recv (BUFFER_SIZE - 1) (Recv.data "READY_TO_SEND".toList
        :: (pre.map Recv.data ++ Recv.data short :: rest))
      = (13, "READY_TO_SEND".toList, pre.map Recv.data ++ Recv.data short :: rest) := by
    rw [recv_data_fits _ _ _ (by decide)]; rfl
  have hc : cstr "READY_TO_SEND".toList = "READY_TO_SEND".toList := by decide
  have hcmp : strncmp_eq 13 "READY_TO_SEND".toList "READY_TO_SEND".toList = true := by decide
  have hcon : w.net.head?.join = some (Sock.mk (Recv.data "READY_TO_SEND".toList
      :: (pre.map Recv.data ++ Recv.data short :: rest)) []) := by
    rw [hnet]; rfl
  unfold retrieve_file_from_server
  simp only [hp, connect_fst, hcon, send_server_fst, send_result_nil, send_server_inbox, hr, hc,
    hcmp]
  rw [if_neg (by omega), if_neg (by simp)]
  generalize hw2 : ((w.connect_to_server port).2.send_server port
      (Sock.mk (Recv.data "READY_TO_SEND".toList
        :: (pre.map Recv.data ++ Recv.data short :: rest)) [])
      (snprintf COMMAND_SIZE ("SEND ".toList
        ++ get_corresponding_server_path w.home filepath server_type))).2.2 = w2
  have hfs : w2.fs = w.fs := by subst hw2; rfl
  obtain ⟨fs1, hf⟩ := fopen_w_after_make_parent w2 filepath h1 (by rw [hfs]; exact h2)
    (by rw [hfs]; exact h3)
  obtain ⟨_, _, k3, _, _, _, _, _⟩ := make_parent_keeps w2 filepath
  have hsp : (pre.flatten ++ short).length ≤ fs1.space := by
    rw [fopen_w_space _ _ _ hf, k3, hfs]; exact hs
  simp only [hf, recv_file_loop_short filepath pre short rest fs1 hfull hs1 hs2 hsp]
  refine ⟨trivial, ?_⟩
  simp only [close_server_fs]
  rw [appended_lookup, fopen_w_lookup _ _ _ hf]
  simp

theorem retrieve_file_from_server_err (filepath : CStr) (pre : List (List Char))
    (rest : Inbox) (w : World)
    (server_type : Int) (port : Nat) (more : List (Option Sock))
    (hp : server_port server_type = some port)
    (hnet : w.net = some (Sock.mk (Recv.data "READY_TO_SEND".toList
      :: (pre.map Recv.data ++ Recv.err :: rest)) []) :: more)
    (hfull : ∀ c ∈ pre, c.length = BUFFER_SIZE)
    (h1 : filepath ≠ []) (h2 : filepath ∉ w.fs.denied) (h3 : filepath ∉ w.fs.dirs)
    (hs : pre.flatten.length ≤ w.fs.space) :
    (retrieve_file_from_server filepath server_type w).1 = -1
      ∧ (retrieve_file_from_server filepath server_type w).2.fs.lookup filepath = none := by
  have hr : recv (BUFFER_SIZE - 1) (Recv.data "READY_TO_SEND".toList
        :: (pre.map Recv.data ++ Recv.err :: rest))
      = (13, "READY_TO_SEND".toList, pre.map Recv.data ++ Recv.err :: rest) := by
    rw [recv_data_fits _ _ _ (by decide)]; rfl
  have hc : cstr "READY_TO_SEND".toList = "READY_TO_SEND".toList := by decide
  have hcmp : strncmp_eq 13 "READY_TO_SEND".toList "READY_TO_SEND".toList = true := by decide
  have hcon : w.net.head?.join = some (Sock.mk (Recv.data "READY_TO_SEND".toList
      :: (pre.map Recv.data ++ Recv.err :: rest)) []) := by
    rw [hnet]; rfl
  unfold retrieve_file_from_server
  simp only [hp, connect_fst, hcon, send_server_fst, send_result_nil, send_server_inbox, hr, hc,
    hcmp]
  rw [if_neg (by omega), if_neg (by simp)]
  generalize hw2 : ((w.connect_to_server port).2.send_server port
      (Sock.mk (Recv.data "READY_TO_SEND".toList
        :: (pre.map Recv.data ++ Recv.err :: rest)) [])
      (snprintf COMMAND_SIZE ("SEND ".toList
        ++ get_corresponding_server_path w.home filepath server_type))).2.2 = w2
  have hfs : w2.fs = w.fs := by subst hw2; rfl
  obtain ⟨fs1, hf⟩ := fopen_w_after_make_parent w2 filepath h1 (by rw [hfs]; exact h2)
    (by rw [hfs]; exact h3)
  obtain ⟨_, k2, k3, _, _, _, _, _⟩ := make_parent_keeps w2 filepath
  have hsp : pre.flatten.length ≤ fs1.space := by
    rw [fopen_w_space _ _ _ hf, k3, hfs]; exact hs
  simp only [hf, recv_file_loop_err filepath pre rest fs1 hfull hsp]
  refine ⟨trivial, ?_⟩
  simp only [unlink_fs, close_server_fs]
  apply remove_lookup_none
  simp only [FS.appended]
  rw [fopen_w_denied _ _ _ hf, k2, hfs]
  exact h2

/-! ## The claims -/

/-- Claim C1, evaluated where the code breaks it. The client uploads `note.pdf`
to `~/S1/docs` and the PDF shard refuses the connection: the router returns `0`,
its last message is `SUCCESS: File uploaded successfully`, it has sent nothing
to any shard, and it has deleted its own copy, so no home holds the file. -/
theorem C1_success_reply_without_transfer :
    (handle_upload_command "uploadf note.pdf ~/S1/docs".toList
        (sample_world [Recv.data "%PDF-1.4".toList] [none])).1 = 0
      ∧ (handle_upload_command "uploadf note.pdf ~/S1/docs".toList
          (sample_world [Recv.data "%PDF-1.4".toList] [none])).2.trace
          = [Event.send_client "READY_TO_RECEIVE".toList 16,
             Event.connect 8387 false,
             Event.send_client "SUCCESS: File uploaded successfully".toList 35]
      ∧ (handle_upload_command "uploadf note.pdf ~/S1/docs".toList
          (sample_world [Recv.data "%PDF-1.4".toList] [none])).2.fs.files = [] := by
  decide

/-- Claim C2 as stated is false: the two bytes `ab` arrive as the chunks `a` and
`b`, both within 1 to 4096 bytes, and every receive routine returns with the
file holding `a` only, because the first read is shorter than the buffer. The
shards run on a host where the directory of the file exists. -/
theorem C2_short_read_truncates :
    (∀ c ∈ [['a'], ['b']], 1 ≤ c.length ∧ c.length ≤ BUFFER_SIZE)
      ∧ [['a'], ['b']].flatten = ['a', 'b']
      ∧ (receive_file_from_client "/home/u/S1/x/a.txt".toList
          (sample_world [Recv.data ['a'], Recv.data ['b']] [])).1 = 0
      ∧ (receive_file_from_client "/home/u/S1/x/a.txt".toList
          (sample_world [Recv.data ['a'], Recv.data ['b']] [])).2.fs.lookup
            "/home/u/S1/x/a.txt".toList = some ['a']
      ∧ shard_fs.is_dir "/home/u/S2/d".toList = true
      ∧ (S2.receive_file "/home/u/S2/d/n.pdf".toList
          (shard_world [Recv.data ['a'], Recv.data ['b']] [])).2.fs.lookup
            "/home/u/S2/d/n.pdf".toList = some ['a']
      ∧ (S4.receive_file "/home/u/S4/d/n.zip".toList
          (shard_world [Recv.data ['a'], Recv.data ['b']] [])).2.fs.lookup
            "/home/u/S4/d/n.zip".toList = some ['a']
      ∧ (retrieve_file_from_server "/home/u/S1/x/a.txt".toList 3
          (sample_world [] [some (Sock.mk [Recv.data "READY_TO_SEND".toList, Recv.data ['a'],
            Recv.data ['b']] [])])).2.fs.lookup "/home/u/S1/x/a.txt".toList = some ['a']
      ∧ (receive_file_from_client "/home/u/S1/x/a.txt".toList
          (sample_world [Recv.data ['a'], Recv.data ['b']] [])).2.fs.lookup
            "/home/u/S1/x/a.txt".toList ≠ some ['a', 'b'] := by
  decide

/-- Claim C2, amended. When the bytes of `b` arrive in chunks of which only the
last is shorter than 4096 bytes, the destination can be opened and the disk has
room, each receive routine (`receive_file_from_client`, `receive_file` of S2 and
of S4, and `retrieve_file_from_server` after the reply `READY_TO_SEND`) returns
`0` and leaves exactly `b` in the file. When chunks of exactly 4096 bytes are
followed by a chunk of 1 to 4095 bytes, each routine returns `0` with the file
holding the bytes up to and including that chunk, whatever arrives after it. -/
theorem C2_receive_stores_every_byte (b : List Char) (chunks : List (List Char))
    (filepath : CStr) (w : World) (server_type : Int) (port : Nat) (rest : List (Option Sock))
    (hchunks : short_read_only_last chunks = true) (hb : chunks.flatten = b)
    (hclient : w.client.inbox = chunks.map Recv.data)
    (hport : server_port server_type = some port)
    (hshard : w.net
      = some (Sock.mk (Recv.data "READY_TO_SEND".toList :: chunks.map Recv.data) []) :: rest)
    (hpath : filepath ≠ [] ∧ filepath ∉ w.fs.denied ∧ filepath ∉ w.fs.dirs)
    (hspace : b.length ≤ w.fs.space) :
    (((receive_file_from_client filepath w).1 = 0
        ∧ (receive_file_from_client filepath w).2.fs.lookup filepath = some b)
      ∧ ((S2.receive_file filepath w).1 = 0
        ∧ (S2.receive_file filepath w).2.fs.lookup filepath = some b)
      ∧ ((S4.receive_file filepath w).1 = 0
        ∧ (S4.receive_file filepath w).2.fs.lookup filepath = some b)
      ∧ ((retrieve_file_from_server filepath server_type w).1 = 0
        ∧ (retrieve_file_from_server filepath server_type w).2.fs.lookup filepath = some b))
    ∧ (∀ (pre : List (List Char)) (short : List Char) (tail : Inbox) (w2 : World)
        (more : List (Option Sock)),
        (∀ c ∈ pre, c.length = BUFFER_SIZE) → 1 ≤ short.length → short.length < BUFFER_SIZE →
        w2.client.inbox = pre.map Recv.data ++ Recv.data short :: tail →
        w2.net = some (Sock.mk (Recv.data "READY_TO_SEND".toList
          :: (pre.map Recv.data ++ Recv.data short :: tail)) []) :: more →
        filepath ∉ w2.fs.denied → filepath ∉ w2.fs.dirs →
        (pre.flatten ++ short).length ≤ w2.fs.space →
        ((receive_file_from_client filepath w2).1 = 0
          ∧ (receive_file_from_client filepath w2).2.fs.lookup filepath
              = some (pre.flatten ++ short))
        ∧ ((S2.receive_file filepath w2).1 = 0
          ∧ (S2.receive_file filepath w2).2.fs.lookup filepath = some (pre.flatten ++ short))
        ∧ ((S4.receive_file filepath w2).1 = 0
          ∧ (S4.receive_file filepath w2).2.fs.lookup filepath = some (pre.flatten ++ short))
        ∧ ((retrieve_file_from_server filepath server_type w2).1 = 0
          ∧ (retrieve_file_from_server filepath server_type w2).2.fs.lookup filepath
              = some (pre.flatten ++ short))) := by
  subst hb
  obtain ⟨h1, h2, h3⟩ := hpath
  refine ⟨⟨receive_file_from_client_good filepath chunks w hchunks hclient h1 h2 h3 hspace,
    S2_receive_file_good filepath chunks w hchunks hclient h1 h2 h3 hspace,
    S4_receive_file_good filepath chunks w hchunks hclient h1 h2 h3 hspace,
    retrieve_file_from_server_good filepath chunks w server_type port rest hport hshard hchunks
      h1 h2 h3 hspace⟩, ?_⟩
  intro pre short tail w2 more hfull hs1 hs2 hin hnet k2 k3 hsp
  exact ⟨receive_file_from_client_short filepath pre short tail w2 hfull hs1 hs2 hin h1 k2 k3 hsp,
    S2_receive_file_short filepath pre short tail w2 hfull hs1 hs2 hin h1 k2 k3 hsp,
    S4_receive_file_short filepath pre short tail w2 hfull hs1 hs2 hin h1 k2 k3 hsp,
    retrieve_file_from_server_short filepath pre short tail w2 server_type port more hport hnet
      hfull hs1 hs2 h1 k2 k3 hsp⟩

/-- Witness of C2: the content `hello` arriving in one chunk, and the chunk `a`
followed by the chunk `b`. -/
theorem C2_receive_stores_every_byte_witness :
    short_read_only_last ["hello".toList] = true
      ∧ ["hello".toList].flatten = "hello".toList
      ∧ ((receive_file_from_client "/home/u/S2/d/n.pdf".toList
          { shard_world [Recv.data "hello".toList] [] with
            net := [some (Sock.mk [Recv.data "READY_TO_SEND".toList, Recv.data "hello".toList]
              [])] }).1 = 0
        ∧ (receive_file_from_client "/home/u/S2/d/n.pdf".toList
          { shard_world [Recv.data "hello".toList] [] with
            net := [some (Sock.mk [Recv.data "READY_TO_SEND".toList, Recv.data "hello".toList]
              [])] }).2.fs.lookup "/home/u/S2/d/n.pdf".toList = some "hello".toList)
      ∧ (S2.receive_file "/home/u/S2/d/n.pdf".toList
          { shard_world [Recv.data ['a'], Recv.data ['b']] [] with
            net := [some (Sock.mk [Recv.data "READY_TO_SEND".toList, Recv.data ['a'],
              Recv.data ['b']] [])] }).2.fs.lookup "/home/u/S2/d/n.pdf".toList = some ['a'] :=
  ⟨by decide, by decide,
    (C2_receive_stores_every_byte "hello".toList ["hello".toList] "/home/u/S2/d/n.pdf".toList
      { shard_world [Recv.data "hello".toList] [] with
        net := [some (Sock.mk [Recv.data "READY_TO_SEND".toList, Recv.data "hello".toList] [])] }
      3 8388 [] (by decide) (by decide) (by decide) (by decide) (by decide)
      ⟨by decide, by decide, by decide⟩ (by decide)).1.1,
    ((C2_receive_stores_every_byte "hello".toList ["hello".toList] "/home/u/S2/d/n.pdf".toList
      { shard_world [Recv.data "hello".toList] [] with
        net := [some (Sock.mk [Recv.data "READY_TO_SEND".toList, Recv.data "hello".toList] [])] }
      3 8388 [] (by decide) (by decide) (by decide) (by decide) (by decide)
      ⟨by decide, by decide, by decide⟩ (by decide)).2 [] ['a'] [Recv.data ['b']]
      { shard_world [Recv.data ['a'], Recv.data ['b']] [] with
        net := [some (Sock.mk [Recv.data "READY_TO_SEND".toList, Recv.data ['a'],
          Recv.data ['b']] [])] }
      [] (by decide) (by decide) (by decide) (by decide) (by decide) (by decide) (by decide)
      (by decide)).2.1.2⟩

/-- Claim C3, where the code breaks it. Chunks of exactly 4096 bytes arrive
and the next `recv` fails: `receive_file` of S2 and of S4 return `-1` and the
bytes received so far stay in the file at the destination (an empty file when
the first `recv` fails). On the same stream the router's
`receive_file_from_client` and `retrieve_file_from_server` return `-1` and
leave no file. -/
theorem C3_shard_receive_leaves_truncated_file (pre : List (List Char)) (tail : Inbox)
    (filepath : CStr) (w : World) (server_type : Int) (port : Nat) (more : List (Option Sock))
    (hfull : ∀ c ∈ pre, c.length = BUFFER_SIZE)
    (hclient : w.client.inbox = pre.map Recv.data ++ Recv.err :: tail)
    (hport : server_port server_type = some port)
    (hshard : w.net = some (Sock.mk (Recv.data "READY_TO_SEND".toList
      :: (pre.map Recv.data ++ Recv.err :: tail)) []) :: more)
    (hpath : filepath ≠ [] ∧ filepath ∉ w.fs.denied ∧ filepath ∉ w.fs.dirs)
    (hspace : pre.flatten.length ≤ w.fs.space) :
    ((S2.receive_file filepath w).1 = -1
        ∧ (S2.receive_file filepath w).2.fs.lookup filepath = some pre.flatten)
      ∧ ((S4.receive_file filepath w).1 = -1
        ∧ (S4.receive_file filepath w).2.fs.lookup filepath = some pre.flatten)
      ∧ ((receive_file_from_client filepath w).1 = -1
        ∧ (receive_file_from_client filepath w).2.fs.lookup filepath = none)
      ∧ ((retrieve_file_from_server filepath server_type w).1 = -1
        ∧ (retrieve_file_from_server filepath server_type w).2.fs.lookup filepath = none) := by
  obtain ⟨h1, h2, h3⟩ := hpath
  exact ⟨S2_receive_file_err filepath pre tail w hfull hclient h1 h2 h3 hspace,
    S4_receive_file_err filepath pre tail w hfull hclient h1 h2 h3 hspace,
    receive_file_from_client_err filepath pre tail w hfull hclient h1 h2 h3 hspace,
    retrieve_file_from_server_err filepath pre tail w server_type port more hport hshard hfull
      h1 h2 h3 hspace⟩

/-- Witness of C3: one chunk of 4096 bytes, then a failing `recv`, on a shard
host where `~/S2/d` exists; and a `recv` that fails at once. -/
theorem C3_shard_receive_leaves_truncated_file_witness :
    ((S2.receive_file "/home/u/S2/d/n.pdf".toList
        { shard_world [Recv.data (List.replicate 4096 'x'), Recv.err] [] with
          net := [some (Sock.mk [Recv.data "READY_TO_SEND".toList,
            Recv.data (List.replicate 4096 'x'), Recv.err] [])] }).1 = -1
      ∧ (S2.receive_file "/home/u/S2/d/n.pdf".toList
        { shard_world [Recv.data (List.replicate 4096 'x'), Recv.err] [] with
          net := [some (Sock.mk [Recv.data "READY_TO_SEND".toList,
            Recv.data (List.replicate 4096 'x'), Recv.err] [])] }).2.fs.lookup
          "/home/u/S2/d/n.pdf".toList = some [List.replicate 4096 'x'].flatten)
    ∧ ((S4.receive_file "/home/u/S4/d/n.zip".toList
        { shard_world [Recv.err] [] with
          net := [some (Sock.mk [Recv.data "READY_TO_SEND".toList, Recv.err] [])] }).1 = -1
      ∧ (S4.receive_file "/home/u/S4/d/n.zip".toList
        { shard_world [Recv.err] [] with
          net := [some (Sock.mk [Recv.data "READY_TO_SEND".toList, Recv.err] [])] }).2.fs.lookup
          "/home/u/S4/d/n.zip".toList = some []) :=
  ⟨(C3_shard_receive_leaves_truncated_file [List.replicate 4096 'x'] []
      "/home/u/S2/d/n.pdf".toList
      { shard_world [Recv.data (List.replicate 4096 'x'), Recv.err] [] with
        net := [some (Sock.mk [Recv.data "READY_TO_SEND".toList,
          Recv.data (List.replicate 4096 'x'), Recv.err] [])] }
      2 8387 []
      (fun c hc => by rw [List.mem_singleton.mp hc, List.length_replicate]; rfl)
      rfl (by decide) rfl ⟨by decide, by decide, by decide⟩
      (by
        rw [show [List.replicate 4096 'x'].flatten = List.replicate 4096 'x' from
          List.append_nil _, List.length_replicate]
        decide)).1,
   (C3_shard_receive_leaves_truncated_file [] [] "/home/u/S4/d/n.zip".toList
      { shard_world [Recv.err] [] with
        net := [some (Sock.mk [Recv.data "READY_TO_SEND".toList, Recv.err] [])] }
      4 8389 [] (by decide) rfl (by decide) rfl
      ⟨by decide, by decide, by decide⟩ (by decide)).2.1⟩

/-- Claim C4 as stated is false for the replacement that `transfer_file_to_server`
applies: on `~/S1/S1` and shard 2 the first translation gives `~/S2/S1` and the
second gives `~/S2/S2`. -/
theorem C4_replacement_not_idempotent :
    server_dest_path "~/S1/S1".toList 2 = "~/S2/S1".toList
      ∧ server_dest_path (server_dest_path "~/S1/S1".toList 2) 2 = "~/S2/S2".toList
      ∧ server_dest_path (server_dest_path "~/S1/S1".toList 2) 2
          ≠ server_dest_path "~/S1/S1".toList 2 := by
  decide

/-- Claim C4, amended. For every shard index in 2, 3, 4,
`get_corresponding_server_path` is idempotent on every path that `is_path_in_s1`
accepts, and the replacement of the first `S1` by `transfer_file_to_server` is
idempotent on a destination exactly when its translation contains no further `S1`. -/
theorem C4_translation_idempotent (home : Option CStr) (p dest : CStr) (n : Int)
    (hn : n = 2 ∨ n = 3 ∨ n = 4) (hin : is_path_in_s1 home p = true) :
    get_corresponding_server_path home (get_corresponding_server_path home p n) n
        = get_corresponding_server_path home p n
      ∧ (server_dest_path (server_dest_path dest n) n = server_dest_path dest n
          ↔ strstr "S1".toList (server_dest_path dest n) = none) :=
  ⟨gcsp_idem home p n hn, server_dest_path_fix dest n hn⟩

/-- Witness of C4: the path `/home/u/S1/d/a.pdf` and the destination `~/S1/d` on shard 2. -/
theorem C4_translation_idempotent_witness :
    ((2 : Int) = 2 ∨ (2 : Int) = 3 ∨ (2 : Int) = 4)
      ∧ is_path_in_s1 (some "/home/u".toList) "/home/u/S1/d/a.pdf".toList = true
      ∧ (get_corresponding_server_path (some "/home/u".toList)
            (get_corresponding_server_path (some "/home/u".toList) "/home/u/S1/d/a.pdf".toList 2) 2
          = get_corresponding_server_path (some "/home/u".toList) "/home/u/S1/d/a.pdf".toList 2
        ∧ (server_dest_path (server_dest_path "~/S1/d".toList 2) 2
              = server_dest_path "~/S1/d".toList 2
            ↔ strstr "S1".toList (server_dest_path "~/S1/d".toList 2) = none)) :=
  ⟨by decide, by decide,
    C4_translation_idempotent (some "/home/u".toList) "/home/u/S1/d/a.pdf".toList
      "~/S1/d".toList 2 (by decide) (by decide)⟩

/-- Claim C5 as stated is false when `HOME` itself contains `S1`: with
`HOME=/home/S1` the path `/home/S1/S1/a.pdf` is translated to
`/home/S1/S2/a.pdf`, while replacing the first `S1` gives `/home/S2/S1/a.pdf`. -/
theorem C5_home_containing_S1 :
    is_path_in_s1 (some "/home/S1".toList) "/home/S1/S1/a.pdf".toList = true
      ∧ get_corresponding_server_path (some "/home/S1".toList) "/home/S1/S1/a.pdf".toList 2
          = "/home/S1/S2/a.pdf".toList
      ∧ spec_translate 2 "/home/S1/S1/a.pdf".toList = "/home/S2/S1/a.pdf".toList
      ∧ get_corresponding_server_path (some "/home/S1".toList) "/home/S1/S1/a.pdf".toList 2
          ≠ spec_translate 2 "/home/S1/S1/a.pdf".toList := by
  decide

/-- Claim C5, amended. For every value of `HOME` that does not contain `S1`
(or with `HOME` unset), every expanded path `p` that fits its buffer of
`MAX_FILEPATH` bytes and that `is_path_in_s1` accepts, and every `n` in 2, 3, 4,
`get_corresponding_server_path(p, n)` is `p` with the first occurrence of `S1`
replaced by `S<n>` and every other character unchanged. -/
theorem C5_translation_replaces_first_S1 (home : Option CStr) (p : CStr) (n : Int)
    (hn : n = 2 ∨ n = 3 ∨ n = 4) (hfit : p.length < MAX_FILEPATH)
    (hin : is_path_in_s1 home p = true)
    (hhome : ∀ h, home = some h → strstr "S1".toList h = none) :
    get_corresponding_server_path home p n = spec_translate n p :=
  gcsp_eq_spec_translate home p n hn hfit hin hhome

/-- Witness of C5: `HOME=/home/u`, the path `/home/u/S1/d/a.txt` and shard 3. -/
theorem C5_translation_replaces_first_S1_witness :
    ((3 : Int) = 2 ∨ (3 : Int) = 3 ∨ (3 : Int) = 4)
      ∧ "/home/u/S1/d/a.txt".toList.length < MAX_FILEPATH
      ∧ is_path_in_s1 (some "/home/u".toList) "/home/u/S1/d/a.txt".toList = true
      ∧ (∀ h, some "/home/u".toList = some h → strstr "S1".toList h = none)
      ∧ get_corresponding_server_path (some "/home/u".toList) "/home/u/S1/d/a.txt".toList 3
          = spec_translate 3 "/home/u/S1/d/a.txt".toList :=
  ⟨by decide, by decide, by decide, fun h e => by cases e; decide,
    C5_translation_replaces_first_S1 (some "/home/u".toList) "/home/u/S1/d/a.txt".toList 3
      (by decide) (by decide) (by decide) (fun h e => by cases e; decide)⟩


/-- Claim C6. In upload, download and remove the shard contacted for an
extension is the one the specification names: `pdf` port 8387, `txt` port 8388,
`zip` port 8389, three different ports, and for `c` no connection is attempted.
Upload connects only when it goes on to return `0`; download and remove of a
valid path connect in every case. -/
theorem C6_home_of_extension (w : World) (cu cd cr : CStr) (pu pd pr : Int × List CStr)
    (eu ed er : CStr)
    (hu : sscanf "uploadf".toList [MAX_FILENAME, MAX_FILEPATH] cu = some pu
      ∧ get_file_extension (pu.2.getD 0 []) = some eu
      ∧ (eu = "c".toList ∨ eu = "pdf".toList ∨ eu = "txt".toList ∨ eu = "zip".toList))
    (hd : sscanf "downlf".toList [MAX_FILEPATH] cd = some pd ∧ pd.1 = 1
      ∧ is_path_in_s1 w.home (expand_path w.home (pd.2.getD 0 [])) = true
      ∧ get_file_extension (expand_path w.home (pd.2.getD 0 [])) = some ed
      ∧ (ed = "c".toList ∨ ed = "pdf".toList ∨ ed = "txt".toList ∨ ed = "zip".toList))
    (hr : sscanf "removef".toList [MAX_FILEPATH] cr = some pr ∧ pr.1 = 1
      ∧ is_path_in_s1 w.home (expand_path w.home (pr.2.getD 0 [])) = true
      ∧ get_file_extension (expand_path w.home (pr.2.getD 0 [])) = some er
      ∧ (er = "c".toList ∨ er = "pdf".toList ∨ er = "txt".toList ∨ er = "zip".toList)) :
    connect_ports (handle_upload_command cu w).2.trace
        = connect_ports w.trace
            ++ (if (handle_upload_command cu w).1 = 0 then (spec_home_port eu).toList else [])
      ∧ connect_ports (handle_download_command cd w).2.trace
          = connect_ports w.trace ++ (spec_home_port ed).toList
      ∧ connect_ports (handle_remove_command cr w).2.trace
          = connect_ports w.trace ++ (spec_home_port er).toList
      ∧ spec_home_port "pdf".toList = some S2_PORT ∧ S2_PORT = 8387
      ∧ spec_home_port "txt".toList = some S3_PORT ∧ S3_PORT = 8388
      ∧ spec_home_port "zip".toList = some S4_PORT ∧ S4_PORT = 8389
      ∧ spec_home_port "c".toList = none :=
  ⟨upload_connects w cu pu eu hu.1 hu.2.1 (valid_ext_of_cases eu hu.2.2),
    download_connects w cd pd ed hd.1 hd.2.1 hd.2.2.1 hd.2.2.2.1
      (valid_ext_of_cases ed hd.2.2.2.2),
    remove_connects w cr pr er hr.1 hr.2.1 hr.2.2.1 hr.2.2.2.1
      (valid_ext_of_cases er hr.2.2.2.2),
    by decide, by decide, by decide, by decide, by decide, by decide, by decide⟩

/-- Witness of C6: an upload of `note.pdf`, a download of `a.txt` and a removal
of `b.zip` while every shard refuses the connection. -/
theorem C6_home_of_extension_witness :
    (sscanf "uploadf".toList [MAX_FILENAME, MAX_FILEPATH] "uploadf note.pdf ~/S1/docs".toList
          = some (2, ["note.pdf".toList, "~/S1/docs".toList])
        ∧ sscanf "downlf".toList [MAX_FILEPATH] "downlf ~/S1/x/a.txt".toList
          = some (1, ["~/S1/x/a.txt".toList])
        ∧ sscanf "removef".toList [MAX_FILEPATH] "removef ~/S1/x/b.zip".toList
          = some (1, ["~/S1/x/b.zip".toList]))
      ∧ connect_ports (handle_upload_command "uploadf note.pdf ~/S1/docs".toList
          (sample_world [Recv.data "%PDF".toList] [none])).2.trace = [8387]
      ∧ connect_ports (handle_download_command "downlf ~/S1/x/a.txt".toList
          (sample_world [Recv.data "%PDF".toList] [none])).2.trace = [8388]
      ∧ connect_ports (handle_remove_command "removef ~/S1/x/b.zip".toList
          (sample_world [Recv.data "%PDF".toList] [none])).2.trace = [8389] :=
  have h := C6_home_of_extension (sample_world [Recv.data "%PDF".toList] [none])
    "uploadf note.pdf ~/S1/docs".toList "downlf ~/S1/x/a.txt".toList
    "removef ~/S1/x/b.zip".toList
    (2, ["note.pdf".toList, "~/S1/docs".toList]) (1, ["~/S1/x/a.txt".toList])
    (1, ["~/S1/x/b.zip".toList]) "pdf".toList "txt".toList "zip".toList
    ⟨by decide, by decide, by decide⟩
    ⟨by decide, by decide, by decide, by decide, by decide⟩
    ⟨by decide, by decide, by decide, by decide, by decide⟩
  ⟨⟨by decide, by decide, by decide⟩, h.1.trans (by decide), h.2.1.trans (by decide),
    h.2.2.1.trans (by decide)⟩

/-- Claim C7, evaluated where the code breaks it. With `HOME=/home/u` the path
`~/S1x` expands to `/home/u/S1x`, which is neither `/home/u/S1` nor below
`/home/u/S1/`, yet `is_path_in_s1` accepts it; `uploadf f.c ~/S1x` is answered
with `READY_TO_RECEIVE` and `SUCCESS`, not with `ERROR:`, and the file is stored
in `/home/u/S1x`. -/
theorem C7_sibling_of_root_accepted :
    expand_path (some "/home/u".toList) "~/S1x".toList = "/home/u/S1x".toList
      ∧ is_path_in_s1 (some "/home/u".toList) "/home/u/S1x".toList = true
      ∧ "/home/u/S1x".toList ≠ "/home/u/S1".toList
      ∧ "/home/u/S1/".toList.isPrefixOf "/home/u/S1x".toList = false
      ∧ (handle_upload_command "uploadf f.c ~/S1x".toList
          (sample_world [Recv.data "int x;".toList] [])).2.trace
          = [Event.send_client "READY_TO_RECEIVE".toList 16,
             Event.send_client "SUCCESS: File uploaded successfully to S1".toList 41]
      ∧ (handle_upload_command "uploadf f.c ~/S1x".toList
          (sample_world [Recv.data "int x;".toList] [])).2.fs.lookup "/home/u/S1x/f.c".toList
          = some "int x;".toList := by
  decide

/-- Claim C8. A command `uploadf`, `downlf` or `removef` that passes syntax and
path validation and names a file whose text after the last dot is none of `c`,
`pdf`, `txt`, `zip` (or that has no dot) is rejected: the router makes one call
of `send`, with a message beginning `ERROR: `, attempts no connection and leaves
the files of its file system as they were. -/
theorem C8_unsupported_extension_rejected (w : World) (command : CStr)
    (parsed : Int × List CStr) (name : CStr)
    (hcmd :
      (strncmp_eq 8 command "uploadf ".toList = true
        ∧ sscanf "uploadf".toList [MAX_FILENAME, MAX_FILEPATH] command = some parsed
        ∧ parsed.1 = 2
        ∧ is_path_in_s1 w.home (expand_path w.home (parsed.2.getD 1 [])) = true
        ∧ name = parsed.2.getD 0 [])
      ∨ (strncmp_eq 7 command "downlf ".toList = true
        ∧ sscanf "downlf".toList [MAX_FILEPATH] command = some parsed
        ∧ parsed.1 = 1
        ∧ is_path_in_s1 w.home (expand_path w.home (parsed.2.getD 0 [])) = true
        ∧ name = expand_path w.home (parsed.2.getD 0 []))
      ∨ (strncmp_eq 8 command "removef ".toList = true
        ∧ sscanf "removef".toList [MAX_FILEPATH] command = some parsed
        ∧ parsed.1 = 1
        ∧ is_path_in_s1 w.home (expand_path w.home (parsed.2.getD 0 [])) = true
        ∧ name = expand_path w.home (parsed.2.getD 0 [])))
    (hext : ∀ e, text_after_last_dot name = some e →
      e ≠ "c".toList ∧ e ≠ "pdf".toList ∧ e ≠ "txt".toList ∧ e ≠ "zip".toList) :
    Rejected w (dispatch command w) := by
  have hm := unsupported_of_text name hext
  rcases hcmd with ⟨c, hs, _, _, hn⟩ | ⟨c, hs, _, _, hn⟩ | ⟨c, hs, _, _, hn⟩
  · rw [dispatch_uploadf command w c]
    rw [hn] at hm
    exact upload_rejected w command parsed hs (Or.inr (Or.inr hm))
  · rw [dispatch_downlf command w c]
    rw [hn] at hm
    exact download_rejected w command parsed hs (Or.inr (Or.inr hm))
  · rw [dispatch_removef command w c]
    rw [hn] at hm
    exact remove_rejected w command parsed hs (Or.inr (Or.inr hm))

/-- Witness of C8: `uploadf a.exe ~/S1/d`. -/
theorem C8_unsupported_extension_rejected_witness :
    (strncmp_eq 8 "uploadf a.exe ~/S1/d".toList "uploadf ".toList = true
        ∧ sscanf "uploadf".toList [MAX_FILENAME, MAX_FILEPATH] "uploadf a.exe ~/S1/d".toList
            = some (2, ["a.exe".toList, "~/S1/d".toList])
        ∧ is_path_in_s1 (some "/home/u".toList)
            (expand_path (some "/home/u".toList) "~/S1/d".toList) = true
        ∧ text_after_last_dot "a.exe".toList = some "exe".toList)
      ∧ Rejected (sample_world [] []) (dispatch "uploadf a.exe ~/S1/d".toList (sample_world [] [])) :=
  ⟨⟨by decide, by decide, by decide, by decide⟩,
    C8_unsupported_extension_rejected (sample_world [] []) "uploadf a.exe ~/S1/d".toList
      (2, ["a.exe".toList, "~/S1/d".toList]) "a.exe".toList
      (Or.inl ⟨by decide, by decide, by decide, by decide, by decide⟩)
      (fun e h => by
        have h2 : text_after_last_dot "a.exe".toList = some "exe".toList := by decide
        rw [h2] at h
        cases h
        decide)⟩

/-- Claim C9. On every command on which a precondition check of the router
fails (unknown command word, bad syntax, path outside `~/S1`, missing or
unsupported extension, unsupported `downltar` tag, `dispfnames` directory
missing) the router calls `send` on the client socket exactly once, and the
message begins with `ERROR: `. -/
theorem C9_single_error_message (w : World) (command : CStr)
    (h : precondition_fails w command = true) :
    ∃ msg ret, (dispatch command w).trace = w.trace ++ [Event.send_client msg ret]
      ∧ "ERROR: ".toList.isPrefixOf msg = true :=
  (precondition_fails_rejected w command h).1

/-- Witness of C9: `downltar exe`, whose tag is not supported. -/
theorem C9_single_error_message_witness :
    precondition_fails (sample_world [] []) "downltar exe".toList = true
      ∧ ∃ msg ret, (dispatch "downltar exe".toList (sample_world [] [])).trace
          = (sample_world [] []).trace ++ [Event.send_client msg ret]
        ∧ "ERROR: ".toList.isPrefixOf msg = true :=
  ⟨by decide, C9_single_error_message (sample_world [] []) "downltar exe".toList (by decide)⟩

/-- Claim C10. In every iteration of the loop of `process_client`, either the
read of the next command returned end of stream or an error and the loop is
left, or a command was read and the run goes on, from the world the handler
left and whatever the handler returned, with the next read; and whenever a run
leaves the loop, the last read returned `0` or less. -/
theorem C10_session_loop (fuel : Nat) (w : World) :
    (((w.recv_client (COMMAND_SIZE - 1)).1 ≤ 0
        ∧ process_client (fuel + 1) w
            = (SessionEnd.left_loop (w.recv_client (COMMAND_SIZE - 1)).1,
                (w.recv_client (COMMAND_SIZE - 1)).2.2))
      ∨ (0 < (w.recv_client (COMMAND_SIZE - 1)).1
        ∧ process_client (fuel + 1) w
            = process_client fuel
                (dispatch (cstr (w.recv_client (COMMAND_SIZE - 1)).2.1)
                  (w.recv_client (COMMAND_SIZE - 1)).2.2)))
      ∧ ∀ r w_end, process_client fuel w = (SessionEnd.left_loop r, w_end) → r ≤ 0 := by
  refine ⟨?_, process_client_left_loop fuel w⟩
  by_cases h : (w.recv_client (COMMAND_SIZE - 1)).1 ≤ 0
  · left
    refine ⟨h, ?_⟩
    rw [process_client, if_pos h]
  · right
    refine ⟨by omega, ?_⟩
    rw [process_client, if_neg h]

/-- Witness of C10: a session of two commands whose handlers both return `-1`
(`bogus` is no command, `removef` finds the ZIP shard unreachable); both are
answered and the loop is left at the end of the stream. -/
theorem C10_session_loop_witness :
    process_client 3 (sample_world
        [Recv.data "removef ~/S1/x/none.zip".toList, Recv.data "bogus".toList] [none])
      = (SessionEnd.left_loop 0,
          (process_client 3 (sample_world
            [Recv.data "removef ~/S1/x/none.zip".toList, Recv.data "bogus".toList] [none])).2)
      ∧ (handle_remove_command "removef ~/S1/x/none.zip".toList (sample_world [] [none])).1 = -1
      ∧ (process_client 3 (sample_world
          [Recv.data "removef ~/S1/x/none.zip".toList, Recv.data "bogus".toList] [none])).2.trace
        = [Event.connect 8389 false,
           Event.send_client "ERROR: Failed to connect to server".toList 34,
           Event.send_client "ERROR: Invalid command".toList 22]
      ∧ (0 : Int) ≤ 0 :=
  ⟨by decide, by decide, by decide,
    (C10_session_loop 3 (sample_world
      [Recv.data "removef ~/S1/x/none.zip".toList, Recv.data "bogus".toList] [none])).2 0
      (process_client 3 (sample_world
        [Recv.data "removef ~/S1/x/none.zip".toList, Recv.data "bogus".toList] [none])).2
      (by decide)⟩

/-! ## The listing of the router -/

theorem client_sends_append (a b : List Event) :
    client_sends (a ++ b) = client_sends a ++ client_sends b := by
  induction a with
  | nil => rfl
  | cons e t ih => cases e <;> simp [client_sends, ih]

theorem send_result_neg (script : List (Option Nat)) (len : Nat) :
    (send_result script len ≥ 0) ↔ script.head? ≠ some none := by
  unfold send_result
  cases script with
  | nil => simp
  | cons a t =>
    cases a with
    | none => simp
    | some k => simp

theorem list_from_server_fst (port : Nat) (st : Int) (ext path : CStr) (w : World) :
    (list_from_server port st ext path w).1 = shard_block w.net.head?.join := by
  unfold list_from_server shard_block
  simp only [connect_fst]
  cases w.net.head?.join with
  | none => rfl
  | some s =>
    simp only [send_server_fst, send_server_inbox]
    by_cases hs : s.sends.head? = some none
    · rw [if_neg (by rw [send_result_neg]; simpa using hs), if_pos hs]
    · rw [if_pos (by rw [send_result_neg]; exact hs), if_neg hs]
      cases hi : s.inbox with
      | nil => simp [recv]
      | cons a t =>
        cases a with
        | err => simp [recv]
        | data bytes =>
          simp only [recv]
          by_cases hl : bytes.length ≤ BUFFER_SIZE - 1
          · rw [if_pos hl]
            simp only [List.take_of_length_le hl]
            by_cases hb : bytes = []
            · subst hb; simp [cstr]
            · have : (0 : Int) < (bytes.length : Int) := by
                have := List.length_pos.mpr hb
                omega
              simp [this]
          · rw [if_neg hl]
            simp [BUFFER_SIZE]

theorem list_from_server_frame (port : Nat) (st : Int) (ext path : CStr) (w : World) :
    (list_from_server port st ext path w).2.net = w.net.tail
      ∧ (list_from_server port st ext path w).2.client = w.client
      ∧ (list_from_server port st ext path w).2.home = w.home
      ∧ (list_from_server port st ext path w).2.fs = w.fs
      ∧ client_sends (list_from_server port st ext path w).2.trace = client_sends w.trace
      ∧ connect_ports (list_from_server port st ext path w).2.trace
          = connect_ports w.trace ++ [port] := by
  unfold list_from_server
  simp only [connect_fst]
  cases w.net.head?.join with
  | none =>
    simp [World.connect_to_server, client_sends_append, client_sends, connect_ports_append,
      connect_ports]
  | some s =>
    simp only []
    split <;>
    simp [World.connect_to_server, World.send_server, World.close_server, client_sends_append,
      client_sends, connect_ports_append, connect_ports]
theorem recv_ready (more : Inbox) :
    recv (BUFFER_SIZE - 1) (Recv.data "READY".toList :: more)
      = (5, "READY".toList, more) := by
  simp [recv, BUFFER_SIZE]

theorem list_files_in_directory_sends (w : World) (path : CStr) (entries : List Dirent)
    (more : Inbox)
    (hdir : w.fs.opendir path = some entries)
    (hfit : (c_files_of entries).length < BUFFER_SIZE)
    (hack : w.client.inbox = Recv.data "READY".toList :: more) :
    (list_files_in_directory path w).1 = 0
      ∧ client_sends (list_files_in_directory path w).2.trace
          = client_sends w.trace ++ ["FILES_COMING".toList,
              if spec_listing (c_files_of entries) w.net = [] then
                "No files found in this directory".toList
              else spec_listing (c_files_of entries) w.net]
      ∧ connect_ports (list_files_in_directory path w).2.trace
          = connect_ports w.trace ++ [S2_PORT, S3_PORT, S4_PORT] := by
  have f1 := list_from_server_frame S2_PORT 2 "pdf".toList path w
  have f2 := list_from_server_frame S3_PORT 3 "txt".toList path
    (list_from_server S2_PORT 2 "pdf".toList path w).2
  have f3 := list_from_server_frame S4_PORT 4 "zip".toList path
    (list_from_server S3_PORT 3 "txt".toList path
      (list_from_server S2_PORT 2 "pdf".toList path w).2).2
  obtain ⟨n1, c1, -, -, s1, p1⟩ := f1
  obtain ⟨n2, c2, -, -, s2, p2⟩ := f2
  obtain ⟨n3, c3, -, -, s3, p3⟩ := f3
  unfold list_files_in_directory
  simp only [hdir]
  rw [if_neg (by omega)]
  simp only [list_from_server_fst, n1, n2]
  have hinbox : ∀ buf, ((list_from_server S4_PORT 4 "zip".toList path
      (list_from_server S3_PORT 3 "txt".toList path
        (list_from_server S2_PORT 2 "pdf".toList path w).2).2).2.send_client buf).2.client.inbox
        = Recv.data "READY".toList :: more := by
    intro buf
    rw [send_client_inbox, c3, c2, c1, hack]
  simp only [World.recv_client, hinbox, recv_ready]
  rw [if_neg (by simp [cstr])]
  have hl : ∀ l : CStr, (l.length = 0) ↔ l = [] := fun l => List.length_eq_zero
  unfold spec_listing
  by_cases he : c_files_of entries ++ shard_block w.net.head?.join
      ++ shard_block w.net.tail.head?.join ++ shard_block w.net.tail.tail.head?.join = []
  · rw [if_pos (by rw [hl]; exact he), if_pos he]
    simp only [send_client_trace, client_sends_append, connect_ports_append, client_sends,
      connect_ports, s3, s2, s1, p3, p2, p1, List.append_assoc, List.append_nil,
      List.singleton_append, List.cons_append, List.nil_append, and_self]
  · rw [if_neg (by rw [hl]; exact he), if_neg he]
    simp only [send_client_trace, client_sends_append, connect_ports_append, client_sends,
      connect_ports, s3, s2, s1, p3, p2, p1, List.append_assoc, List.append_nil,
      List.singleton_append, List.cons_append, List.nil_append, and_self]

/-! ## The order of `strcmp` -/

theorem char_toNat_inj (a b : Char) (h : a.toNat = b.toNat) : a = b := by
  apply Char.ext
  apply UInt32.ext
  exact h

theorem char_toNat_zero (a : Char) (h : a.toNat = 0) : a = Char.ofNat 0 :=
  char_toNat_inj a (Char.ofNat 0) (by rw [h]; rfl)

theorem strcmp_nil_le (c : CStr) : strcmp [] c ≤ 0 := by
  cases c with
  | nil => simp [strcmp]
  | cons c0 cs => simp [strcmp]

theorem strcmp_total (a b : CStr) : strcmp a b ≤ 0 ∨ strcmp b a ≤ 0 := by
  induction a generalizing b with
  | nil => exact Or.inl (strcmp_nil_le b)
  | cons a0 as ih =>
    cases b with
    | nil => exact Or.inr (strcmp_nil_le _)
    | cons b0 bs =>
      by_cases h : a0 = b0
      · subst h
        by_cases hz : a0 = Char.ofNat 0
        · left; simp [strcmp, hz]
        · simp only [strcmp, if_true, if_neg hz]
          exact ih bs
      · have h2 : ¬ b0 = a0 := fun e => h e.symm
        simp only [strcmp, if_neg h, if_neg h2]
        omega

theorem strcmp_trans (a b c : CStr) (h1 : strcmp a b ≤ 0) (h2 : strcmp b c ≤ 0) :
    strcmp a c ≤ 0 := by
  induction a generalizing b c with
  | nil => exact strcmp_nil_le c
  | cons a0 as ih =>
    cases b with
    | nil =>
      have ha : a0.toNat = 0 := by simp only [strcmp] at h1; omega
      have ha0 := char_toNat_zero a0 ha
      cases c with
      | nil => simp only [strcmp]; omega
      | cons c0 cs =>
        by_cases h : a0 = c0
        · simp [strcmp, h.symm, ha0]
        · simp only [strcmp, if_neg h]; omega
    | cons b0 bs =>
      cases c with
      | nil =>
        have hb : b0.toNat = 0 := by simp only [strcmp] at h2; omega
        simp only [strcmp] at h1 ⊢
        by_cases h : a0 = b0
        · rw [h]; omega
        · rw [if_neg h] at h1; omega
      | cons c0 cs =>
        simp only [strcmp] at h1 h2 ⊢
        by_cases hab : a0 = b0
        · subst hab
          rw [if_pos rfl] at h1
          by_cases hbc : a0 = c0
          · subst hbc
            rw [if_pos rfl] at h2 ⊢
            by_cases hz : a0 = Char.ofNat 0
            · rw [if_pos hz]
            · rw [if_neg hz] at h1 h2 ⊢
              exact ih bs cs h1 h2
          · rw [if_neg hbc] at h2 ⊢
            exact h2
        · rw [if_neg hab] at h1
          by_cases hbc : b0 = c0
          · subst hbc
            rw [if_neg hab]
            exact h1
          · rw [if_neg hbc] at h2
            by_cases hac : a0 = c0
            · exfalso
              apply hab
              apply char_toNat_inj
              rw [hac] at h1 ⊢
              omega
            · rw [if_neg hac]; omega

theorem strcmp_gt_le (a b : CStr) (h : strcmp a b > 0) : strcmp b a ≤ 0 := by
  rcases strcmp_total a b with h1 | h1
  · omega
  · exact h1

/-! ## The sort of S2 -/

theorem qsort_sorted (l : List CStr) : (S2.qsort l).Pairwise (fun a b => strcmp a b ≤ 0) := by
  haveI : IsTotal CStr (fun a b => strcmp a b ≤ 0) := ⟨strcmp_total⟩
  haveI : IsTrans CStr (fun a b => strcmp a b ≤ 0) := ⟨strcmp_trans⟩
  exact List.sorted_insertionSort (fun a b => strcmp a b ≤ 0) l

theorem qsort_perm (l : List CStr) : (S2.qsort l).Perm l :=
  List.perm_insertionSort (fun a b => strcmp a b ≤ 0) l
/-! ## The sort of S4 -/

theorem set_getD (l : List CStr) (i m : Nat) (x : CStr) (hi : i < l.length) :
    (l.set i x).getD m [] = if m = i then x else l.getD m [] := by
  rw [List.getD_eq_getElem?_getD, List.getD_eq_getElem?_getD, List.getElem?_set]
  by_cases h : i = m
  · subst h; simp [hi]
  · rw [if_neg h, if_neg (fun e => h e.symm)]

theorem swap_length (l : List CStr) (j k : Nat) : (S4.swap l j k).length = l.length := by
  simp [S4.swap]

theorem swap_getD (l : List CStr) (j k m : Nat) (hj : j < l.length) (hk : k < l.length) :
    (S4.swap l j k).getD m []
      = if m = k then l.getD j [] else if m = j then l.getD k [] else l.getD m [] := by
  unfold S4.swap
  rw [set_getD _ k m _ (by simpa using hk), set_getD _ j m _ hj]

theorem set_perm_cons : ∀ (t : List CStr) (k : Nat) (h : CStr), k < t.length →
    (t.getD k [] :: t.set k h).Perm (h :: t)
  | [], _, _, hk => by simp at hk
  | a :: t, 0, h, _ => by
    simpa using List.Perm.swap h a t
  | a :: t, k + 1, h, hk => by
    have ih := set_perm_cons t k h (by simpa using hk)
    simp only [List.getD_cons_succ, List.set_cons_succ]
    exact ((List.Perm.swap a (t.getD k []) (t.set k h)).trans (ih.cons a)).trans
      (List.Perm.swap h a t)

theorem swap_perm : ∀ (l : List CStr) (j k : Nat), j < k → k < l.length →
    (S4.swap l j k).Perm l
  | [], _, _, _, hk => by simp at hk
  | h :: t, 0, 0, hjk, _ => by omega
  | h :: t, 0, k + 1, _, hk => by
    have := set_perm_cons t k h (by simpa using hk)
    simpa [S4.swap] using this
  | h :: t, j + 1, 0, hjk, _ => by omega
  | h :: t, j + 1, k + 1, hjk, hk => by
    have ih := swap_perm t j k (by omega) (by simpa using hk)
    simpa [S4.swap] using ih

theorem sort_inner_spec (j : Nat) : ∀ (fuel k : Nat) (l : List CStr), j < k →
    l.length - k ≤ fuel →
    (∀ a b, a < j → a < b → b < l.length → strcmp (l.getD a []) (l.getD b []) ≤ 0) →
    (∀ m, j < m → m < k → m < l.length → strcmp (l.getD j []) (l.getD m []) ≤ 0) →
    (S4.sort_inner j fuel k l).length = l.length
      ∧ (S4.sort_inner j fuel k l).Perm l
      ∧ (∀ a b, a < j + 1 → a < b → b < l.length →
          strcmp ((S4.sort_inner j fuel k l).getD a []) ((S4.sort_inner j fuel k l).getD b [])
            ≤ 0) := by
  intro fuel
  induction fuel with
  | zero =>
    intro k l _ hfuel H1 H2
    refine ⟨rfl, List.Perm.refl _, ?_⟩
    intro a b ha hab hb
    simp only [S4.sort_inner]
    by_cases haj : a < j
    · exact H1 a b haj hab hb
    · have : a = j := by omega
      subst this
      exact H2 b hab (by omega) hb
  | succ fuel ih =>
    intro k l hjk hfuel H1 H2
    unfold S4.sort_inner
    by_cases hk : k < l.length
    · rw [if_pos hk]
      have hj : j < l.length := by omega
      by_cases hc : strcmp (l.getD j []) (l.getD k []) > 0
      · rw [if_pos hc]
        have hkj := strcmp_gt_le _ _ hc
        have hlen := swap_length l j k
        have r := ih (k + 1) (S4.swap l j k) (by omega) (by rw [hlen]; omega)
          (by
            intro a b ha hab hb
            rw [hlen] at hb
            rw [swap_getD l j k a hj hk, swap_getD l j k b hj hk]
            rw [if_neg (by omega), if_neg (by omega)]
            by_cases hbk : b = k
            · rw [if_pos hbk]; exact H1 a j ha (by omega) hj
            · rw [if_neg hbk]
              by_cases hbj : b = j
              · rw [if_pos hbj]; exact H1 a k ha (by omega) hk
              · rw [if_neg hbj]; exact H1 a b ha hab hb)
          (by
            intro m hjm hmk hm
            rw [hlen] at hm
            rw [swap_getD l j k j hj hk, swap_getD l j k m hj hk]
            rw [if_neg (by omega), if_pos rfl]
            by_cases hmk2 : m = k
            · rw [if_pos hmk2]; exact hkj
            · rw [if_neg hmk2, if_neg (by omega)]
              exact strcmp_trans _ _ _ hkj (H2 m hjm (by omega) hm))
        rw [hlen] at r
        exact ⟨r.1, r.2.1.trans (swap_perm l j k hjk hk), r.2.2⟩
      · rw [if_neg hc]
        exact ih (k + 1) l (by omega) (by omega) H1
          (by
            intro m hjm hmk hm
            by_cases hmk2 : m = k
            · subst hmk2; omega
            · exact H2 m hjm (by omega) hm)
    · rw [if_neg hk]
      refine ⟨rfl, List.Perm.refl _, ?_⟩
      intro a b ha hab hb
      by_cases haj : a < j
      · exact H1 a b haj hab hb
      · have : a = j := by omega
        subst this
        exact H2 b hab (by omega) hb

theorem sort_outer_spec : ∀ (fuel j : Nat) (l : List CStr), l.length - j ≤ fuel →
    (∀ a b, a < j → a < b → b < l.length → strcmp (l.getD a []) (l.getD b []) ≤ 0) →
    (S4.sort_outer fuel j l).length = l.length
      ∧ (S4.sort_outer fuel j l).Perm l
      ∧ (∀ a b, a < b → b < l.length →
          strcmp ((S4.sort_outer fuel j l).getD a []) ((S4.sort_outer fuel j l).getD b []) ≤ 0) := by
  intro fuel
  induction fuel with
  | zero =>
    intro j l hfuel H1
    refine ⟨rfl, List.Perm.refl _, ?_⟩
    intro a b hab hb
    exact H1 a b (by omega) hab hb
  | succ fuel ih =>
    intro j l hfuel H1
    unfold S4.sort_outer
    by_cases hj : j + 1 < l.length
    · rw [if_pos hj]
      obtain ⟨hlen, hperm, hmin⟩ := sort_inner_spec j l.length (j + 1) l (by omega) (by omega) H1
        (by intro m hjm hmk _; omega)
      have r := ih (j + 1) (S4.sort_inner j l.length (j + 1) l) (by rw [hlen]; omega)
        (by intro a b ha hab hb; rw [hlen] at hb; exact hmin a b ha hab hb)
      rw [hlen] at r
      exact ⟨r.1, r.2.1.trans hperm, r.2.2⟩
    · rw [if_neg hj]
      refine ⟨rfl, List.Perm.refl _, ?_⟩
      intro a b hab hb
      exact H1 a b (by omega) hab hb

theorem sort_outer_sorted (l : List CStr) :
    (S4.sort_outer l.length 0 l).Perm l
      ∧ (S4.sort_outer l.length 0 l).Pairwise (fun a b => strcmp a b ≤ 0) := by
  obtain ⟨hlen, hperm, hs⟩ := sort_outer_spec l.length 0 l (by omega)
    (by intro a b ha; omega)
  refine ⟨hperm, ?_⟩
  rw [List.pairwise_iff_getElem]
  intro i j hi hj hij
  have := hs i j hij (by rw [← hlen]; exact hj)
  rw [List.getD_eq_getElem _ _ hi, List.getD_eq_getElem _ _ hj] at this
  exact this
/-! ## The replies to `LIST` -/

theorem matching_names_eq (ext : CStr) (entries : List Dirent) :
    matching_names ext entries
      = (entries.filter
          (fun e => e.d_reg && decide (get_file_extension e.d_name = some ext))).map
            Dirent.d_name := by
  induction entries with
  | nil => rfl
  | cons e t ih =>
    unfold matching_names
    by_cases h : e.d_reg = true ∧ get_file_extension e.d_name = some ext
    · rw [if_pos h, ih, List.filter_cons_of_pos (by simp [h.1, h.2])]
      rfl
    · rw [if_neg h, ih, List.filter_cons_of_neg (by simpa using h)]

theorem join_lines_length (l : List CStr) :
    (join_lines l).length = (l.map (fun n => n.length + 1)).sum := by
  induction l with
  | nil => rfl
  | cons a t ih =>
    simp only [join_lines, List.length_append, ih, List.map_cons, List.sum_cons]
    have : "\n".toList.length = 1 := rfl
    omega

theorem join_lines_length_perm (l1 l2 : List CStr) (h : l1.Perm l2) :
    (join_lines l1).length = (join_lines l2).length := by
  rw [join_lines_length, join_lines_length]
  exact (h.map _).sum_eq

theorem opendir_is_dir (fs : FS) (dir : CStr) (entries : List Dirent)
    (h : fs.opendir dir = some entries) : fs.is_dir dir = true := by
  unfold FS.opendir at h
  by_cases hc : fs.is_dir dir = true ∧ dir ∉ fs.denied
  · exact hc.1
  · rw [if_neg hc] at h
    exact absurd h (by simp)

theorem S2_list_reply (w : World) (dir ext : CStr) (entries : List Dirent)
    (hdir : w.fs.opendir (expand_path w.home dir) = some entries)
    (hfit : (join_lines (matching_names ext entries)).length < BUFFER_SIZE) :
    (S2.run_command "LIST".toList dir ext w).trace
      = w.trace ++ [Event.send_client (join_lines (S2.qsort (matching_names ext entries)))
          (send_result w.client.sends
            (join_lines (S2.qsort (matching_names ext entries))).length)] := by
  have hd := opendir_is_dir _ _ _ hdir
  have hfit2 : (join_lines (S2.qsort (matching_names ext entries))).length < BUFFER_SIZE := by
    rw [join_lines_length_perm _ _ (qsort_perm _)]
    exact hfit
  unfold S2.run_command
  rw [if_neg (by decide), if_neg (by decide), if_neg (by decide), if_neg (by decide),
    if_pos (by decide)]
  unfold S2.list_branch S2.get_sorted_files
  simp only [hd, hdir, if_pos hfit2]
  rfl

theorem S4_list_reply (w : World) (command dir ext : CStr) (entries : List Dirent)
    (hparse : sscanf "LIST".toList [MAX_FILEPATH, 10] command = some (2, [dir, ext]))
    (hdir : w.fs.opendir (expand_path w.home dir) = some entries)
    (hfit : (join_lines (matching_names ext entries)).length < BUFFER_SIZE) :
    (S4.handle_list_command command w).2.trace
      = w.trace ++ [Event.send_client
          (join_lines (S4.sort_outer (matching_names ext entries).length 0
            (matching_names ext entries)))
          (send_result w.client.sends
            (join_lines (S4.sort_outer (matching_names ext entries).length 0
              (matching_names ext entries))).length)] := by
  have hd := opendir_is_dir _ _ _ hdir
  have hfit2 : (join_lines (S4.sort_outer (matching_names ext entries).length 0
      (matching_names ext entries))).length < BUFFER_SIZE := by
    rw [join_lines_length_perm _ _ (sort_outer_sorted _).1]
    exact hfit
  unfold S4.handle_list_command
  simp only [hparse]
  unfold S4.list_files_in_directory
  simp only [List.getD_cons_zero, List.getD_cons_succ, hd, hdir, List.take_length, if_pos hfit2]
  simp

/-! ## Replies to a removal -/

theorem strncmp_eq_isPrefixOf (l : CStr) : ∀ p : CStr,
    strncmp_eq l.length p l = l.isPrefixOf p := by
  induction l with
  | nil => intro p; simp [strncmp_eq]
  | cons b l ih =>
    intro p
    cases p with
    | nil => simp [strncmp_eq]
    | cons a p =>
      simp only [List.length_cons, strncmp_eq, List.isPrefixOf]
      by_cases h : a = b
      · subst h; simp [ih]
      · have h2 : ¬ b = a := fun e => h e.symm
        simp [h, h2]

theorem cstr_of_no_nul (r : List Char) (h : Char.ofNat 0 ∉ r) : cstr r = r := by
  unfold cstr
  rw [List.takeWhile_eq_self_iff]
  intro c hc
  simp only [ne_eq, decide_not, Bool.not_eq_true', decide_eq_false_iff_not]
  intro e
  exact h (e ▸ hc)

theorem recv_reply (cap : Nat) (r : List Char) (rest : Inbox) (h : r.length ≤ cap) :
    recv cap (Recv.data r :: rest) = ((r.length : Int), r, rest) := by
  simp [recv, h]

theorem remove_forwards (w : World) (command path ext r : CStr) (s : Sock) (rest : Inbox)
    (hparse : sscanf "removef".toList [MAX_FILEPATH] command = some (1, [path]))
    (hin : is_path_in_s1 w.home (expand_path w.home path) = true)
    (hext : get_file_extension (expand_path w.home path) = some ext)
    (hshard : ext = "pdf".toList ∨ ext = "txt".toList ∨ ext = "zip".toList)
    (hconn : w.net.head?.join = some s)
    (hsend : s.sends.head? ≠ some none)
    (hreply : s.inbox = Recv.data r :: rest)
    (hr : r ≠ [] ∧ r.length < BUFFER_SIZE ∧ Char.ofNat 0 ∉ r) :
    client_sends (handle_remove_command command w).2.trace
      = client_sends w.trace
          ++ [if "SUCCESS".toList.isPrefixOf r = true then msg_removed else r] := by
  have hlen : (0 : Int) < (r.length : Int) := by
    have := List.length_pos.mpr hr.1
    omega
  have hrecv : recv (BUFFER_SIZE - 1) (Recv.data r :: rest) = ((r.length : Int), r, rest) :=
    recv_reply _ _ _ (by have := hr.2.1; omega)
  have hpre : strncmp_eq 7 r "SUCCESS".toList = "SUCCESS".toList.isPrefixOf r :=
    strncmp_eq_isPrefixOf "SUCCESS".toList r
  have hv : valid_ext ext = true := by
    rcases hshard with h | h | h <;> subst h <;> decide
  have hc : strcmp_eq ext "c".toList = false := by
    rcases hshard with h | h | h <;> subst h <;> decide
  have ht : ∃ target, remove_target ext = some target := by
    rcases hshard with h | h | h <;> subst h <;> exact ⟨_, rfl⟩
  obtain ⟨target, ht⟩ := ht
  unfold handle_remove_command
  simp only [hparse, List.getD_cons_zero, hin, hext, hv, hc, ht, connect_fst, hconn,
    send_server_fst, send_server_inbox, hreply, hrecv, cstr_of_no_nul r hr.2.2, hpre]
  rw [if_neg (by simp), if_neg (by simp), if_neg (by simp), if_neg (by simp),
    if_neg (by rw [not_lt, ← ge_iff_le, send_result_neg]; exact hsend),
    if_neg (by omega)]
  by_cases hs : "SUCCESS".toList.isPrefixOf r = true
  · rw [if_neg (by rw [hs]; simp), if_pos hs]
    simp only [send_client_trace, close_server_trace, send_server_trace, connect_trace,
      client_sends_append, client_sends, List.append_nil, List.append_assoc]
  · rw [if_pos (Bool.eq_false_iff.mpr hs), if_neg hs]
    simp only [send_client_trace, close_server_trace, send_server_trace, connect_trace,
      client_sends_append, client_sends, List.append_nil, List.append_assoc]
theorem remove_missing (fs : FS) (p : CStr) (h : fs.access p = false) :
    fs.remove p = (some Errno.ENOENT, fs) := by
  unfold FS.access at h
  have hf : fs.is_file p = false := by
    cases hx : fs.is_file p
    · rfl
    · rw [hx] at h; simp at h
  unfold FS.remove
  rw [hf]
  rfl

theorem remove_missing_local (w : World) (command path : CStr)
    (hparse : sscanf "removef".toList [MAX_FILEPATH] command = some (1, [path]))
    (hin : is_path_in_s1 w.home (expand_path w.home path) = true)
    (hext : get_file_extension (expand_path w.home path) = some "c".toList)
    (hmiss : w.fs.access (expand_path w.home path) = false) :
    client_sends (handle_remove_command command w).2.trace
      = client_sends w.trace
          ++ ["ERROR: Failed to remove file - No such file or directory".toList] := by
  have hv : valid_ext "c".toList = true := by decide
  have hc : strcmp_eq "c".toList "c".toList = true := by decide
  unfold handle_remove_command
  simp only [hparse, List.getD_cons_zero, hin, hext, hv, hc, remove_missing _ _ hmiss]
  rw [if_neg (by simp), if_neg (by simp), if_neg (by simp), if_pos trivial]
  simp only [send_client_trace, unlink_trace, client_sends_append, client_sends,
    List.append_nil]
  rfl

theorem S2_remove_missing (w : World) (arg1 arg2 : CStr)
    (hmiss : w.fs.access (expand_path w.home arg1) = false) :
    client_sends (S2.run_command "REMOVE".toList arg1 arg2 w).trace
      = client_sends w.trace ++ ["ERROR: File not found".toList] := by
  unfold S2.run_command
  rw [if_neg (by decide), if_neg (by decide), if_pos (by decide)]
  unfold S2.remove_branch
  rw [if_pos hmiss]
  simp only [send_client_trace, client_sends_append, client_sends, List.append_nil]

theorem S4_remove_missing (w : World) (command path : CStr)
    (hparse : sscanf "REMOVE".toList [MAX_FILEPATH] command = some (1, [path]))
    (hmiss : w.fs.access (expand_path w.home path) = false) :
    client_sends (S4.handle_remove_command command w).2.trace
      = client_sends w.trace
          ++ ["ERROR: Failed to remove file - No such file or directory".toList] := by
  unfold S4.handle_remove_command
  simp only [hparse, List.getD_cons_zero, remove_missing _ _ hmiss]
  rw [if_neg (by simp)]
  simp only [send_client_trace, unlink_trace, client_sends_append, client_sends,
    List.append_nil]
  rfl

/-! ## The last message of a transfer -/

theorem client_sends_last (t : List Event) (msg : List Char) (ret : Int) :
    (client_sends (t ++ [Event.send_client msg ret])).getLast? = some msg := by
  rw [client_sends_append]
  simp [client_sends]

theorem upload_last_status (w : World) (command : CStr)
    (h : (handle_upload_command command w).1 = 0) :
    ∃ msg, (client_sends (handle_upload_command command w).2.trace).getLast? = some msg
      ∧ "SUCCESS:".toList.isPrefixOf msg = true := by
  revert h
  unfold handle_upload_command
  dsimp only
  repeat' split
  all_goals intro h
  all_goals first
    | (simp at h; done)
    | exact ⟨_, client_sends_last _ _ _, by decide⟩

theorem S4_receive_last_status (w : World) (command : CStr) (parsed : Int × List CStr)
    (hparse : sscanf "RECEIVE".toList [MAX_FILENAME, MAX_FILEPATH] command = some parsed) :
    ∃ msg, (client_sends (S4.handle_receive_command command w).2.trace).getLast? = some msg
      ∧ is_status msg = true
      ∧ ((S4.handle_receive_command command w).1 = 0 →
          "SUCCESS:".toList.isPrefixOf msg = true) := by
  unfold S4.handle_receive_command
  simp only [hparse]
  repeat' split
  all_goals refine ⟨_, client_sends_last _ _ _, by decide, ?_⟩
  all_goals intro h
  all_goals first
    | (simp at h; done)
    | decide
theorem send_chunks_client_sends : ∀ (chunks : List (List Char)) (w : World),
    ∃ k, client_sends (send_chunks_client chunks w).2.trace
          = client_sends w.trace ++ chunks.take k
      ∧ ((send_chunks_client chunks w).1 = 0 → chunks.take k = chunks)
  | [], w => ⟨0, by simp [send_chunks_client], fun _ => rfl⟩
  | c :: rest, w => by
    unfold send_chunks_client
    by_cases h : (w.send_client c).1 < 0
    · rw [if_pos h]
      refine ⟨1, ?_, ?_⟩
      · simp only [send_client_trace, client_sends_append, client_sends, List.take_succ_cons,
          List.take_zero]
      · intro h0
        simp at h0
    · rw [if_neg h]
      obtain ⟨k, hk, hall⟩ := send_chunks_client_sends rest (w.send_client c).2
      refine ⟨k + 1, ?_, ?_⟩
      · rw [hk]
        simp only [send_client_trace, client_sends_append, client_sends, List.take_succ_cons,
          List.append_assoc, List.singleton_append]
      · intro h0
        rw [List.take_succ_cons, hall h0]

theorem send_file_to_client_ok (p : CStr) (w : World)
    (h : (send_file_to_client p w).1 = 0) :
    ∃ content, w.fs.fopen_r p = some content
      ∧ client_sends (send_file_to_client p w).2.trace
          = client_sends w.trace ++ fread_chunks BUFFER_SIZE content.length content := by
  unfold send_file_to_client at h ⊢
  cases hf : w.fs.fopen_r p with
  | none => rw [hf] at h; simp at h
  | some content =>
    rw [hf] at h
    simp only at h ⊢
    obtain ⟨k, hk, hall⟩ := send_chunks_client_sends
      (fread_chunks BUFFER_SIZE content.length content) w
    rw [hall h] at hk
    exact ⟨content, rfl, hk⟩

theorem retrieve_client_sends (filename : CStr) (server_type : Int) (w : World) :
    client_sends (retrieve_file_from_server filename server_type w).2.trace
      = client_sends w.trace := by
  unfold retrieve_file_from_server
  dsimp only
  repeat' split
  all_goals simp [client_sends_append, client_sends]

theorem download_ends_with_payload (w : World) (command : CStr)
    (h : (handle_download_command command w).1 = 0) :
    ∃ content, client_sends (handle_download_command command w).2.trace
      = client_sends w.trace
          ++ "READY_TO_SEND".toList :: fread_chunks BUFFER_SIZE content.length content := by
  revert h
  unfold handle_download_command
  dsimp only
  repeat' split
  all_goals intro h
  all_goals first
    | (simp at h; done)
    | (obtain ⟨content, -, hc⟩ := send_file_to_client_ok _ _ h
       refine ⟨content, ?_⟩
       simp only [hc, send_client_trace, unlink_trace, client_sends_append, client_sends,
         retrieve_client_sends, List.append_assoc, List.singleton_append, List.append_nil])
theorem fopen_r_access (fs : FS) (p : CStr) (content : List Char)
    (h : fs.fopen_r p = some content) : fs.access p = true := by
  unfold FS.fopen_r at h
  by_cases hd : p ∈ fs.denied
  · rw [if_pos hd] at h; simp at h
  · rw [if_neg hd] at h
    unfold FS.access FS.is_file
    rw [h]
    rfl

theorem S2_send_ends_with_payload (w : World) (arg1 arg2 : CStr) (content : List Char)
    (hfile : w.fs.fopen_r (expand_path w.home arg1) = some content) :
    ∃ k, client_sends (S2.run_command "SEND".toList arg1 arg2 w).trace
      = client_sends w.trace
          ++ "READY_TO_SEND".toList
            :: (fread_chunks BUFFER_SIZE content.length content).take k := by
  have ha := fopen_r_access _ _ _ hfile
  unfold S2.run_command
  rw [if_neg (by decide), if_pos (by decide)]
  unfold S2.send_branch S2.send_file
  rw [if_neg (by rw [ha]; simp)]
  simp only [send_client_fs, hfile]
  obtain ⟨k, hk, -⟩ := send_chunks_client_sends
    (fread_chunks BUFFER_SIZE content.length content) (w.send_client "READY_TO_SEND".toList).2
  refine ⟨k, ?_⟩
  rw [hk]
  simp only [send_client_trace, client_sends_append, client_sends, List.append_assoc,
    List.singleton_append, List.append_nil]

theorem S4_send_ends_with_payload (w : World) (command path : CStr) (content : List Char)
    (hparse : sscanf "SEND".toList [MAX_FILEPATH] command = some (1, [path]))
    (hfile : w.fs.fopen_r (expand_path w.home path) = some content) :
    ∃ k, client_sends (S4.handle_send_command command w).2.trace
      = client_sends w.trace
          ++ "READY_TO_SEND".toList
            :: (fread_chunks BUFFER_SIZE content.length content).take k := by
  have ha := fopen_r_access _ _ _ hfile
  unfold S4.handle_send_command
  simp only [hparse, List.getD_cons_zero]
  rw [if_neg (by simp), if_neg (by rw [ha]; simp)]
  unfold S4.send_file
  simp only [send_client_fs, hfile]
  obtain ⟨k, hk, -⟩ := send_chunks_client_sends
    (fread_chunks BUFFER_SIZE content.length content) (w.send_client "READY_TO_SEND".toList).2
  refine ⟨k, ?_⟩
  rw [hk]
  simp only [send_client_trace, client_sends_append, client_sends, List.append_assoc,
    List.singleton_append, List.append_nil]

/-! ## Words of a command line and the fields `sscanf` assigns -/

theorem words_go_nonspace : ∀ (pre cur rest : CStr), (∀ c ∈ pre, isspace c = false) →
    words_go cur (pre ++ rest) = words_go (pre.reverse ++ cur) rest
  | [], cur, rest, _ => rfl
  | c :: pre, cur, rest, h => by
    have hc : isspace c = false := h c (List.mem_cons_self _ _)
    have ih := words_go_nonspace pre (c :: cur) rest
      (fun x hx => h x (List.mem_cons_of_mem _ hx))
    rw [List.cons_append, words_go, hc]
    simp only [Bool.false_eq_true, if_false]
    rw [ih]
    simp

theorem words_go_space : ∀ (sp rest : CStr), (∀ c ∈ sp, isspace c = true) →
    words_go [] (sp ++ rest) = words_go [] rest
  | [], _, _ => rfl
  | c :: sp, rest, h => by
    have hc : isspace c = true := h c (List.mem_cons_self _ _)
    rw [List.cons_append, words_go, hc]
    simp only [if_true]
    exact words_go_space sp rest (fun x hx => h x (List.mem_cons_of_mem _ hx))

theorem words_go_end (cur rest : CStr) (hcur : cur ≠ [])
    (hrest : ∀ c, rest.head? = some c → isspace c = true) :
    words_go cur rest = cur.reverse :: words rest := by
  cases rest with
  | nil => simp [words_go, words, hcur]
  | cons c cs =>
    have hc : isspace c = true := hrest c rfl
    simp [words_go, words, hc, hcur]

theorem dropWhile_head (p : Char → Bool) (l : CStr) :
    ∀ c, (l.dropWhile p).head? = some c → p c = false := by
  induction l with
  | nil => intro c h; simp at h
  | cons a t ih =>
    intro c h
    rw [List.dropWhile_cons] at h
    by_cases ha : p a = true
    · rw [if_pos ha] at h; exact ih c h
    · rw [if_neg ha] at h
      simp only [List.head?_cons, Option.some.injEq] at h
      rw [← h]
      simpa using ha

theorem words_of_scan_s_none (s : CStr) (h : scan_s s = none) : words s = [] := by
  unfold scan_s at h
  by_cases hi : s.dropWhile isspace = []
  · have hs : s = s.takeWhile isspace ++ [] := by
      rw [← hi, List.takeWhile_append_dropWhile]
    rw [hs]
    unfold words
    rw [words_go_space _ _ (fun c hc => (List.mem_takeWhile_imp hc))]
    rfl
  · simp only [hi, if_false] at h
    exact absurd h (by simp)

theorem words_of_scan_s_some (s tok rest : CStr) (h : scan_s s = some (tok, rest)) :
    words s = tok :: words rest := by
  unfold scan_s at h
  by_cases hi : s.dropWhile isspace = []
  · simp only [hi, if_true] at h
    exact absurd h (by simp)
  · simp only [hi, if_false, Option.some.injEq, Prod.mk.injEq] at h
    obtain ⟨ht, hr⟩ := h
    have hs : s = s.takeWhile isspace ++ (tok ++ rest) := by
      rw [← ht, ← hr, List.takeWhile_append_dropWhile, List.takeWhile_append_dropWhile]
    have htok : ∀ c ∈ tok, isspace c = false := by
      intro c hc
      rw [← ht] at hc
      simpa using List.mem_takeWhile_imp hc
    have htne : tok ≠ [] := by
      rw [← ht]
      cases hd : s.dropWhile isspace with
      | nil => exact absurd hd hi
      | cons a t =>
        have ha := dropWhile_head isspace s a (by rw [hd]; rfl)
        simp [List.takeWhile_cons, ha]
    have hrest : ∀ c, rest.head? = some c → isspace c = true := by
      intro c hc
      rw [← hr] at hc
      simpa using dropWhile_head _ _ c hc
    conv_lhs => rw [hs]
    unfold words
    rw [words_go_space _ _ (fun c hc => (List.mem_takeWhile_imp hc)),
      words_go_nonspace tok [] rest htok, List.append_nil,
      words_go_end _ _ (by simpa using htne) hrest, List.reverse_reverse]
    rfl

theorem scan_args_words : ∀ (n : Nat) (s : CStr), scan_args n s = (words s).take n
  | 0, s => by simp [scan_args]
  | n + 1, s => by
    unfold scan_args
    cases h : scan_s s with
    | none => simp [words_of_scan_s_none s h]
    | some p =>
      obtain ⟨tok, rest⟩ := p
      simp only
      rw [words_of_scan_s_some s tok rest h, scan_args_words n rest, List.take_succ_cons]
theorem scan_literal_append : ∀ (lit rest : CStr), scan_literal lit (lit ++ rest) = Except.ok rest
  | [], _ => rfl
  | c :: lit, rest => by
    rw [List.cons_append, scan_literal, if_pos rfl]
    exact scan_literal_append lit rest

theorem words_cons_space (r : CStr) : words (' ' :: r) = words r := by
  simp [words, words_go, isspace]

theorem words_head (W r : CStr) (hW : ∀ c ∈ W, isspace c = false) (hne : W ≠ []) :
    words (W ++ ' ' :: r) = W :: words r := by
  unfold words
  rw [words_go_nonspace W [] _ hW, List.append_nil,
    words_go_end _ _ (by simpa using hne) (by intro c hc; simp at hc; rw [← hc]; rfl),
    List.reverse_reverse, words_cons_space]
  rfl

theorem words_go_append_space : ∀ (a cur b : CStr),
    words_go cur (a ++ ' ' :: b) = words_go cur a ++ words b
  | [], cur, b => by
    by_cases hc : cur = []
    · simp [words_go, words, isspace, hc]
    · simp [words_go, words, isspace, hc]
  | c :: a, cur, b => by
    rw [List.cons_append, words_go, words_go]
    by_cases hs : isspace c = true
    · rw [if_pos hs, if_pos hs]
      by_cases hc : cur = []
      · rw [if_pos hc, if_pos hc]; exact words_go_append_space a [] b
      · rw [if_neg hc, if_neg hc, words_go_append_space a [] b]; rfl
    · rw [if_neg hs, if_neg hs]; exact words_go_append_space a (c :: cur) b

theorem words_append_space (a b : CStr) : words (a ++ ' ' :: b) = words a ++ words b :=
  words_go_append_space a [] b

theorem words_nonspace_length (s : CStr) (h : ∀ c ∈ s, isspace c = false) :
    (words s).length ≤ 1 := by
  have e : s = s ++ [] := by simp
  unfold words
  rw [e, words_go_nonspace s [] [] h]
  simp only [words_go]
  split <;> simp

theorem sscanf_words (W r : CStr) (sizes : List Nat) :
    sscanf W sizes (W ++ ' ' :: r)
      = if (((words r).take sizes.length).zip sizes).all (fun p => decide (p.1.length < p.2))
        then some (if (words r).take sizes.length = [] then -1
                   else (((words r).take sizes.length).length : Int),
                   (words r).take sizes.length)
        else none := by
  unfold sscanf
  rw [scan_literal_append]
  simp only [scan_args_words, words_cons_space]

theorem fits_of_short (args : List CStr) (sizes : List Nat)
    (ha : ∀ a ∈ args, a.length < MAX_FILENAME) (hs : ∀ s ∈ sizes, MAX_FILENAME ≤ s) :
    (args.zip sizes).all (fun p => decide (p.1.length < p.2)) = true := by
  rw [List.all_eq_true]
  intro p hp
  obtain ⟨a, s⟩ := p
  have h1 := ha a (List.of_mem_zip hp).1
  have h2 := hs s (List.of_mem_zip hp).2
  simp only [decide_eq_true_eq]
  omega

theorem too_few_parse (W r : CStr) (sizes : List Nat)
    (hlt : (words r).length < sizes.length)
    (ha : ∀ a ∈ words r, a.length < MAX_FILENAME) (hs : ∀ s ∈ sizes, MAX_FILENAME ≤ s) :
    ∃ parsed, sscanf W sizes (W ++ ' ' :: r) = some parsed ∧ parsed.1 ≠ (sizes.length : Int) := by
  rw [sscanf_words, List.take_of_length_le (by omega), if_pos (fits_of_short _ _ ha hs)]
  refine ⟨_, rfl, ?_⟩
  simp only
  split
  · omega
  · omega
/-! ## Command lines with too few or too many arguments -/

theorem grammar_word_nonspace (W : CStr)
    (h : W = "uploadf".toList ∨ W = "downlf".toList ∨ W = "removef".toList
      ∨ W = "downltar".toList ∨ W = "dispfnames".toList) :
    (∀ c ∈ W, isspace c = false) ∧ W ≠ [] := by
  rcases h with h | h | h | h | h <;> subst h <;> exact ⟨by decide, by decide⟩

theorem too_few_handler (command word : CStr) (args : List CStr) (W r : CStr)
    (sizes : List Nat)
    (hw : words command = word :: args)
    (hc : command = W ++ ' ' :: r)
    (hW : W = "uploadf".toList ∨ W = "downlf".toList ∨ W = "removef".toList
      ∨ W = "downltar".toList ∨ W = "dispfnames".toList)
    (hlt : args.length < sizes.length)
    (hfit : ∀ a ∈ args, a.length < MAX_FILENAME) (hs : ∀ s ∈ sizes, MAX_FILENAME ≤ s) :
    ∃ parsed, sscanf W sizes command = some parsed ∧ parsed.1 ≠ (sizes.length : Int) := by
  obtain ⟨h1, h2⟩ := grammar_word_nonspace W hW
  rw [hc, words_head W r h1 h2] at hw
  simp only [List.cons.injEq] at hw
  rw [hc]
  exact too_few_parse W r sizes (by rw [hw.2]; exact hlt) (by rw [hw.2]; exact hfit) hs

theorem word_of_command_head (command word : CStr) (args : List CStr) (W r : CStr)
    (hw : words command = word :: args)
    (hc : command = W ++ ' ' :: r)
    (hW : W = "uploadf".toList ∨ W = "downlf".toList ∨ W = "removef".toList
      ∨ W = "downltar".toList ∨ W = "dispfnames".toList) :
    word = W ∧ args = words r := by
  obtain ⟨h1, h2⟩ := grammar_word_nonspace W hW
  rw [hc, words_head W r h1 h2] at hw
  simp only [List.cons.injEq] at hw
  exact ⟨hw.1.symm, hw.2.symm⟩

theorem too_few_rejected (w : World) (command word : CStr) (args : List CStr) (n : Nat)
    (hw : words command = word :: args)
    (hg : grammar_args word = some n)
    (hlt : args.length < n)
    (hfit : ∀ a ∈ args, a.length < MAX_FILENAME) :
    Rejected w (dispatch command w) := by
  unfold dispatch
  by_cases t1 : strncmp_eq 8 command "uploadf ".toList = true
  · rw [if_pos t1]
    obtain ⟨r, hr⟩ := strncmp_eq_append "uploadf ".toList command t1
    have hc : command = "uploadf".toList ++ ' ' :: r := hr
    obtain ⟨e1, -⟩ := word_of_command_head command word args _ r hw hc (by simp)
    have hn : n = 2 := by rw [e1] at hg; simpa [grammar_args] using hg.symm
    obtain ⟨parsed, hp, hne⟩ := too_few_handler command word args _ r
      [MAX_FILENAME, MAX_FILEPATH] hw hc (by simp) (by rw [hn] at hlt; exact hlt) hfit
      (by decide)
    exact upload_rejected w command parsed hp (Or.inl hne)
  rw [if_neg t1]
  by_cases t2 : strncmp_eq 7 command "downlf ".toList = true
  · rw [if_pos t2]
    obtain ⟨r, hr⟩ := strncmp_eq_append "downlf ".toList command t2
    have hc : command = "downlf".toList ++ ' ' :: r := hr
    obtain ⟨e1, -⟩ := word_of_command_head command word args _ r hw hc (by simp)
    have hn : n = 1 := by rw [e1] at hg; simpa [grammar_args] using hg.symm
    obtain ⟨parsed, hp, hne⟩ := too_few_handler command word args _ r
      [MAX_FILEPATH] hw hc (by simp) (by rw [hn] at hlt; exact hlt) hfit (by decide)
    exact download_rejected w command parsed hp (Or.inl hne)
  rw [if_neg t2]
  by_cases t3 : strncmp_eq 8 command "removef ".toList = true
  · rw [if_pos t3]
    obtain ⟨r, hr⟩ := strncmp_eq_append "removef ".toList command t3
    have hc : command = "removef".toList ++ ' ' :: r := hr
    obtain ⟨e1, -⟩ := word_of_command_head command word args _ r hw hc (by simp)
    have hn : n = 1 := by rw [e1] at hg; simpa [grammar_args] using hg.symm
    obtain ⟨parsed, hp, hne⟩ := too_few_handler command word args _ r
      [MAX_FILEPATH] hw hc (by simp) (by rw [hn] at hlt; exact hlt) hfit (by decide)
    exact remove_rejected w command parsed hp (Or.inl hne)
  rw [if_neg t3]
  by_cases t4 : strncmp_eq 9 command "downltar ".toList = true
  · rw [if_pos t4]
    obtain ⟨r, hr⟩ := strncmp_eq_append "downltar ".toList command t4
    have hc : command = "downltar".toList ++ ' ' :: r := hr
    obtain ⟨e1, -⟩ := word_of_command_head command word args _ r hw hc (by simp)
    have hn : n = 1 := by rw [e1] at hg; simpa [grammar_args] using hg.symm
    obtain ⟨parsed, hp, hne⟩ := too_few_handler command word args _ r
      [BUFFER_SIZE] hw hc (by simp) (by rw [hn] at hlt; exact hlt) hfit (by decide)
    exact download_tar_rejected w command parsed hp (Or.inl hne)
  rw [if_neg t4]
  by_cases t5 : strncmp_eq 11 command "dispfnames ".toList = true
  · rw [if_pos t5]
    obtain ⟨r, hr⟩ := strncmp_eq_append "dispfnames ".toList command t5
    have hc : command = "dispfnames".toList ++ ' ' :: r := hr
    obtain ⟨e1, -⟩ := word_of_command_head command word args _ r hw hc (by simp)
    have hn : n = 1 := by rw [e1] at hg; simpa [grammar_args] using hg.symm
    obtain ⟨parsed, hp, hne⟩ := too_few_handler command word args _ r
      [MAX_FILEPATH] hw hc (by simp) (by rw [hn] at hlt; exact hlt) hfit (by decide)
    exact display_filenames_rejected w command parsed hp (Or.inl hne)
  rw [if_neg t5]
  exact rejected_send w w _ rfl rfl rfl (by decide)
theorem command_test_stable (W command extra : CStr) (hW : ∀ c ∈ W, isspace c = false)
    (h2 : 2 ≤ (words command).length) :
    strncmp_eq (W ++ [' ']).length (command ++ ' ' :: extra) (W ++ [' '])
      = strncmp_eq (W ++ [' ']).length command (W ++ [' ']) := by
  rw [strncmp_eq_isPrefixOf, strncmp_eq_isPrefixOf, Bool.eq_iff_iff,
    List.isPrefixOf_iff_prefix, List.isPrefixOf_iff_prefix]
  constructor
  · intro h
    by_cases hl : (W ++ [' ']).length ≤ command.length
    · exact List.prefix_of_prefix_length_le h (List.prefix_append _ _) hl
    · exfalso
      have hl2 : command.length ≤ W.length := by
        simp only [List.length_append, List.length_singleton] at hl
        omega
      have p1 : command <+: W ++ [' '] :=
        List.prefix_of_prefix_length_le (List.prefix_append _ _) h (by
          simp only [List.length_append, List.length_singleton]; omega)
      have p2 : command <+: W :=
        List.prefix_of_prefix_length_le p1 (List.prefix_append _ _) hl2
      have h3 := words_nonspace_length command (fun c hc => hW c (p2.subset hc))
      omega
  · intro h
    exact h.trans (List.prefix_append _ _)

theorem sscanf_stable (W r extra : CStr) (sizes : List Nat)
    (hn : sizes.length ≤ (words r).length) :
    sscanf W sizes (W ++ ' ' :: r ++ ' ' :: extra) = sscanf W sizes (W ++ ' ' :: r) := by
  have e : W ++ ' ' :: r ++ ' ' :: extra = W ++ ' ' :: (r ++ ' ' :: extra) := by simp
  rw [e, sscanf_words, sscanf_words, words_append_space, List.take_append_of_le_length hn]

theorem upload_congr (w : World) (c1 c2 : CStr)
    (h : sscanf "uploadf".toList [MAX_FILENAME, MAX_FILEPATH] c1
      = sscanf "uploadf".toList [MAX_FILENAME, MAX_FILEPATH] c2) :
    handle_upload_command c1 w = handle_upload_command c2 w := by
  unfold handle_upload_command
  rw [h]

theorem download_congr (w : World) (c1 c2 : CStr)
    (h : sscanf "downlf".toList [MAX_FILEPATH] c1 = sscanf "downlf".toList [MAX_FILEPATH] c2) :
    handle_download_command c1 w = handle_download_command c2 w := by
  unfold handle_download_command
  rw [h]

theorem remove_congr (w : World) (c1 c2 : CStr)
    (h : sscanf "removef".toList [MAX_FILEPATH] c1 = sscanf "removef".toList [MAX_FILEPATH] c2) :
    handle_remove_command c1 w = handle_remove_command c2 w := by
  unfold handle_remove_command
  rw [h]

theorem download_tar_congr (w : World) (c1 c2 : CStr)
    (h : sscanf "downltar".toList [BUFFER_SIZE] c1 = sscanf "downltar".toList [BUFFER_SIZE] c2) :
    handle_download_tar_command c1 w = handle_download_tar_command c2 w := by
  unfold handle_download_tar_command
  rw [h]

theorem display_filenames_congr (w : World) (c1 c2 : CStr)
    (h : sscanf "dispfnames".toList [MAX_FILEPATH] c1
      = sscanf "dispfnames".toList [MAX_FILEPATH] c2) :
    handle_display_filenames_command c1 w = handle_display_filenames_command c2 w := by
  unfold handle_display_filenames_command
  rw [h]

theorem grammar_args_cases (word : CStr) (n : Nat) (h : grammar_args word = some n) :
    n = 1 ∨ n = 2 := by
  unfold grammar_args at h
  split at h
  · right; simpa using h.symm
  · split at h
    · left; simpa using h.symm
    · simp at h

theorem surplus_ignored (w : World) (command word extra : CStr) (args : List CStr) (n : Nat)
    (hw : words command = word :: args)
    (hg : grammar_args word = some n)
    (hge : n ≤ args.length) :
    dispatch (command ++ ' ' :: extra) w = dispatch command w := by
  have h2 : 2 ≤ (words command).length := by
    rw [hw]
    have := grammar_args_cases word n hg
    simp only [List.length_cons]
    omega
  have s1 : strncmp_eq 8 (command ++ ' ' :: extra) "uploadf ".toList
      = strncmp_eq 8 command "uploadf ".toList :=
    command_test_stable "uploadf".toList command extra (by decide) h2
  have s2 : strncmp_eq 7 (command ++ ' ' :: extra) "downlf ".toList
      = strncmp_eq 7 command "downlf ".toList :=
    command_test_stable "downlf".toList command extra (by decide) h2
  have s3 : strncmp_eq 8 (command ++ ' ' :: extra) "removef ".toList
      = strncmp_eq 8 command "removef ".toList :=
    command_test_stable "removef".toList command extra (by decide) h2
  have s4 : strncmp_eq 9 (command ++ ' ' :: extra) "downltar ".toList
      = strncmp_eq 9 command "downltar ".toList :=
    command_test_stable "downltar".toList command extra (by decide) h2
  have s5 : strncmp_eq 11 (command ++ ' ' :: extra) "dispfnames ".toList
      = strncmp_eq 11 command "dispfnames ".toList :=
    command_test_stable "dispfnames".toList command extra (by decide) h2
  unfold dispatch
  rw [s1, s2, s3, s4, s5]
  by_cases t1 : strncmp_eq 8 command "uploadf ".toList = true
  · rw [if_pos t1, if_pos t1]
    obtain ⟨r, hr⟩ := strncmp_eq_append "uploadf ".toList command t1
    have hc : command = "uploadf".toList ++ ' ' :: r := hr
    obtain ⟨e1, e2⟩ := word_of_command_head command word args _ r hw hc (by simp)
    have hn : n = 2 := by rw [e1] at hg; simpa [grammar_args] using hg.symm
    have hlen : n ≤ (words r).length := by rw [← e2]; exact hge
    rw [hn] at hlen
    rw [upload_congr w _ command (by rw [hc]; exact sscanf_stable _ r extra _ hlen)]
  rw [if_neg t1, if_neg t1]
  by_cases t2 : strncmp_eq 7 command "downlf ".toList = true
  · rw [if_pos t2, if_pos t2]
    obtain ⟨r, hr⟩ := strncmp_eq_append "downlf ".toList command t2
    have hc : command = "downlf".toList ++ ' ' :: r := hr
    obtain ⟨e1, e2⟩ := word_of_command_head command word args _ r hw hc (by simp)
    have hn : n = 1 := by rw [e1] at hg; simpa [grammar_args] using hg.symm
    have hlen : n ≤ (words r).length := by rw [← e2]; exact hge
    rw [hn] at hlen
    rw [download_congr w _ command (by rw [hc]; exact sscanf_stable _ r extra _ hlen)]
  rw [if_neg t2, if_neg t2]
  by_cases t3 : strncmp_eq 8 command "removef ".toList = true
  · rw [if_pos t3, if_pos t3]
    obtain ⟨r, hr⟩ := strncmp_eq_append "removef ".toList command t3
    have hc : command = "removef".toList ++ ' ' :: r := hr
    obtain ⟨e1, e2⟩ := word_of_command_head command word args _ r hw hc (by simp)
    have hn : n = 1 := by rw [e1] at hg; simpa [grammar_args] using hg.symm
    have hlen : n ≤ (words r).length := by rw [← e2]; exact hge
    rw [hn] at hlen
    rw [remove_congr w _ command (by rw [hc]; exact sscanf_stable _ r extra _ hlen)]
  rw [if_neg t3, if_neg t3]
  by_cases t4 : strncmp_eq 9 command "downltar ".toList = true
  · rw [if_pos t4, if_pos t4]
    obtain ⟨r, hr⟩ := strncmp_eq_append "downltar ".toList command t4
    have hc : command = "downltar".toList ++ ' ' :: r := hr
    obtain ⟨e1, e2⟩ := word_of_command_head command word args _ r hw hc (by simp)
    have hn : n = 1 := by rw [e1] at hg; simpa [grammar_args] using hg.symm
    have hlen : n ≤ (words r).length := by rw [← e2]; exact hge
    rw [hn] at hlen
    rw [download_tar_congr w _ command (by rw [hc]; exact sscanf_stable _ r extra _ hlen)]
  rw [if_neg t4, if_neg t4]
  by_cases t5 : strncmp_eq 11 command "dispfnames ".toList = true
  · rw [if_pos t5, if_pos t5]
    obtain ⟨r, hr⟩ := strncmp_eq_append "dispfnames ".toList command t5
    have hc : command = "dispfnames".toList ++ ' ' :: r := hr
    obtain ⟨e1, e2⟩ := word_of_command_head command word args _ r hw hc (by simp)
    have hn : n = 1 := by rw [e1] at hg; simpa [grammar_args] using hg.symm
    have hlen : n ≤ (words r).length := by rw [← e2]; exact hge
    rw [hn] at hlen
    rw [display_filenames_congr w _ command (by rw [hc]; exact sscanf_stable _ r extra _ hlen)]
  rw [if_neg t5, if_neg t5]

/-- The block of `c` names the router builds is the one the specification describes. -/
theorem c_files_of_eq (entries : List Dirent) : c_files_of entries = spec_c_block entries := by
  induction entries with
  | nil => rfl
  | cons e t ih =>
    unfold c_files_of spec_c_block
    by_cases h : e.d_reg = true ∧ get_file_extension e.d_name = some "c".toList
    · rw [if_pos h, ih, List.filter_cons_of_pos (by simp [h.1, h.2])]
      simp [spec_c_block]
    · rw [if_neg h, ih, List.filter_cons_of_neg (by simpa using h)]
      rfl

/-! ## Downloads send the file -/

theorem send_chunks_client_all : ∀ (chunks : List (List Char)) (w : World),
    none ∉ w.client.sends →
    (send_chunks_client chunks w).1 = 0
      ∧ client_sends (send_chunks_client chunks w).2.trace = client_sends w.trace ++ chunks
  | [], w, _ => ⟨rfl, by simp [send_chunks_client]⟩
  | c :: rest, w, h => by
    have hhead : w.client.sends.head? ≠ some none := by
      intro e
      exact h (List.mem_of_mem_head? e)
    have hge : ¬ (w.send_client c).1 < 0 := by
      have := (send_result_neg w.client.sends c.length).mpr hhead
      show ¬ send_result w.client.sends c.length < 0
      omega
    have htail : none ∉ (w.send_client c).2.client.sends := by
      show none ∉ w.client.sends.tail
      exact fun hm => h (List.mem_of_mem_tail hm)
    obtain ⟨i1, i2⟩ := send_chunks_client_all rest (w.send_client c).2 htail
    unfold send_chunks_client
    rw [if_neg hge]
    refine ⟨i1, ?_⟩
    rw [i2]
    simp only [send_client_trace, client_sends_append, client_sends, List.append_assoc,
      List.singleton_append]

theorem download_sends_file (w : World) (command path ext : CStr) (content : List Char)
    (hparse : sscanf "downlf".toList [MAX_FILEPATH] command = some (1, [path]))
    (hext : get_file_extension (expand_path w.home path) = some ext)
    (hfile : (if ext = "c".toList then w.fs.fopen_r (expand_path w.home path)
        else (retrieve_file_from_server (expand_path w.home path) (server_type_of_ext ext)
          w).2.fs.fopen_r (expand_path w.home path)) = some content)
    (h : (handle_download_command command w).1 = 0) :
    client_sends (handle_download_command command w).2.trace
      = client_sends w.trace
          ++ "READY_TO_SEND".toList :: fread_chunks BUFFER_SIZE content.length content := by
  unfold handle_download_command at h ⊢
  simp only [hparse, List.getD_cons_zero, hext, ne_eq, not_true_eq_false, if_false] at h ⊢
  by_cases c1 : is_path_in_s1 w.home (expand_path w.home path) = false
  · rw [if_pos c1] at h; simp at h
  rw [if_neg c1] at h ⊢
  by_cases c2 : valid_ext ext = false
  · rw [if_pos c2] at h; simp at h
  rw [if_neg c2] at h ⊢
  by_cases c3 : strcmp_eq ext "c".toList = true
  · have hc : ext = "c".toList := by simpa [strcmp_eq] using c3
    rw [if_pos c3] at h ⊢
    rw [if_pos hc] at hfile
    by_cases c4 : w.fs.access (expand_path w.home path) = false
    · rw [if_pos c4] at h; simp at h
    rw [if_neg c4] at h ⊢
    obtain ⟨content2, hf2, hs⟩ := send_file_to_client_ok _ _ h
    rw [send_client_fs, hfile] at hf2
    cases hf2
    rw [hs]
    simp only [send_client_trace, client_sends_append, client_sends, List.append_assoc,
      List.singleton_append, List.append_nil]
  · have hc : ext ≠ "c".toList := by simpa [strcmp_eq] using c3
    rw [if_neg c3] at h ⊢
    rw [if_neg hc] at hfile
    by_cases c4 : (retrieve_file_from_server (expand_path w.home path) (server_type_of_ext ext)
        w).1 ≠ 0
    · rw [if_pos c4] at h; simp at h
    rw [if_neg c4] at h ⊢
    simp only at h ⊢
    obtain ⟨content2, hf2, hs⟩ := send_file_to_client_ok _ _ h
    rw [send_client_fs, hfile] at hf2
    cases hf2
    simp only [unlink_trace]
    rw [hs]
    simp only [send_client_trace, client_sends_append, client_sends, List.append_assoc,
      List.singleton_append, List.append_nil, retrieve_client_sends]

theorem S2_send_all (w : World) (arg1 arg2 : CStr) (content : List Char)
    (hfile : w.fs.fopen_r (expand_path w.home arg1) = some content)
    (hsend : none ∉ w.client.sends) :
    client_sends (S2.run_command "SEND".toList arg1 arg2 w).trace
      = client_sends w.trace
          ++ "READY_TO_SEND".toList :: fread_chunks BUFFER_SIZE content.length content := by
  have ha := fopen_r_access _ _ _ hfile
  unfold S2.run_command
  rw [if_neg (by decide), if_pos (by decide)]
  unfold S2.send_branch S2.send_file
  rw [if_neg (by rw [ha]; simp)]
  simp only [send_client_fs, hfile]
  obtain ⟨_, hk⟩ := send_chunks_client_all
    (fread_chunks BUFFER_SIZE content.length content) (w.send_client "READY_TO_SEND".toList).2
    (by show none ∉ w.client.sends.tail; exact fun hm => hsend (List.mem_of_mem_tail hm))
  rw [hk]
  simp only [send_client_trace, client_sends_append, client_sends, List.append_assoc,
    List.singleton_append, List.append_nil]

theorem S4_send_all (w : World) (command path : CStr) (content : List Char)
    (hparse : sscanf "SEND".toList [MAX_FILEPATH] command = some (1, [path]))
    (hfile : w.fs.fopen_r (expand_path w.home path) = some content)
    (hsend : none ∉ w.client.sends) :
    (S4.handle_send_command command w).1 = 0
      ∧ client_sends (S4.handle_send_command command w).2.trace
        = client_sends w.trace
          ++ "READY_TO_SEND".toList :: fread_chunks BUFFER_SIZE content.length content := by
  have ha := fopen_r_access _ _ _ hfile
  unfold S4.handle_send_command
  simp only [hparse, List.getD_cons_zero]
  rw [if_neg (by simp), if_neg (by rw [ha]; simp)]
  unfold S4.send_file
  simp only [send_client_fs, hfile]
  obtain ⟨h0, hk⟩ := send_chunks_client_all
    (fread_chunks BUFFER_SIZE content.length content) (w.send_client "READY_TO_SEND".toList).2
    (by show none ∉ w.client.sends.tail; exact fun hm => hsend (List.mem_of_mem_tail hm))
  refine ⟨h0, ?_⟩
  rw [hk]
  simp only [send_client_trace, client_sends_append, client_sends, List.append_assoc,
    List.singleton_append, List.append_nil]

/-! ## Claims C11 to C14: listings -/

/-- Claim C11. When the directory can be read, its `c` names fit the buffer and
the client acknowledges with `READY`, the shards are asked in the order `pdf`,
`txt`, `zip` and a listing that is not empty is sent as the router's block of
`c` names followed by the block of each shard in that order, where the block of
a shard is its reply and is empty when the shard cannot be reached, does not
take the command or sends nothing. -/
theorem C11_listing_concatenates_blocks (w : World) (path : CStr) (entries : List Dirent)
    (more : Inbox)
    (hdir : w.fs.opendir path = some entries)
    (hfit : (c_files_of entries).length < BUFFER_SIZE)
    (hack : w.client.inbox = Recv.data "READY".toList :: more)
    (hne : spec_listing (c_files_of entries) w.net ≠ []) :
    (list_files_in_directory path w).1 = 0
      ∧ connect_ports (list_files_in_directory path w).2.trace
          = connect_ports w.trace ++ [S2_PORT, S3_PORT, S4_PORT]
      ∧ client_sends (list_files_in_directory path w).2.trace
          = client_sends w.trace ++ ["FILES_COMING".toList,
              c_files_of entries ++ shard_block w.net.head?.join
                ++ shard_block w.net.tail.head?.join
                ++ shard_block w.net.tail.tail.head?.join] := by
  obtain ⟨h1, h2, h3⟩ := list_files_in_directory_sends w path entries more hdir hfit hack
  rw [if_neg hne] at h2
  exact ⟨h1, h3, h2⟩

theorem C11_listing_concatenates_blocks_witness :
    (listing_fs.opendir "/home/u/S1/d".toList
          = some [Dirent.mk ".".toList false, Dirent.mk "..".toList false,
              Dirent.mk "b.c".toList true, Dirent.mk "a.c".toList true,
              Dirent.mk "notes.md".toList true]
        ∧ (listing_world [some (Sock.mk [Recv.data "x.pdf\n".toList] []), none,
            some (Sock.mk [] [])]).client.inbox = Recv.data "READY".toList :: [])
      ∧ client_sends (list_files_in_directory "/home/u/S1/d".toList
          (listing_world [some (Sock.mk [Recv.data "x.pdf\n".toList] []), none,
            some (Sock.mk [] [])])).2.trace
        = ["FILES_COMING".toList, "b.c\na.c\nx.pdf\n".toList] :=
  ⟨⟨by decide, rfl⟩,
    (C11_listing_concatenates_blocks
      (listing_world [some (Sock.mk [Recv.data "x.pdf\n".toList] []), none, some (Sock.mk [] [])])
      "/home/u/S1/d".toList
      [Dirent.mk ".".toList false, Dirent.mk "..".toList false,
        Dirent.mk "b.c".toList true, Dirent.mk "a.c".toList true,
        Dirent.mk "notes.md".toList true]
      [] (by decide) (by decide) rfl (by decide)).2.2⟩

/-- Claim C12, evaluated where it fails: `~/S1/d` holds `b.c` and `a.c`, which
`readdir` yields in this order, and no shard is reachable. The block of `c`
names is sent in directory order, `b.c` before `a.c`, not in ascending order. -/
theorem C12_c_block_in_directory_order :
    client_sends (handle_display_filenames_command "dispfnames ~/S1/d".toList
        (listing_world [none, none, none])).2.trace
      = ["FILES_COMING".toList, "b.c\na.c\n".toList]
    ∧ strcmp "b.c".toList "a.c".toList > 0 := by
  decide

/-- Claim C13. For a directory that can be read, an extension and the entries
`readdir` yields, the reply of S2 and the reply of S4 to `LIST` are each the
lines `name` and newline of a list of names that is a permutation of the names
of the entries that are regular files with that extension (the extension of a
name being what `get_file_extension` returns) and that is in non-decreasing
order under `strcmp`, provided the lines fit the buffer of `BUFFER_SIZE` bytes. -/
theorem C13_list_reply_sorted_permutation (w : World) (command dir ext : CStr)
    (entries : List Dirent)
    (hparse : sscanf "LIST".toList [MAX_FILEPATH, 10] command = some (2, [dir, ext]))
    (hdir : w.fs.opendir (expand_path w.home dir) = some entries)
    (hfit : (join_lines ((entries.filter
        (fun e => e.d_reg && decide (get_file_extension e.d_name = some ext))).map
          Dirent.d_name)).length < BUFFER_SIZE) :
    (∃ names : List CStr,
        names.Perm ((entries.filter
          (fun e => e.d_reg && decide (get_file_extension e.d_name = some ext))).map
            Dirent.d_name)
        ∧ names.Pairwise (fun a b => strcmp a b ≤ 0)
        ∧ client_sends (S2.run_command "LIST".toList dir ext w).trace
            = client_sends w.trace ++ [join_lines names])
      ∧ (∃ names : List CStr,
        names.Perm ((entries.filter
          (fun e => e.d_reg && decide (get_file_extension e.d_name = some ext))).map
            Dirent.d_name)
        ∧ names.Pairwise (fun a b => strcmp a b ≤ 0)
        ∧ client_sends (S4.handle_list_command command w).2.trace
            = client_sends w.trace ++ [join_lines names]) := by
  rw [← matching_names_eq] at hfit ⊢
  constructor
  · refine ⟨S2.qsort (matching_names ext entries), qsort_perm _, qsort_sorted _, ?_⟩
    rw [S2_list_reply w dir ext entries hdir hfit, client_sends_append]
    rfl
  · refine ⟨S4.sort_outer (matching_names ext entries).length 0 (matching_names ext entries),
      (sort_outer_sorted _).1, (sort_outer_sorted _).2, ?_⟩
    rw [S4_list_reply w command dir ext entries hparse hdir hfit, client_sends_append]
    rfl

theorem C13_list_reply_sorted_permutation_witness :
    (sscanf "LIST".toList [MAX_FILEPATH, 10] "LIST ~/S2/d pdf".toList
          = some (2, ["~/S2/d".toList, "pdf".toList])
        ∧ (shard_world [] []).fs.opendir
            (expand_path (shard_world [] []).home "~/S2/d".toList)
          = some [Dirent.mk ".".toList false, Dirent.mk "..".toList false,
              Dirent.mk "b.pdf".toList true, Dirent.mk "a.pdf".toList true,
              Dirent.mk "c.txt".toList true])
      ∧ (∃ names : List CStr,
          names.Perm ["b.pdf".toList, "a.pdf".toList]
          ∧ names.Pairwise (fun a b => strcmp a b ≤ 0)
          ∧ client_sends (S2.run_command "LIST".toList "~/S2/d".toList "pdf".toList
              (shard_world [] [])).trace = [] ++ [join_lines names])
      ∧ (∃ names : List CStr,
          names.Perm ["b.pdf".toList, "a.pdf".toList]
          ∧ names.Pairwise (fun a b => strcmp a b ≤ 0)
          ∧ client_sends (S4.handle_list_command "LIST ~/S2/d pdf".toList
              (shard_world [] [])).2.trace = [] ++ [join_lines names]) :=
  ⟨⟨by decide, by decide⟩,
    C13_list_reply_sorted_permutation (shard_world [] []) "LIST ~/S2/d pdf".toList
      "~/S2/d".toList "pdf".toList
      [Dirent.mk ".".toList false, Dirent.mk "..".toList false,
        Dirent.mk "b.pdf".toList true, Dirent.mk "a.pdf".toList true,
        Dirent.mk "c.txt".toList true]
      (by decide) (by decide) (by decide)⟩

/-- Claim C14. When the client acknowledges `FILES_COMING` with `READY`, the
router sends exactly `No files found in this directory` if the block of `c`
names (the names of the regular files of the directory with extension `c`,
each followed by a newline, in directory order) and the blocks of the three
shards are all empty, and exactly the concatenation of the four blocks
otherwise. -/
theorem C14_empty_listing_message (w : World) (command path : CStr) (entries : List Dirent)
    (more : Inbox)
    (hparse : sscanf "dispfnames".toList [MAX_FILEPATH] command = some (1, [path]))
    (hin : is_path_in_s1 w.home (expand_path w.home path) = true)
    (hdir : w.fs.opendir (expand_path w.home path) = some entries)
    (hfit : (spec_c_block entries).length < BUFFER_SIZE)
    (hack : w.client.inbox = Recv.data "READY".toList :: more) :
    (handle_display_filenames_command command w).1 = 0
      ∧ client_sends (handle_display_filenames_command command w).2.trace
          = client_sends w.trace ++ ["FILES_COMING".toList,
              if spec_c_block entries = [] ∧ shard_block w.net.head?.join = []
                  ∧ shard_block w.net.tail.head?.join = []
                  ∧ shard_block w.net.tail.tail.head?.join = [] then
                "No files found in this directory".toList
              else spec_c_block entries ++ shard_block w.net.head?.join
                ++ shard_block w.net.tail.head?.join
                ++ shard_block w.net.tail.tail.head?.join] := by
  rw [← c_files_of_eq] at hfit ⊢
  obtain ⟨h1, h2, -⟩ := list_files_in_directory_sends w (expand_path w.home path) entries more
    hdir hfit hack
  have hd : w.fs.is_dir (expand_path w.home path) = true := by
    unfold FS.opendir at hdir
    by_cases h : w.fs.is_dir (expand_path w.home path) = true
        ∧ expand_path w.home path ∉ w.fs.denied
    · exact h.1
    · rw [if_neg h] at hdir
      exact absurd hdir (by simp)
  have hcond : (spec_listing (c_files_of entries) w.net = [])
      ↔ (c_files_of entries = [] ∧ shard_block w.net.head?.join = []
          ∧ shard_block w.net.tail.head?.join = []
          ∧ shard_block w.net.tail.tail.head?.join = []) := by
    unfold spec_listing
    simp only [List.append_eq_nil, and_assoc]
  unfold handle_display_filenames_command
  simp only [hparse, List.getD_cons_zero, hin, hd]
  simp only [h1]
  refine ⟨by simp, ?_⟩
  simp only [ne_eq, not_true_eq_false, if_false, Bool.true_eq_false]
  rw [h2]
  by_cases he : spec_listing (c_files_of entries) w.net = []
  · rw [if_pos he, if_pos (hcond.mp he)]
  · rw [if_neg he, if_neg (fun h => he (hcond.mpr h))]
    rfl

/-- Witness of C14: `~/S1/d` holds `b.c`, `a.c` and `notes.md` and the shard for
`pdf` replies `x.pdf`; `~/S1/e` is empty and no shard has a name. -/
theorem C14_empty_listing_message_witness :
    (sscanf "dispfnames".toList [MAX_FILEPATH] "dispfnames ~/S1/e".toList
          = some (1, ["~/S1/e".toList])
        ∧ is_path_in_s1 (some "/home/u".toList)
            (expand_path (some "/home/u".toList) "~/S1/e".toList) = true
        ∧ listing_fs.opendir (expand_path (some "/home/u".toList) "~/S1/e".toList)
            = some [Dirent.mk ".".toList false, Dirent.mk "..".toList false])
      ∧ client_sends (handle_display_filenames_command "dispfnames ~/S1/e".toList
          (listing_world [some (Sock.mk [] []), none, none])).2.trace
        = ["FILES_COMING".toList, "No files found in this directory".toList]
      ∧ listing_fs.opendir (expand_path (some "/home/u".toList) "~/S1/d".toList)
          = some [Dirent.mk ".".toList false, Dirent.mk "..".toList false,
              Dirent.mk "b.c".toList true, Dirent.mk "a.c".toList true,
              Dirent.mk "notes.md".toList true]
      ∧ client_sends (handle_display_filenames_command "dispfnames ~/S1/d".toList
          (listing_world [some (Sock.mk [Recv.data "x.pdf\n".toList] []), none, none])).2.trace
        = ["FILES_COMING".toList, "b.c\na.c\nx.pdf\n".toList]
      ∧ client_sends (handle_display_filenames_command "dispfnames ~/S1/d".toList
          (listing_world [none, none, none])).2.trace
        = ["FILES_COMING".toList, "b.c\na.c\n".toList] :=
  ⟨⟨by decide, by decide, by decide⟩,
    (C14_empty_listing_message (listing_world [some (Sock.mk [] []), none, none])
      "dispfnames ~/S1/e".toList "~/S1/e".toList
      [Dirent.mk ".".toList false, Dirent.mk "..".toList false] []
      (by decide) (by decide) (by decide) (by decide) rfl).2,
    by decide,
    (C14_empty_listing_message
      (listing_world [some (Sock.mk [Recv.data "x.pdf\n".toList] []), none, none])
      "dispfnames ~/S1/d".toList "~/S1/d".toList
      [Dirent.mk ".".toList false, Dirent.mk "..".toList false,
        Dirent.mk "b.c".toList true, Dirent.mk "a.c".toList true,
        Dirent.mk "notes.md".toList true] []
      (by decide) (by decide) (by decide) (by decide) rfl).2,
    (C14_empty_listing_message (listing_world [none, none, none])
      "dispfnames ~/S1/d".toList "~/S1/d".toList
      [Dirent.mk ".".toList false, Dirent.mk "..".toList false,
        Dirent.mk "b.c".toList true, Dirent.mk "a.c".toList true,
        Dirent.mk "notes.md".toList true] []
      (by decide) (by decide) (by decide) (by decide) rfl).2⟩
/-! ## Claims C15 to C17: archive commands of the shards -/

/-- Claim C15, counterexample. S2, whose extension is `pdf`, is sent
`LIST ~/S2/d txt`: it replies with the `txt` names of the directory, not with
an error. S4, whose extension is `zip`, is sent `LIST ~/S2/d txt` and replies
with the same lines. -/
theorem C15_list_serves_any_extension :
    client_sends (S2.process_s1_request
        (shard_world [Recv.data "LIST ~/S2/d txt".toList] [])).trace = ["c.txt\n".toList]
      ∧ client_sends (S4.process_client_request
        (shard_world [Recv.data "LIST ~/S2/d txt".toList] [])).trace = ["c.txt\n".toList] := by
  decide

/-- Claim C15, amended. A `CREATETAR` command whose extension argument is not
the extension of the shard is rejected with one error message and no archiver
is run: S2 answers with `INVALID_FILETYPE` and S4 with a line that begins
`ERROR:`; the archive handler of S4, given an extension other than `zip`,
answers `ERROR: S4 only handles zip files`. A `LIST` command is served for
whatever extension it names: the reply of S2 and of S4 is the sorted names of
the regular files of that extension. -/
theorem C15_archive_rejects_other_extension (w : World)
    (command arg1 arg2 ext4 command_l dir ext : CStr)
    (entries : List Dirent)
    (hpdf : arg1 ≠ "pdf".toList)
    (hparse : sscanf "CREATE_TAR".toList [10] command = some (1, [ext4]))
    (hzip : ext4 ≠ "zip".toList)
    (hparse_l : sscanf "LIST".toList [MAX_FILEPATH, 10] command_l = some (2, [dir, ext]))
    (hdir : w.fs.opendir (expand_path w.home dir) = some entries)
    (hfit : (join_lines (matching_names ext entries)).length < BUFFER_SIZE) :
    ((S2.run_command "CREATETAR".toList arg1 arg2 w).trace
        = w.trace ++ [Event.send_client "INVALID_FILETYPE".toList
            (send_result w.client.sends 16)]
      ∧ (S2.run_command "CREATETAR".toList arg1 arg2 w).fs = w.fs
      ∧ (S2.run_command "CREATETAR".toList arg1 arg2 w).pipes = w.pipes)
    ∧ ((S4.dispatch ("CREATETAR".toList ++ ' ' :: ext4) w).trace
        = w.trace ++ [Event.send_client "ERROR: Invalid command".toList
            (send_result w.client.sends 22)]
      ∧ "ERROR:".toList.isPrefixOf "ERROR: Invalid command".toList = true
      ∧ (S4.dispatch ("CREATETAR".toList ++ ' ' :: ext4) w).fs = w.fs
      ∧ (S4.dispatch ("CREATETAR".toList ++ ' ' :: ext4) w).pipes = w.pipes)
    ∧ ((S4.handle_create_tar_command command w).1 = -1
      ∧ (S4.handle_create_tar_command command w).2.trace
        = w.trace ++ [Event.send_client "ERROR: S4 only handles zip files".toList
            (send_result w.client.sends 32)]
      ∧ (S4.handle_create_tar_command command w).2.fs = w.fs
      ∧ (S4.handle_create_tar_command command w).2.pipes = w.pipes)
    ∧ client_sends (S2.run_command "LIST".toList dir ext w).trace
        = client_sends w.trace ++ [join_lines (S2.qsort (matching_names ext entries))]
    ∧ client_sends (S4.handle_list_command command_l w).2.trace
        = client_sends w.trace
            ++ [join_lines (S4.sort_outer (matching_names ext entries).length 0
                  (matching_names ext entries))] := by
  refine ⟨?_, ?_, ?_, ?_, ?_⟩
  · unfold S2.run_command
    rw [if_neg (by decide), if_neg (by decide), if_neg (by decide), if_pos (by decide)]
    unfold S2.createtar_branch
    rw [if_pos (by unfold strcmp_eq; exact decide_eq_false hpdf)]
    exact ⟨rfl, rfl, rfl⟩
  · unfold S4.dispatch
    have e : "CREATETAR".toList ++ ' ' :: ext4
        = 'C' :: 'R' :: 'E' :: 'A' :: 'T' :: 'E' :: 'T' :: 'A' :: 'R' :: ' ' :: ext4 := rfl
    rw [e]
    rw [if_neg (by simp [strncmp_eq]), if_neg (by simp [strncmp_eq]),
      if_neg (by simp [strncmp_eq]), if_neg (by simp [strncmp_eq]),
      if_neg (by simp [strncmp_eq])]
    exact ⟨rfl, by decide, rfl, rfl⟩
  · unfold S4.handle_create_tar_command
    simp only [hparse, List.getD_cons_zero]
    rw [if_neg (by simp), if_pos (by unfold strcmp_eq; exact decide_eq_false hzip)]
    exact ⟨rfl, rfl, rfl, rfl⟩
  · rw [S2_list_reply w dir ext entries hdir hfit, client_sends_append]
    rfl
  · rw [S4_list_reply w command_l dir ext entries hparse_l hdir hfit, client_sends_append]
    rfl

theorem C15_archive_rejects_other_extension_witness :
    ("zip".toList ≠ "pdf".toList
        ∧ sscanf "CREATE_TAR".toList [10] "CREATE_TAR pdf".toList = some (1, ["pdf".toList])
        ∧ "pdf".toList ≠ "zip".toList
        ∧ sscanf "LIST".toList [MAX_FILEPATH, 10] "LIST ~/S2/d txt".toList
            = some (2, ["~/S2/d".toList, "txt".toList]))
      ∧ ((S2.run_command "CREATETAR".toList "zip".toList [] (shard_world [] [some []])).trace
          = [Event.send_client "INVALID_FILETYPE".toList 16]
        ∧ (S4.dispatch "CREATETAR pdf".toList (shard_world [] [some []])).trace
          = [Event.send_client "ERROR: Invalid command".toList 22]
        ∧ (S4.handle_create_tar_command "CREATE_TAR pdf".toList
            (shard_world [] [some []])).2.trace
          = [Event.send_client "ERROR: S4 only handles zip files".toList 32]
        ∧ (S4.handle_create_tar_command "CREATE_TAR pdf".toList
            (shard_world [] [some []])).2.pipes = [some []]
        ∧ client_sends (S2.run_command "LIST".toList "~/S2/d".toList "txt".toList
            (shard_world [] [some []])).trace = ["c.txt\n".toList]
        ∧ client_sends (S4.handle_list_command "LIST ~/S2/d txt".toList
            (shard_world [] [some []])).2.trace = ["c.txt\n".toList]) :=
  have h := C15_archive_rejects_other_extension (shard_world [] [some []])
    "CREATE_TAR pdf".toList "zip".toList [] "pdf".toList "LIST ~/S2/d txt".toList
    "~/S2/d".toList "txt".toList
    [Dirent.mk ".".toList false, Dirent.mk "..".toList false,
      Dirent.mk "b.pdf".toList true, Dirent.mk "a.pdf".toList true,
      Dirent.mk "c.txt".toList true]
    (by decide) (by decide) (by decide) (by decide) (by decide) (by decide)
  ⟨⟨by decide, by decide, by decide, by decide⟩, h.1.1, h.2.1.1, h.2.2.1.2.1,
    h.2.2.1.2.2.2, h.2.2.2.1, h.2.2.2.2⟩
/-- Claim C16, evaluated where it fails. For `downltar zip` the router sends
the line `CREATETAR zip` to S4. S4 tests for the prefix `CREATE_TAR `, so the
line does not reach `handle_create_tar_command`: no archiver is run, S4 replies
`ERROR: Invalid command`, and the client of the router is sent
`TAR_CREATION_FAILED`. The same word with `pdf` does reach the archive branch
of S2, and the line `CREATE_TAR zip` does reach the handler of S4. -/
theorem C16_createtar_zip_not_dispatched :
    (S4.process_client_request
        (shard_world [Recv.data "CREATETAR zip".toList] [some "tar".toList])).trace
      = [Event.send_client "ERROR: Invalid command".toList 22]
    ∧ (handle_download_tar_command "downltar zip".toList
        (sample_world [] [some (Sock.mk [Recv.data "ERROR: Invalid command".toList] [])])).2.trace
      = [Event.connect 8389 true,
         Event.send_server 8389 "CREATETAR zip".toList 13,
         Event.close_server 8389,
         Event.send_client "TAR_CREATION_FAILED".toList 19]
    ∧ (S2.process_s1_request
        (shard_world [Recv.data "CREATETAR pdf".toList, Recv.data "READY".toList]
          [some "tar".toList, some "tar".toList])).trace
      = [Event.popen (S2.tar_command "/home/u/S2".toList) true,
         Event.popen (S2.tar_command "/home/u/S2".toList) true,
         Event.send_client "3".toList 1,
         Event.send_client "tar".toList 3]
    ∧ (S4.process_client_request
        (shard_world [Recv.data "CREATE_TAR zip".toList, Recv.data "READY".toList]
          [some "tar".toList])).trace
      = [Event.system (S4.tar_command "/home/u/S4".toList "zip.tar".toList) true,
         Event.send_client "READY_TO_SEND_TAR zip.tar".toList 25,
         Event.send_client "tar".toList 3] := by
  decide

/-- Claim C17, evaluated where it fails. S2 finds no `pdf` file and replies
`NO_FILES`; the router, which compares the reply with `TAR_CREATION_FAILED`
only and then reads it as a size, sends the client `TAR_CREATION_FAILED`. A
reply `TAR_CREATION_FAILED` is passed on as it is, and the router's own `c`
branch does send `NO_FILES` when it finds no file. -/
theorem C17_no_files_not_forwarded :
    client_sends (S2.process_s1_request
        (shard_world [Recv.data "CREATETAR pdf".toList] [some []])).trace
      = ["NO_FILES".toList]
    ∧ client_sends (handle_download_tar_command "downltar pdf".toList
        (sample_world [] [some (Sock.mk [Recv.data "NO_FILES".toList] [])])).2.trace
      = ["TAR_CREATION_FAILED".toList]
    ∧ client_sends (handle_download_tar_command "downltar pdf".toList
        (sample_world [] [some (Sock.mk [Recv.data "TAR_CREATION_FAILED".toList] [])])).2.trace
      = ["TAR_CREATION_FAILED".toList]
    ∧ client_sends (handle_download_tar_command "downltar c".toList
        { sample_world [] [] with pipes := [some []] }).2.trace
      = ["NO_FILES".toList] := by
  decide

/-! ## Claims C18 to C20: replies of the router -/

/-- Claim C18. For a `removef` of a `pdf`, `txt` or `zip` path whose shard is
reached and replies `r` (not empty, shorter than the buffer), the client is
sent `SUCCESS: File removed successfully` when `r` begins with `SUCCESS` and
exactly `r` otherwise, in particular when `r` begins with `ERROR:`. When
nothing exists at the path, the router answers a `c` path, S2 answers `REMOVE`
and S4 answers `REMOVE` with a message that begins with `ERROR:`. -/
theorem C18_remove_reply_forwarded (w ws : World) (command path ext r : CStr) (s : Sock)
    (rest : Inbox) (command_c path_c arg1 arg2 command4 path4 : CStr)
    (hparse : sscanf "removef".toList [MAX_FILEPATH] command = some (1, [path]))
    (hin : is_path_in_s1 w.home (expand_path w.home path) = true)
    (hext : get_file_extension (expand_path w.home path) = some ext)
    (hshard : ext = "pdf".toList ∨ ext = "txt".toList ∨ ext = "zip".toList)
    (hconn : w.net.head?.join = some s)
    (hsend : s.sends.head? ≠ some none)
    (hreply : s.inbox = Recv.data r :: rest)
    (hr : r ≠ [] ∧ r.length < BUFFER_SIZE ∧ Char.ofNat 0 ∉ r)
    (hparse_c : sscanf "removef".toList [MAX_FILEPATH] command_c = some (1, [path_c]))
    (hin_c : is_path_in_s1 w.home (expand_path w.home path_c) = true)
    (hext_c : get_file_extension (expand_path w.home path_c) = some "c".toList)
    (hmiss_c : w.fs.access (expand_path w.home path_c) = false)
    (hmiss2 : ws.fs.access (expand_path ws.home arg1) = false)
    (hparse4 : sscanf "REMOVE".toList [MAX_FILEPATH] command4 = some (1, [path4]))
    (hmiss4 : ws.fs.access (expand_path ws.home path4) = false) :
    client_sends (handle_remove_command command w).2.trace
        = client_sends w.trace
            ++ [if "SUCCESS".toList.isPrefixOf r = true then
                  "SUCCESS: File removed successfully".toList
                else r]
      ∧ ("ERROR:".toList.isPrefixOf r = true →
          client_sends (handle_remove_command command w).2.trace = client_sends w.trace ++ [r])
      ∧ (∃ msg, client_sends (handle_remove_command command_c w).2.trace
            = client_sends w.trace ++ [msg] ∧ "ERROR:".toList.isPrefixOf msg = true)
      ∧ (∃ msg, client_sends (S2.run_command "REMOVE".toList arg1 arg2 ws).trace
            = client_sends ws.trace ++ [msg] ∧ "ERROR:".toList.isPrefixOf msg = true)
      ∧ (∃ msg, client_sends (S4.handle_remove_command command4 ws).2.trace
            = client_sends ws.trace ++ [msg] ∧ "ERROR:".toList.isPrefixOf msg = true) := by
  have hA := remove_forwards w command path ext r s rest hparse hin hext hshard hconn hsend
    hreply hr
  refine ⟨hA, ?_, ?_, ?_, ?_⟩
  · intro he
    rw [hA, if_neg]
    intro hs
    cases r with
    | nil => simp at he
    | cons c t =>
      have e1 : c = 'E' := by
        have := he
        simp only [String.toList, List.isPrefixOf, Bool.and_eq_true, beq_iff_eq] at this
        exact this.1.symm
      have e2 : c = 'S' := by
        have := hs
        simp only [String.toList, List.isPrefixOf, Bool.and_eq_true, beq_iff_eq] at this
        exact this.1.symm
      rw [e1] at e2
      exact absurd e2 (by decide)
  · exact ⟨_, remove_missing_local w command_c path_c hparse_c hin_c hext_c hmiss_c, by decide⟩
  · exact ⟨_, S2_remove_missing ws arg1 arg2 hmiss2, by decide⟩
  · exact ⟨_, S4_remove_missing ws command4 path4 hparse4 hmiss4, by decide⟩

theorem C18_remove_reply_forwarded_witness :
    (sscanf "removef".toList [MAX_FILEPATH] "removef ~/S1/x/none.pdf".toList
          = some (1, ["~/S1/x/none.pdf".toList])
        ∧ get_file_extension (expand_path (some "/home/u".toList) "~/S1/x/none.pdf".toList)
          = some "pdf".toList
        ∧ client_sends (S2.run_command "REMOVE".toList "~/S2/x/none.pdf".toList []
            (shard_world [] [])).trace = ["ERROR: File not found".toList]
        ∧ "ERROR:".toList.isPrefixOf "ERROR: File not found".toList = true)
      ∧ client_sends (handle_remove_command "removef ~/S1/x/none.pdf".toList
          (sample_world []
            [some (Sock.mk [Recv.data "ERROR: File not found".toList] [])])).2.trace
        = client_sends (sample_world []
            [some (Sock.mk [Recv.data "ERROR: File not found".toList] [])]).trace
          ++ ["ERROR: File not found".toList] :=
  ⟨⟨by decide, by decide, by decide, by decide⟩,
    (C18_remove_reply_forwarded
      (sample_world [] [some (Sock.mk [Recv.data "ERROR: File not found".toList] [])])
      (shard_world [] [])
      "removef ~/S1/x/none.pdf".toList "~/S1/x/none.pdf".toList "pdf".toList
      "ERROR: File not found".toList (Sock.mk [Recv.data "ERROR: File not found".toList] [])
      [] "removef ~/S1/x/none.c".toList "~/S1/x/none.c".toList
      "~/S2/x/none.pdf".toList [] "REMOVE ~/S4/x/none.zip".toList "~/S4/x/none.zip".toList
      (by decide) (by decide) (by decide) (Or.inl rfl) rfl (by decide) rfl
      ⟨by decide, by decide, by decide⟩
      (by decide) (by decide) (by decide) (by decide) (by decide) (by decide)
      (by decide)).2.1 (by decide)⟩
/-- Claim C19, counterexample. The router completes `downlf ~/S1/d/a.c`
(the handler returns 0) and the last message it sends is the content of the
file, which is not a status line; the same holds for `SEND` in S2 and in S4. -/
theorem C19_download_ends_without_status :
    (handle_download_command "downlf ~/S1/d/a.c".toList (listing_world [])).1 = 0
      ∧ client_sends (handle_download_command "downlf ~/S1/d/a.c".toList
          (listing_world [])).2.trace = ["READY_TO_SEND".toList, "int a;".toList]
      ∧ is_status "int a;".toList = false
      ∧ client_sends (S2.process_s1_request
          (shard_world [Recv.data "SEND ~/S2/d/a.pdf".toList] [])).trace
        = ["READY_TO_SEND".toList, "A".toList]
      ∧ client_sends (S4.process_client_request
          (shard_world [Recv.data "SEND ~/S4/d/z.zip".toList] [])).trace
        = ["READY_TO_SEND".toList, "Z".toList]
      ∧ is_status "A".toList = false ∧ is_status "Z".toList = false := by
  decide

/-- Claim C19, amended. When `uploadf` completes at the router, the last
message the router sends is a status line beginning `SUCCESS:`; the last
message S4 sends for a `RECEIVE` it could parse is a status line, beginning
`SUCCESS:` when the handler returns 0. When `downlf` completes at the router,
the messages sent are `READY_TO_SEND` and the chunks of the file (the file at
the path for `c`, the copy retrieved from the shard otherwise), with nothing
after them. For `SEND` of a readable file in S2 and in S4 the messages are
`READY_TO_SEND` and chunks of the file, all of them when no `send` fails, with
nothing after them. -/
theorem C19_status_line_after_upload_only (w wd ws : World)
    (command command4 commandd pathd extd arg1 arg2 commands paths : CStr)
    (parsed4 : Int × List CStr) (contentd content2 content4 : List Char)
    (hup : (handle_upload_command command w).1 = 0)
    (hparse4 : sscanf "RECEIVE".toList [MAX_FILENAME, MAX_FILEPATH] command4 = some parsed4)
    (hdown : (handle_download_command commandd wd).1 = 0)
    (hparsed : sscanf "downlf".toList [MAX_FILEPATH] commandd = some (1, [pathd]))
    (hextd : get_file_extension (expand_path wd.home pathd) = some extd)
    (hfiled : (if extd = "c".toList then wd.fs.fopen_r (expand_path wd.home pathd)
        else (retrieve_file_from_server (expand_path wd.home pathd) (server_type_of_ext extd)
          wd).2.fs.fopen_r (expand_path wd.home pathd)) = some contentd)
    (hfile2 : ws.fs.fopen_r (expand_path ws.home arg1) = some content2)
    (hparses : sscanf "SEND".toList [MAX_FILEPATH] commands = some (1, [paths]))
    (hfile4 : ws.fs.fopen_r (expand_path ws.home paths) = some content4) :
    (∃ msg, (client_sends (handle_upload_command command w).2.trace).getLast? = some msg
        ∧ "SUCCESS:".toList.isPrefixOf msg = true)
      ∧ (∃ msg, (client_sends (S4.handle_receive_command command4 ws).2.trace).getLast?
            = some msg
          ∧ is_status msg = true
          ∧ ((S4.handle_receive_command command4 ws).1 = 0 →
              "SUCCESS:".toList.isPrefixOf msg = true))
      ∧ client_sends (handle_download_command commandd wd).2.trace
          = client_sends wd.trace
              ++ "READY_TO_SEND".toList :: fread_chunks BUFFER_SIZE contentd.length contentd
      ∧ (∃ k, client_sends (S2.run_command "SEND".toList arg1 arg2 ws).trace
          = client_sends ws.trace
              ++ "READY_TO_SEND".toList
                :: (fread_chunks BUFFER_SIZE content2.length content2).take k)
      ∧ (none ∉ ws.client.sends →
          client_sends (S2.run_command "SEND".toList arg1 arg2 ws).trace
            = client_sends ws.trace
              ++ "READY_TO_SEND".toList :: fread_chunks BUFFER_SIZE content2.length content2)
      ∧ (∃ k, client_sends (S4.handle_send_command commands ws).2.trace
          = client_sends ws.trace
              ++ "READY_TO_SEND".toList
                :: (fread_chunks BUFFER_SIZE content4.length content4).take k)
      ∧ (none ∉ ws.client.sends →
          (S4.handle_send_command commands ws).1 = 0
            ∧ client_sends (S4.handle_send_command commands ws).2.trace
              = client_sends ws.trace
                ++ "READY_TO_SEND".toList
                  :: fread_chunks BUFFER_SIZE content4.length content4) :=
  ⟨upload_last_status w command hup,
    S4_receive_last_status ws command4 parsed4 hparse4,
    download_sends_file wd commandd pathd extd contentd hparsed hextd hfiled hdown,
    S2_send_ends_with_payload ws arg1 arg2 content2 hfile2,
    fun hs => S2_send_all ws arg1 arg2 content2 hfile2 hs,
    S4_send_ends_with_payload ws commands paths content4 hparses hfile4,
    fun hs => S4_send_all ws commands paths content4 hparses hfile4 hs⟩

/-- Witness of C19: the upload of `n.c`, the download of `a.c`, whose content
is `int a;`, and `SEND` of `a.pdf` in S2 and of `z.zip` in S4. -/
theorem C19_status_line_after_upload_only_witness :
    ((handle_upload_command "uploadf n.c ~/S1/d".toList (listing_world [])).1 = 0
        ∧ sscanf "RECEIVE".toList [MAX_FILENAME, MAX_FILEPATH] "RECEIVE n.zip ~/S4/q".toList
            = some (2, ["n.zip".toList, "~/S4/q".toList])
        ∧ (handle_download_command "downlf ~/S1/d/a.c".toList (listing_world [])).1 = 0
        ∧ (listing_world []).fs.fopen_r "/home/u/S1/d/a.c".toList = some "int a;".toList)
      ∧ (∃ msg, (client_sends (handle_upload_command "uploadf n.c ~/S1/d".toList
            (listing_world [])).2.trace).getLast? = some msg
          ∧ "SUCCESS:".toList.isPrefixOf msg = true)
      ∧ client_sends (handle_download_command "downlf ~/S1/d/a.c".toList
          (listing_world [])).2.trace = ["READY_TO_SEND".toList, "int a;".toList]
      ∧ client_sends (S2.run_command "SEND".toList "~/S2/d/a.pdf".toList []
          (shard_world [Recv.data "PK".toList] [])).trace
          = ["READY_TO_SEND".toList, "A".toList]
      ∧ client_sends (S4.handle_send_command "SEND ~/S4/d/z.zip".toList
          (shard_world [Recv.data "PK".toList] [])).2.trace
          = ["READY_TO_SEND".toList, "Z".toList]
      ∧ (S4.handle_receive_command "RECEIVE n.zip ~/S4/q".toList
            (shard_world [Recv.data "PK".toList] [])).2.trace
          = [Event.send_client "READY_TO_RECEIVE".toList 16,
             Event.send_client "SUCCESS: File received and stored successfully".toList 46] :=
  have h := C19_status_line_after_upload_only (listing_world []) (listing_world [])
    (shard_world [Recv.data "PK".toList] [])
    "uploadf n.c ~/S1/d".toList "RECEIVE n.zip ~/S4/q".toList "downlf ~/S1/d/a.c".toList
    "~/S1/d/a.c".toList "c".toList
    "~/S2/d/a.pdf".toList [] "SEND ~/S4/d/z.zip".toList "~/S4/d/z.zip".toList
    (2, ["n.zip".toList, "~/S4/q".toList]) "int a;".toList "A".toList "Z".toList
    (by decide) (by decide) (by decide) (by decide) (by decide) (by decide) (by decide)
    (by decide) (by decide)
  ⟨⟨by decide, by decide, by decide, by decide⟩, h.1, h.2.2.1, h.2.2.2.2.1 (by decide),
    (h.2.2.2.2.2.2 (by decide)).2, by decide⟩

/-- Claim C20, counterexample. The line `removef ~/S1/d/a.c junk` has two
arguments where the grammar of `removef` has one; the router does not reply
with an error: it deletes `~/S1/d/a.c` and replies
`SUCCESS: File removed successfully`. -/
theorem C20_surplus_argument_accepted :
    words "removef ~/S1/d/a.c junk".toList
        = ["removef".toList, "~/S1/d/a.c".toList, "junk".toList]
      ∧ grammar_args "removef".toList = some 1
      ∧ client_sends (dispatch "removef ~/S1/d/a.c junk".toList (listing_world [])).trace
        = ["SUCCESS: File removed successfully".toList]
      ∧ (listing_world []).fs.is_file "/home/u/S1/d/a.c".toList = true
      ∧ (dispatch "removef ~/S1/d/a.c junk".toList (listing_world [])).fs.is_file
          "/home/u/S1/d/a.c".toList = false := by
  decide

/-- Claim C20, amended. For a command line whose first word is one of the five
commands and whose arguments are shorter than `MAX_FILENAME` bytes: if it has
fewer arguments than the grammar gives the command, the router sends one
message beginning `ERROR: ` and nothing else happens (no file is written or
deleted, no connection is opened); if it has at least as many, any further
words appended to the line are ignored: the router does what it does for the
line without them. -/
theorem C20_too_few_rejected_surplus_ignored (w : World) (command word extra : CStr)
    (args : List CStr) (n : Nat)
    (hw : words command = word :: args)
    (hg : grammar_args word = some n)
    (hfit : ∀ a ∈ args, a.length < MAX_FILENAME) :
    (args.length < n → Rejected w (dispatch command w))
      ∧ (n ≤ args.length → dispatch (command ++ ' ' :: extra) w = dispatch command w) :=
  ⟨fun hlt => too_few_rejected w command word args n hw hg hlt hfit,
    fun hge => surplus_ignored w command word extra args n hw hg hge⟩

theorem C20_too_few_rejected_surplus_ignored_witness :
    (words "uploadf a.c".toList = ["uploadf".toList, "a.c".toList]
        ∧ grammar_args "uploadf".toList = some 2
        ∧ ["a.c".toList].length < 2)
      ∧ Rejected (sample_world [] []) (dispatch "uploadf a.c".toList (sample_world [] []))
      ∧ (dispatch "uploadf a.c".toList (sample_world [] [])).trace
        = [Event.send_client "ERROR: Invalid uploadf command syntax".toList 37] :=
  ⟨⟨by decide, by decide, by decide⟩,
    (C20_too_few_rejected_surplus_ignored (sample_world [] []) "uploadf a.c".toList
      "uploadf".toList "junk".toList ["a.c".toList] 2 (by decide) (by decide)
      (by decide)).1 (by decide),
    by decide⟩

/-! ## The first reply to `downltar` -/

theorem digitChar_isDigit (k : Nat) (h : k < 10) : (Nat.digitChar k).isDigit = true := by
  interval_cases k <;> rfl

theorem toDigitsCore_isDigit : ∀ (fuel n : Nat) (ds : List Char),
    (∀ c ∈ ds, c.isDigit = true) → ∀ c ∈ Nat.toDigitsCore 10 fuel n ds, c.isDigit = true
  | 0, _, ds, h => by simpa [Nat.toDigitsCore] using h
  | fuel + 1, n, ds, h => by
    have hd : ∀ c ∈ Nat.digitChar (n % 10) :: ds, c.isDigit = true := by
      intro c hc
      rcases List.mem_cons.mp hc with e | e
      · rw [e]; exact digitChar_isDigit _ (Nat.mod_lt _ (by decide))
      · exact h c e
    unfold Nat.toDigitsCore
    dsimp only
    split
    · exact hd
    · exact toDigitsCore_isDigit fuel (n / 10) _ hd

theorem fmt_int_isDigit (m : Nat) : ∀ c ∈ fmt_int (m : Int), c.isDigit = true := by
  have e : fmt_int (m : Int) = Nat.toDigitsCore 10 (m + 1) m [] := rfl
  rw [e]
  exact toDigitsCore_isDigit _ _ _ (by simp)

theorem fmt_int_head (n : Int) (h : 0 ≤ n) : (fmt_int n).head? ≠ some 'R' := by
  obtain ⟨m, rfl⟩ := Int.eq_ofNat_of_zero_le h
  intro hh
  cases hl : fmt_int (m : Int) with
  | nil => rw [hl] at hh; simp at hh
  | cons c t =>
    rw [hl] at hh
    simp only [List.head?_cons, Option.some.injEq] at hh
    have := fmt_int_isDigit m c (by rw [hl]; exact List.mem_cons_self _ _)
    rw [hh] at this
    exact absurd this (by decide)
theorem send_all_client_ext : ∀ (fuel : Nat) (pending : List Char) (w : World),
    ∃ l, client_sends (send_all_client fuel pending w).2.trace = client_sends w.trace ++ l
  | 0, _, w => ⟨[], by simp [send_all_client]⟩
  | fuel + 1, pending, w => by
    unfold send_all_client
    by_cases h1 : pending = []
    · rw [if_pos h1]; exact ⟨[], by simp⟩
    · rw [if_neg h1]
      by_cases h2 : (w.send_client pending).1 ≤ 0
      · rw [if_pos h2]
        exact ⟨[pending], by
          simp only [send_client_trace, client_sends_append, client_sends]⟩
      · rw [if_neg h2]
        obtain ⟨l, hl⟩ := send_all_client_ext fuel
          (pending.drop (w.send_client pending).1.toNat) (w.send_client pending).2
        exact ⟨pending :: l, by
          rw [hl]
          simp only [send_client_trace, client_sends_append, client_sends, List.append_assoc,
            List.singleton_append]⟩

theorem send_tar_chunks_client_ext : ∀ (chunks : List (List Char)) (w : World),
    ∃ l, client_sends (send_tar_chunks_client chunks w).2.trace = client_sends w.trace ++ l
  | [], w => ⟨[], by simp [send_tar_chunks_client]⟩
  | chunk :: rest, w => by
    unfold send_tar_chunks_client
    obtain ⟨l1, h1⟩ := send_all_client_ext chunk.length chunk w
    split
    · obtain ⟨l2, h2⟩ := send_tar_chunks_client_ext rest (send_all_client chunk.length chunk w).2
      exact ⟨l1 ++ l2, by rw [h2, h1, List.append_assoc]⟩
    · exact ⟨l1, h1⟩

theorem relay_tar_loop_ext : ∀ (fuel filesize total port : Nat) (s : Sock) (w : World),
    ∃ l, client_sends (relay_tar_loop fuel filesize total port s w).2.trace
      = client_sends w.trace ++ l
  | 0, _, _, _, _, w => ⟨[], by simp [relay_tar_loop, client_sends_append, client_sends]⟩
  | fuel + 1, filesize, total, port, s, w => by
    unfold relay_tar_loop
    dsimp only
    obtain ⟨l1, h1⟩ := send_all_client_ext
      ((recv BUFFER_SIZE s.inbox).1 % (2 : Int) ^ 64).toNat (recv BUFFER_SIZE s.inbox).2.1 w
    split
    · split
      · exact ⟨[], by simp [client_sends_append, client_sends]⟩
      · split
        · exact ⟨[], by simp⟩
        · split
          · obtain ⟨l2, h2⟩ := relay_tar_loop_ext fuel filesize
              (total + ((recv BUFFER_SIZE s.inbox).1 % (2 : Int) ^ 64).toNat) port
              { s with inbox := (recv BUFFER_SIZE s.inbox).2.2 }
              (send_all_client ((recv BUFFER_SIZE s.inbox).1 % (2 : Int) ^ 64).toNat
                (recv BUFFER_SIZE s.inbox).2.1 w).2
            exact ⟨l1 ++ l2, by rw [h2, h1, List.append_assoc]⟩
          · exact ⟨l1, by
              simp only [close_server_trace, client_sends_append, client_sends,
                List.append_nil]
              exact h1⟩
    · exact ⟨[], by simp [client_sends_append, client_sends]⟩

theorem first_client_message_ext (old new : List Event) (l : List (List Char))
    (h : client_sends new = client_sends old ++ l) :
    first_client_message old new = l.head? := by
  unfold first_client_message
  rw [h, List.drop_left]

theorem popen_client_sends (w : World) (cmd : CStr) :
    client_sends (w.popen cmd).2.trace = client_sends w.trace := by
  simp [World.popen, client_sends_append, client_sends]
theorem first_ok_cons (msg : List Char) (l : List (List Char)) (h : msg.head? ≠ some 'R') :
    ∀ r, (msg :: l).head? = some r → r.head? ≠ some 'R' := by
  intro r hr
  simp only [List.head?_cons, Option.some.injEq] at hr
  rw [← hr]
  exact h

theorem first_ok_nil : ∀ r : List Char, ([] : List (List Char)).head? = some r →
    r.head? ≠ some 'R' := by
  intro r hr
  simp at hr

theorem tar_local_first (w : World) :
    ∃ l, client_sends (download_tar_local w).2.trace = client_sends w.trace ++ l
      ∧ ∀ r, l.head? = some r → r.head? ≠ some 'R' := by
  unfold download_tar_local
  dsimp only
  split
  · exact ⟨["TAR_CREATION_FAILED".toList], by
      simp only [send_client_trace, popen_client_sends, client_sends_append, client_sends],
      first_ok_cons _ _ (by decide)⟩
  · next counted _ =>
    split
    · exact ⟨["NO_FILES".toList], by
        simp only [send_client_trace, popen_client_sends, client_sends_append, client_sends],
        first_ok_cons _ _ (by decide)⟩
    · split
      · exact ⟨["TAR_CREATION_FAILED".toList], by
          simp only [send_client_trace, popen_client_sends, client_sends_append, client_sends],
          first_ok_cons _ _ (by decide)⟩
      · next output _ =>
        have hsz : client_sends
            (((w.popen (tar_command_c (expand_path w.home S1_BASE_DIR))).2.popen
              (tar_command_c (expand_path w.home S1_BASE_DIR))).2.send_client
                (fmt_int counted.length)).2.trace
            = client_sends w.trace ++ [fmt_int counted.length] := by
          simp only [send_client_trace, popen_client_sends, client_sends_append, client_sends]
        have hh := fmt_int_head (counted.length : Int) (by omega)
        split
        · exact ⟨[fmt_int counted.length], hsz, first_ok_cons _ _ hh⟩
        · split
          · exact ⟨[fmt_int counted.length], by rw [recv_client_trace]; exact hsz,
              first_ok_cons _ _ hh⟩
          · obtain ⟨l, hl⟩ := send_tar_chunks_client_ext
              (fread_chunks BUFFER_SIZE output.length output)
              ((((w.popen (tar_command_c (expand_path w.home S1_BASE_DIR))).2.popen
                (tar_command_c (expand_path w.home S1_BASE_DIR))).2.send_client
                  (fmt_int counted.length)).2.recv_client BUFFER_SIZE).2.2
            refine ⟨fmt_int counted.length :: l, ?_, first_ok_cons _ _ hh⟩
            rw [hl, recv_client_trace, hsz, List.append_assoc]
            rfl
theorem connect_client_sends (w : World) (port : Nat) :
    client_sends (w.connect_to_server port).2.trace = client_sends w.trace := by
  simp [World.connect_to_server, client_sends_append, client_sends]

theorem send_server_client_sends (w : World) (port : Nat) (s : Sock) (buf : List Char) :
    client_sends (w.send_server port s buf).2.2.trace = client_sends w.trace := by
  simp [World.send_server, client_sends_append, client_sends]

theorem close_server_client_sends (w : World) (port : Nat) :
    client_sends (w.close_server port).trace = client_sends w.trace := by
  simp [World.close_server, client_sends_append, client_sends]

theorem ext_first (w w1 w2 : World) (msg : List Char)
    (hm : msg.head? ≠ some 'R')
    (hext : ∃ l, client_sends w2.trace = client_sends w1.trace ++ l)
    (h1 : client_sends w1.trace = client_sends w.trace ++ [msg]) :
    ∃ l, client_sends w2.trace = client_sends w.trace ++ l
      ∧ ∀ r, l.head? = some r → r.head? ≠ some 'R' := by
  obtain ⟨l, hl⟩ := hext
  exact ⟨msg :: l, by rw [hl, h1, List.append_assoc]; rfl, first_ok_cons _ _ hm⟩

theorem tar_remote_first (port : Nat) (filetype : CStr) (w : World) :
    ∃ l, client_sends (download_tar_remote port filetype w).2.trace = client_sends w.trace ++ l
      ∧ ∀ r, l.head? = some r → r.head? ≠ some 'R' := by
  unfold download_tar_remote
  dsimp only
  split
  · exact ⟨["SERVER_CONNECTION_FAILED".toList], by
      simp only [send_client_trace, connect_client_sends, client_sends_append, client_sends],
      first_ok_cons _ _ (by decide)⟩
  · next s _ =>
    split
    · exact ⟨["SERVER_CONNECTION_FAILED".toList], by
        simp only [send_client_trace, connect_client_sends, send_server_client_sends,
          close_server_client_sends, client_sends_append, client_sends],
        first_ok_cons _ _ (by decide)⟩
    · split
      · exact ⟨["TAR_CREATION_FAILED".toList], by
          simp only [send_client_trace, connect_client_sends, send_server_client_sends,
            close_server_client_sends, client_sends_append, client_sends],
          first_ok_cons _ _ (by decide)⟩
      · split
        · exact ⟨["TAR_CREATION_FAILED".toList], by
            simp only [send_client_trace, connect_client_sends, send_server_client_sends,
              close_server_client_sends, client_sends_append, client_sends],
            first_ok_cons _ _ (by decide)⟩
        · next hpos =>
          have hh := fmt_int_head (atol (cstr (recv (BUFFER_SIZE - 1)
            ((w.connect_to_server port).2.send_server port s
              (snprintf BUFFER_SIZE ("CREATETAR ".toList ++ filetype))).2.1.inbox).2.1))
            (by omega)
          split
          · exact ⟨[fmt_int _], by
              simp only [send_client_trace, connect_client_sends, send_server_client_sends,
                close_server_client_sends, client_sends_append, client_sends],
              first_ok_cons _ _ hh⟩
          · split
            · exact ⟨[fmt_int _], by
                simp only [send_client_trace, recv_client_trace, connect_client_sends,
                  send_server_client_sends, close_server_client_sends, client_sends_append,
                  client_sends],
                first_ok_cons _ _ hh⟩
            · split
              · exact ⟨[fmt_int _], by
                  simp only [send_client_trace, recv_client_trace, undefined_behaviour_trace,
                    connect_client_sends, send_server_client_sends, client_sends_append,
                    client_sends],
                  first_ok_cons _ _ hh⟩
              · refine ext_first w _ _ _ hh (relay_tar_loop_ext _ _ _ _ _ _) ?_
                simp only [send_client_trace, recv_client_trace, connect_client_sends,
                  send_server_client_sends, client_sends_append, client_sends]

theorem tar_first_reply (command : CStr) (w : World) (r : List Char)
    (h : first_client_message w.trace (handle_download_tar_command command w).2.trace = some r) :
    r.head? ≠ some 'R' := by
  have key : ∃ l, client_sends (handle_download_tar_command command w).2.trace
      = client_sends w.trace ++ l ∧ ∀ r, l.head? = some r → r.head? ≠ some 'R' := by
    unfold handle_download_tar_command
    dsimp only
    split
    · exact ⟨[], by simp, first_ok_nil⟩
    · split
      · exact ⟨["ERROR: Invalid downltar command syntax".toList], by
          simp only [send_client_trace, client_sends_append, client_sends],
          first_ok_cons _ _ (by decide)⟩
      · split
        · exact tar_local_first w
        · split
          · exact tar_remote_first _ _ w
          · split
            · exact tar_remote_first _ _ w
            · split
              · exact tar_remote_first _ _ w
              · exact ⟨["ERROR: Unsupported file type".toList], by
                  simp only [send_client_trace, client_sends_append, client_sends],
                  first_ok_cons _ _ (by decide)⟩
  obtain ⟨l, hl, hok⟩ := key
  rw [first_client_message_ext _ _ l hl] at h
  exact hok r h
theorem cstr_head (x : List Char) (h : x.head? ≠ some 'R') : (cstr x).head? ≠ some 'R' := by
  cases x with
  | nil => simp [cstr]
  | cons c t =>
    unfold cstr
    rw [List.takeWhile_cons]
    split
    · simpa using h
    · simp

theorem take_head (x : List Char) (n : Nat) (h : x.head? ≠ some 'R') :
    (x.take n).head? ≠ some 'R' := by
  cases x with
  | nil => simp
  | cons c t =>
    cases n with
    | zero => simp
    | succ n => simpa using h

theorem recv_head (cap : Nat) (r : List Char) (rest : Inbox) (h : r.head? ≠ some 'R') :
    (recv cap (Recv.data r :: rest)).2.1.head? ≠ some 'R' := by
  simp only [recv]
  split
  · exact h
  · exact take_head r cap h

theorem sscanf_tar_mismatch (y : CStr) (h : y.head? ≠ some 'R') :
    ∃ e, sscanf "READY_TO_SEND_TAR".toList [256] y = some (e, []) ∧ e ≠ 1 := by
  have e1 : "READY_TO_SEND_TAR".toList = 'R' :: "EADY_TO_SEND_TAR".toList := rfl
  unfold sscanf
  rw [e1]
  cases y with
  | nil => exact ⟨-1, rfl, by decide⟩
  | cons c t =>
    have hc : ¬ 'R' = c := by
      intro e
      apply h
      rw [← e]
      rfl
    simp only [scan_literal, if_neg hc]
    exact ⟨0, rfl, by decide⟩

theorem client_rejects_reply (ft : CStr) (cw : World) (r : List Char) (rest : Inbox)
    (hin : cw.client.inbox = Recv.data r :: rest) (hr : r.head? ≠ some 'R') :
    (W25.handle_downltar ft cw).1 = -1
      ∧ (W25.handle_downltar ft cw).2.fs = cw.fs
      ∧ (client_sends (W25.handle_downltar ft cw).2.trace = client_sends cw.trace
        ∨ client_sends (W25.handle_downltar ft cw).2.trace
          = client_sends cw.trace ++ [snprintf W25.CMD_SIZE ("downltar ".toList ++ ft)]) := by
  have hy : (cstr ((cw.send_client (snprintf W25.CMD_SIZE
      ("downltar ".toList ++ ft))).2.recv_client (BUFFER_SIZE - 1)).2.1).head? ≠ some 'R' := by
    apply cstr_head
    have : ((cw.send_client (snprintf W25.CMD_SIZE
        ("downltar ".toList ++ ft))).2.recv_client (BUFFER_SIZE - 1)).2.1
        = (recv (BUFFER_SIZE - 1) (Recv.data r :: rest)).2.1 := by
      simp only [World.recv_client, send_client_inbox, hin]
    rw [this]
    exact recv_head _ r rest hr
  obtain ⟨e, he, hne⟩ := sscanf_tar_mismatch _ hy
  unfold W25.handle_downltar
  dsimp only
  split
  · exact ⟨rfl, rfl, Or.inl rfl⟩
  · split
    · exact ⟨rfl, rfl, Or.inr (by
        simp only [send_client_trace, client_sends_append, client_sends])⟩
    · split
      · exact ⟨rfl, rfl, Or.inr (by
          simp only [recv_client_trace, send_client_trace, client_sends_append, client_sends])⟩
      · rw [he]
        dsimp only
        rw [if_pos hne]
        exact ⟨rfl, rfl, Or.inr (by
          simp only [recv_client_trace, send_client_trace, client_sends_append, client_sends])⟩

/-! ## The two translations of a path -/

theorem take_swap (A B rest : CStr) (k : Nat) (hAB : A.length = B.length) :
    (B.take k ++ ((A ++ rest).take k).drop (A.take k).length).take k = (B ++ rest).take k := by
  by_cases hk : B.length ≤ k
  · have hA : A.length ≤ k := by omega
    have e1 : (A ++ rest).take k = A ++ rest.take (k - A.length) := by
      rw [List.take_append_eq_append_take, List.take_of_length_le hA]
    have e2 : (B ++ rest).take k = B ++ rest.take (k - B.length) := by
      rw [List.take_append_eq_append_take, List.take_of_length_le hk]
    have e3 : (B ++ rest.take (k - A.length)).take k = B ++ rest.take (k - B.length) := by
      rw [List.take_append_eq_append_take, List.take_of_length_le hk, List.take_take, hAB,
        Nat.min_self]
    rw [List.take_of_length_le hA, List.take_of_length_le hk, e1, List.drop_left, e2, e3]
  · have hk2 : k ≤ B.length := by omega
    have hk3 : k ≤ A.length := by omega
    have e1 : ((A ++ rest).take k).drop (A.take k).length = [] := by
      rw [List.drop_eq_nil_iff]
      simp only [List.length_take, List.length_append]
      omega
    rw [e1, List.append_nil, List.take_take, Nat.min_self,
      List.take_append_of_le_length hk2]

theorem server_dest_path_root (rest : CStr) (n : Int) (d : Char) (hf : fmt_int n = [d]) :
    server_dest_path ('~' :: '/' :: 'S' :: '1' :: rest) n = '~' :: '/' :: 'S' :: d :: rest := by
  rw [server_dest_path_def]
  have h : strstr ['S', '1'] ('~' :: '/' :: 'S' :: '1' :: rest) = some 2 := by
    rw [strstr_cons, if_neg (by simp [List.isPrefixOf]), strstr_cons,
      if_neg (by simp [List.isPrefixOf]), strstr_cons, if_pos (by simp [List.isPrefixOf])]
    rfl
  rw [h]
  simp [memcpy, snprintf, hf]

/-! ## The command of an upload to a shard -/

theorem server_sends_append (a b : List Event) :
    server_sends (a ++ b) = server_sends a ++ server_sends b := by
  induction a with
  | nil => rfl
  | cons e rest ih =>
    cases e <;> simp [server_sends, ih]

theorem basename_append (x b : CStr) (hb : b ≠ []) (hs : '/' ∉ b) :
    basename (x ++ '/' :: b) = b := by
  have hlast : ∃ c l, b.reverse = c :: l ∧ c ≠ '/' := by
    cases hr : b.reverse with
    | nil => exact absurd (List.reverse_eq_nil_iff.mp hr) hb
    | cons c l =>
      refine ⟨c, l, rfl, ?_⟩
      intro hc
      apply hs
      rw [← List.mem_reverse, hr, hc]
      exact List.mem_cons_self _ _
  obtain ⟨c, l, hr, hc⟩ := hlast
  have hrev : (x ++ '/' :: b).reverse = b.reverse ++ '/' :: x.reverse := by simp
  have hdrop : (x ++ '/' :: b).reverse.dropWhile (fun c => decide (c = '/'))
      = (x ++ '/' :: b).reverse := by
    rw [hrev, hr]
    simp [List.dropWhile, hc]
  have htake : (b.reverse ++ '/' :: x.reverse).takeWhile (fun c => decide (c ≠ '/'))
      = b.reverse := by
    rw [List.takeWhile_append_of_pos]
    · simp [List.takeWhile]
    · intro a ha
      have : a ≠ '/' := by
        intro h
        apply hs
        rw [← List.mem_reverse, ← h]
        exact ha
      simpa using this
  unfold basename
  rw [if_neg (by simp)]
  simp only [hdrop, List.reverse_reverse]
  rw [if_neg (by simp), hrev, htake, List.reverse_reverse]

theorem basename_of_tail (f : CStr) (c : Char) (hl : f.getLast? = some c) (hc : c ≠ '/') :
    basename f ≠ [] ∧ '/' ∉ basename f := by
  have hne : f ≠ [] := by
    intro h
    rw [h] at hl
    simp at hl
  obtain ⟨l, hr⟩ : ∃ l, f.reverse = c :: l := by
    rw [List.getLast?_eq_head?_reverse] at hl
    cases hf : f.reverse with
    | nil => rw [hf] at hl; simp at hl
    | cons a l => rw [hf] at hl; simp at hl; exact ⟨l, by rw [hl]⟩
  have hdrop : f.reverse.dropWhile (fun c => decide (c = '/')) = f.reverse := by
    rw [hr]
    simp [List.dropWhile, hc]
  unfold basename
  rw [if_neg hne]
  simp only [hdrop, List.reverse_reverse]
  rw [if_neg hne]
  constructor
  · rw [hr]
    simp [List.takeWhile, hc]
  · intro hm
    rw [List.mem_reverse] at hm
    have := List.mem_takeWhile_imp hm
    simp at this
theorem ext_last (f ext : CStr) (h : get_file_extension f = some ext) (hne : ext ≠ []) :
    f.getLast? = ext.getLast? := by
  unfold get_file_extension at h
  cases hs : strrchr '.' f with
  | none => rw [hs] at h; cases h
  | some dot =>
    rw [hs] at h
    obtain ⟨pre, t, e1, e2, _⟩ := strrchr_some '.' f dot hs
    simp only at h
    split at h
    · cases h
    · cases h
      subst e2
      simp only [List.tail_cons] at hne ⊢
      rw [e1, List.getLast?_append]
      cases t with
      | nil => exact absurd rfl hne
      | cons a t2 =>
        rw [List.getLast?_cons_cons]
        cases ht : (a :: t2).getLast? with
        | none => rw [List.getLast?_eq_none_iff] at ht; cases ht
        | some c => rfl

theorem send_chunks_server_sends (port : Nat) : ∀ (chunks : List (List Char)) (s : Sock)
    (w : World),
    ∃ l, server_sends (send_chunks_server port chunks s w).2.2.trace
      = server_sends w.trace ++ l := by
  intro chunks
  induction chunks with
  | nil => intro s w; exact ⟨[], by simp [send_chunks_server]⟩
  | cons c rest ih =>
    intro s w
    rw [send_chunks_server]
    split
    · exact ⟨[(port, c)], by simp [World.send_server, server_sends, server_sends_append]⟩
    · obtain ⟨l, hl⟩ := ih (w.send_server port s c).2.1 (w.send_server port s c).2.2
      exact ⟨(port, c) :: l, by
        rw [hl]; simp [World.send_server, server_sends, server_sends_append]⟩

theorem transfer_sends (filename dest_path : CStr) (n : Int) (port : Nat) (w : World) (s : Sock)
    (hp : server_port n = some port) (hc : w.net.head?.join = some s) :
    ∃ more, server_sends (transfer_file_to_server filename dest_path n w).trace
      = server_sends w.trace
          ++ (port, snprintf COMMAND_SIZE ("RECEIVE ".toList ++ basename filename ++ " ".toList
                ++ server_dest_path dest_path n)) :: more := by
  have h1 : (w.connect_to_server port).1 = some s := hc
  unfold transfer_file_to_server
  simp only [hp, h1]
  split
  · exact ⟨[], by
      simp [World.close_server, World.send_server, World.connect_to_server, server_sends,
        server_sends_append]⟩
  · split
    · exact ⟨[], by
        simp [World.close_server, World.send_server, World.connect_to_server, server_sends,
          server_sends_append]⟩
    · split
      · exact ⟨[], by
          simp [World.close_server, World.send_server, World.connect_to_server, server_sends,
            server_sends_append]⟩
      · next content _ =>
        obtain ⟨l, hl⟩ := send_chunks_server_sends port
          (fread_chunks BUFFER_SIZE content.length content)
          { ((w.connect_to_server port).2.send_server port s
                (snprintf COMMAND_SIZE ("RECEIVE ".toList ++ basename filename ++ " ".toList
                  ++ server_dest_path dest_path n))).2.1 with
            inbox := (recv (BUFFER_SIZE - 1)
              ((w.connect_to_server port).2.send_server port s
                (snprintf COMMAND_SIZE ("RECEIVE ".toList ++ basename filename ++ " ".toList
                  ++ server_dest_path dest_path n))).2.1.inbox).2.2 }
          ((w.connect_to_server port).2.send_server port s
                (snprintf COMMAND_SIZE ("RECEIVE ".toList ++ basename filename ++ " ".toList
                  ++ server_dest_path dest_path n))).2.2
        refine ⟨l, ?_⟩
        simp only [World.close_server, server_sends_append]
        rw [hl]
        simp [World.send_server, World.connect_to_server, server_sends, server_sends_append]

theorem receive_file_from_client_frame (filepath : CStr) (w : World) :
    server_sends (receive_file_from_client filepath w).2.trace = server_sends w.trace
      ∧ (receive_file_from_client filepath w).2.net = w.net := by
  unfold receive_file_from_client
  split
  · simp [World.send_client, server_sends, server_sends_append]
  · simp only
    split <;> simp [World.unlink]
theorem valid_of_shard (ext : CStr)
    (hshard : ext = "pdf".toList ∨ ext = "txt".toList ∨ ext = "zip".toList) :
    valid_ext ext = true ∧ strcmp_eq ext "c".toList = false
      ∧ ∃ port, server_port (server_type_of_ext ext) = some port
          ∧ spec_home_port ext = some port := by
  rcases hshard with h | h | h <;> subst h
  · exact ⟨by decide, by decide, 8387, by decide, by decide⟩
  · exact ⟨by decide, by decide, 8388, by decide, by decide⟩
  · exact ⟨by decide, by decide, 8389, by decide, by decide⟩

theorem send_client_server_sends (w : World) (msg : CStr) :
    server_sends (w.send_client msg).2.trace = server_sends w.trace
      ∧ (w.send_client msg).2.net = w.net := by
  simp [World.send_client, server_sends, server_sends_append]

theorem unlink_keeps (w : World) (p : CStr) :
    (w.unlink p).trace = w.trace ∧ (w.unlink p).net = w.net := ⟨rfl, rfl⟩

theorem upload_sends (command f d ext : CStr) (w : World) (s : Sock) (port : Nat)
    (hs : sscanf "uploadf".toList [MAX_FILENAME, MAX_FILEPATH] command = some (2, [f, d]))
    (he : get_file_extension f = some ext)
    (hshard : ext = "pdf".toList ∨ ext = "txt".toList ∨ ext = "zip".toList)
    (hport : server_port (server_type_of_ext ext) = some port)
    (hc : w.net.head?.join = some s)
    (hok : (handle_upload_command command w).1 = 0) :
    ∃ more, server_sends (handle_upload_command command w).2.trace
      = server_sends w.trace
          ++ (port, snprintf COMMAND_SIZE ("RECEIVE ".toList
                ++ basename (snprintf MAX_FILEPATH
                    (expand_path w.home d ++ "/".toList ++ basename f))
                ++ " ".toList ++ server_dest_path d (server_type_of_ext ext))) :: more := by
  obtain ⟨hv, hnc, _⟩ := valid_of_shard ext hshard
  unfold handle_upload_command at hok ⊢
  simp only [hs, he, hv, hnc, List.getD_cons_zero, List.getD_cons_succ, ne_eq,
    not_true_eq_false, if_false, Bool.true_eq_false, Bool.false_eq_true] at hok ⊢
  by_cases c1 : is_path_in_s1 w.home (expand_path w.home d) = false
  · rw [if_pos c1] at hok; simp at hok
  rw [if_neg c1] at hok ⊢
  by_cases c2 : ¬ (w.create_directory_path (expand_path w.home d)).1 = 0
  · rw [if_pos c2] at hok; simp at hok
  rw [if_neg c2] at hok ⊢
  by_cases c3 : ¬ (receive_file_from_client
      (snprintf MAX_FILEPATH (expand_path w.home d ++ "/".toList ++ basename f))
      ((w.create_directory_path (expand_path w.home d)).2.send_client
        "READY_TO_RECEIVE".toList).2).1 = 0
  · rw [if_pos c3] at hok; simp at hok
  rw [if_neg c3]
  obtain ⟨k1, _, k3, _, _⟩ := world_create_directory_path_keeps w (expand_path w.home d)
  obtain ⟨f1, f2⟩ := receive_file_from_client_frame
    (snprintf MAX_FILEPATH (expand_path w.home d ++ "/".toList ++ basename f))
    ((w.create_directory_path (expand_path w.home d)).2.send_client "READY_TO_RECEIVE".toList).2
  obtain ⟨more, hm⟩ := transfer_sends
    (snprintf MAX_FILEPATH (expand_path w.home d ++ "/".toList ++ basename f)) d
    (server_type_of_ext ext) port
    (receive_file_from_client
      (snprintf MAX_FILEPATH (expand_path w.home d ++ "/".toList ++ basename f))
      ((w.create_directory_path (expand_path w.home d)).2.send_client
        "READY_TO_RECEIVE".toList).2).2
    s hport (by rw [f2, (send_client_server_sends _ _).2, k3]; exact hc)
  refine ⟨more, ?_⟩
  rw [(send_client_server_sends _ _).1, (unlink_keeps _ _).1, hm, f1,
    (send_client_server_sends _ _).1, k1]
/-! ## What a shard stores on `RECEIVE` -/

theorem is_token_spec (s : CStr) (h : is_token s = true) :
    (∀ c ∈ s, isspace c = false) ∧ Char.ofNat 0 ∉ s := by
  unfold is_token at h
  rw [List.all_eq_true] at h
  constructor
  · intro c hc
    have := h c hc
    simp only [Bool.and_eq_true, Bool.not_eq_true', decide_eq_true_eq] at this
    exact this.1
  · intro hc
    have := h _ hc
    simp at this

theorem words_single (s : CStr) (h : ∀ c ∈ s, isspace c = false) (hne : s ≠ []) :
    words s = [s] := by
  have e : s = s ++ [] := by simp
  unfold words
  rw [e, words_go_nonspace s [] [] h]
  simp [words_go, hne]

theorem words_three (a b c : CStr) (ha : ∀ x ∈ a, isspace x = false) (ha0 : a ≠ [])
    (hb : ∀ x ∈ b, isspace x = false) (hb0 : b ≠ [])
    (hc : ∀ x ∈ c, isspace x = false) (hc0 : c ≠ []) :
    words (a ++ ' ' :: (b ++ ' ' :: c)) = [a, b, c] := by
  rw [words_head a _ ha ha0, words_head b _ hb hb0, words_single c hc hc0]

theorem receive_command_parts (name dir : CStr) (hname : is_token name = true)
    (hdir : is_token dir = true) :
    cstr ("RECEIVE".toList ++ ' ' :: (name ++ ' ' :: dir))
      = "RECEIVE".toList ++ ' ' :: (name ++ ' ' :: dir) := by
  obtain ⟨_, n1⟩ := is_token_spec name hname
  obtain ⟨_, n2⟩ := is_token_spec dir hdir
  apply cstr_of_no_nul
  simp only [List.mem_append, List.mem_cons, not_or]
  exact ⟨by decide, by decide, n1, by decide, n2⟩
theorem S2_parse_receive (name dir : CStr) (hname : is_token name = true) (hn0 : name ≠ [])
    (hdir : is_token dir = true) (hd0 : dir ≠ [])
    (hcmd : ("RECEIVE".toList ++ ' ' :: (name ++ ' ' :: dir)).length < S2.CMD_SIZE) :
    sscanf [] [20, S2.PATH_MAX_LEN, S2.PATH_MAX_LEN]
        ("RECEIVE".toList ++ ' ' :: (name ++ ' ' :: dir))
      = some (3, ["RECEIVE".toList, name, dir]) := by
  obtain ⟨s1, _⟩ := is_token_spec name hname
  obtain ⟨s2, _⟩ := is_token_spec dir hdir
  have hl : name.length < 1024 ∧ dir.length < 1024 := by
    have e : S2.CMD_SIZE = 1024 := rfl
    rw [e] at hcmd
    simp only [List.length_append, List.length_cons] at hcmd
    omega
  unfold sscanf
  simp only [scan_literal, scan_args_words,
    words_three "RECEIVE".toList name dir (by decide) (by decide) s1 hn0 s2 hd0]
  have e : S2.PATH_MAX_LEN = 1024 := rfl
  rw [e]
  simp [hl.1, hl.2]

theorem S2_receive_stores (name dir : CStr) (chunks : List (List Char)) (ws : World)
    (hname : is_token name = true) (hn0 : name ≠ [])
    (hdir : is_token dir = true) (hd0 : dir ≠ [])
    (hcmd : ("RECEIVE".toList ++ ' ' :: (name ++ ' ' :: dir)).length < S2.CMD_SIZE)
    (hin : ws.client.inbox
      = Recv.data ("RECEIVE".toList ++ ' ' :: (name ++ ' ' :: dir)) :: chunks.map Recv.data)
    (hfit : (expand_path ws.home dir ++ "/".toList ++ name).length < S2.PATH_MAX_LEN)
    (hg : short_read_only_last chunks = true)
    (h2 : expand_path ws.home dir ++ "/".toList ++ name ∉ ws.fs.denied)
    (h3 : expand_path ws.home dir ++ "/".toList ++ name ∉ ws.fs.dirs)
    (hs : chunks.flatten.length ≤ ws.fs.space) :
    (S2.process_s1_request ws).fs.lookup (expand_path ws.home dir ++ "/".toList ++ name)
      = some chunks.flatten := by
  have hrecv : recv (S2.CMD_SIZE - 1) ws.client.inbox
      = ((("RECEIVE".toList ++ ' ' :: (name ++ ' ' :: dir)).length : Int),
          "RECEIVE".toList ++ ' ' :: (name ++ ' ' :: dir), chunks.map Recv.data) := by
    rw [hin]
    exact recv_reply _ _ _ (by omega)
  have hpos : ¬ ((("RECEIVE".toList ++ ' ' :: (name ++ ' ' :: dir)).length : Int) ≤ 0) := by
    simp only [List.length_append, List.length_cons]
    omega
  have hsn : snprintf S2.PATH_MAX_LEN (expand_path ws.home dir ++ "/".toList ++ name)
      = expand_path ws.home dir ++ "/".toList ++ name := by
    unfold snprintf
    exact List.take_of_length_le (by omega)
  have h1 : expand_path ws.home dir ++ "/".toList ++ name ≠ [] := by simp
  unfold S2.process_s1_request
  simp only [World.recv_client, hrecv, receive_command_parts name dir hname hdir,
    S2_parse_receive name dir hname hn0 hdir hd0 hcmd]
  rw [if_neg hpos]
  simp only [List.getD_cons_zero, List.getD_cons_succ, S2.run_command]
  rw [if_pos (by decide)]
  unfold S2.receive_branch
  simp only [hsn]
  generalize hw : ({ ws with client := { ws.client with inbox := chunks.map Recv.data } } : World)
    = w1
  have e2 : w1.fs = ws.fs := by rw [← hw]
  have e3 : w1.client.inbox = chunks.map Recv.data := by rw [← hw]
  obtain ⟨fs1, hf⟩ := fopen_w_after_make_parent w1
    (expand_path ws.home dir ++ "/".toList ++ name) h1 (by rw [e2]; exact h2)
    (by rw [e2]; exact h3)
  obtain ⟨_, _, k3, k4, _, _, _, _⟩ := make_parent_keeps w1
    (expand_path ws.home dir ++ "/".toList ++ name)
  have hsp : chunks.flatten.length ≤ fs1.space := by
    rw [fopen_w_space _ _ _ hf, k3, e2]; exact hs
  obtain ⟨r1, r2⟩ := recv_file_loop_fresh (expand_path ws.home dir ++ "/".toList ++ name)
    chunks fs1 hg hsp (fopen_w_lookup _ _ _ hf)
  unfold S2.receive_file
  simp only [World.send_client, hf, k4, e3, r1]
  exact r2
theorem world_create_directory_path_fs (w : World) (path : CStr) :
    (w.create_directory_path path).2.fs.denied = w.fs.denied
      ∧ (w.create_directory_path path).2.fs.space = w.fs.space
      ∧ ∀ d ∈ (w.create_directory_path path).2.fs.dirs, d ∈ w.fs.dirs ∨ d.length ≤ path.length := by
  unfold World.create_directory_path
  cases hc : create_directory_path w.fs path with
  | none => exact ⟨rfl, rfl, fun d hd => Or.inl hd⟩
  | some r =>
    obtain ⟨_, k2, k3, k4⟩ := create_directory_path_keeps _ _ r hc
    exact ⟨k2, k3, k4⟩

theorem S4_parse_receive (name dir : CStr) (hname : is_token name = true) (hn0 : name ≠ [])
    (hdir : is_token dir = true) (hd0 : dir ≠ [])
    (hnl : name.length < MAX_FILENAME) (hdl : dir.length < MAX_FILEPATH) :
    sscanf "RECEIVE".toList [MAX_FILENAME, MAX_FILEPATH]
        ("RECEIVE".toList ++ ' ' :: (name ++ ' ' :: dir))
      = some (2, [name, dir]) := by
  obtain ⟨s1, _⟩ := is_token_spec name hname
  obtain ⟨s2, _⟩ := is_token_spec dir hdir
  rw [sscanf_words, words_head name _ s1 hn0, words_single dir s2 hd0]
  simp [hnl, hdl]

theorem S4_receive_stores (name dir : CStr) (chunks : List (List Char)) (ws : World)
    (hname : is_token name = true) (hn0 : name ≠ [])
    (hdir : is_token dir = true) (hd0 : dir ≠ [])
    (hnl : name.length < MAX_FILENAME)
    (hcmd : ("RECEIVE".toList ++ ' ' :: (name ++ ' ' :: dir)).length < COMMAND_SIZE)
    (hin : ws.client.inbox
      = Recv.data ("RECEIVE".toList ++ ' ' :: (name ++ ' ' :: dir)) :: chunks.map Recv.data)
    (hmk : (ws.create_directory_path (expand_path ws.home dir)).1 = 0)
    (hfit : (expand_path ws.home dir ++ "/".toList ++ name).length < MAX_FILEPATH)
    (hg : short_read_only_last chunks = true)
    (h2 : expand_path ws.home dir ++ "/".toList ++ name ∉ ws.fs.denied)
    (h3 : expand_path ws.home dir ++ "/".toList ++ name ∉ ws.fs.dirs)
    (hs : chunks.flatten.length ≤ ws.fs.space) :
    (S4.process_client_request ws).fs.lookup (expand_path ws.home dir ++ "/".toList ++ name)
      = some chunks.flatten := by
  have hc : COMMAND_SIZE = 1024 := rfl
  have hrecv : recv (COMMAND_SIZE - 1) ws.client.inbox
      = ((("RECEIVE".toList ++ ' ' :: (name ++ ' ' :: dir)).length : Int),
          "RECEIVE".toList ++ ' ' :: (name ++ ' ' :: dir), chunks.map Recv.data) := by
    rw [hin]
    exact recv_reply _ _ _ (by omega)
  have hpos : ¬ ((("RECEIVE".toList ++ ' ' :: (name ++ ' ' :: dir)).length : Int) ≤ 0) := by
    simp only [List.length_append, List.length_cons]
    omega
  have hdl : dir.length < MAX_FILEPATH := by
    have e : MAX_FILEPATH = 1024 := rfl
    rw [e]
    rw [hc] at hcmd
    simp only [List.length_append, List.length_cons] at hcmd
    omega
  have hsn : snprintf MAX_FILEPATH (expand_path ws.home dir ++ "/".toList ++ name)
      = expand_path ws.home dir ++ "/".toList ++ name := by
    unfold snprintf
    exact List.take_of_length_le (by omega)
  have h1 : expand_path ws.home dir ++ "/".toList ++ name ≠ [] := by simp
  unfold S4.process_client_request
  simp only [World.recv_client, hrecv, receive_command_parts name dir hname hdir]
  rw [if_neg hpos]
  unfold S4.dispatch
  rw [if_pos (by simp [strncmp_eq])]
  unfold S4.handle_receive_command
  simp only [S4_parse_receive name dir hname hn0 hdir hd0 hnl hdl, List.getD_cons_zero,
    List.getD_cons_succ, ne_eq, not_true_eq_false, if_false, hsn]
  generalize hw : ({ ws with client := { ws.client with inbox := chunks.map Recv.data } } : World)
    = w1
  have e1 : w1.fs = ws.fs := by rw [← hw]
  have e3 : w1.client.inbox = chunks.map Recv.data := by rw [← hw]
  have e4 : w1.home = ws.home := by rw [← hw]
  have hmk1 : (w1.create_directory_path (expand_path ws.home dir)).1 = 0 := by
    rw [← hmk]
    unfold World.create_directory_path
    rw [e1]
    cases create_directory_path ws.fs (expand_path ws.home dir) <;> rfl
  rw [if_neg (by rw [hmk1]; simp)]
  obtain ⟨_, _, _, c4, _⟩ := world_create_directory_path_keeps w1 (expand_path ws.home dir)
  obtain ⟨d1, d2, d3⟩ := world_create_directory_path_fs w1 (expand_path ws.home dir)
  obtain ⟨g1, g2⟩ := S4_receive_file_good (expand_path ws.home dir ++ "/".toList ++ name) chunks
    ((w1.create_directory_path (expand_path ws.home dir)).2.send_client
      "READY_TO_RECEIVE".toList).2 hg
    (by simp only [World.send_client]; rw [c4, e3]) h1
    (by
      simp only [World.send_client]
      rw [d1, e1]
      exact h2)
    (by
      simp only [World.send_client]
      intro hm
      rcases d3 _ hm with h | h
      · rw [e1] at h
        exact h3 h
      · simp only [List.length_append] at h
        have : "/".toList.length = 1 := rfl
        omega)
    (by
      simp only [World.send_client]
      rw [d2, e1]
      exact hs)
  rw [if_neg (by rw [g1]; simp)]
  simp only [World.send_client]
  exact g2
theorem basename_sub (f : CStr) (c : Char) (hl : f.getLast? = some c) (hc : c ≠ '/') :
    (∀ x ∈ basename f, x ∈ f) ∧ (basename f).length ≤ f.length := by
  have hne : f ≠ [] := by
    intro h
    rw [h] at hl
    simp at hl
  obtain ⟨l, hr⟩ : ∃ l, f.reverse = c :: l := by
    rw [List.getLast?_eq_head?_reverse] at hl
    cases hf : f.reverse with
    | nil => rw [hf] at hl; simp at hl
    | cons a l => rw [hf] at hl; simp at hl; exact ⟨l, by rw [hl]⟩
  have hdrop : f.reverse.dropWhile (fun c => decide (c = '/')) = f.reverse := by
    rw [hr]
    simp [List.dropWhile, hc]
  unfold basename
  rw [if_neg hne]
  simp only [hdrop, List.reverse_reverse]
  rw [if_neg hne]
  constructor
  · intro x hx
    rw [List.mem_reverse] at hx
    exact List.mem_reverse.mp ((List.takeWhile_sublist _).subset hx)
  · rw [List.length_reverse]
    have := (List.takeWhile_sublist (fun c => decide (c ≠ '/')) (l := f.reverse)).length_le
    rw [List.length_reverse] at this
    exact this

theorem is_token_of_sub (a b : CStr) (h : ∀ x ∈ a, x ∈ b) (hb : is_token b = true) :
    is_token a = true := by
  unfold is_token at hb ⊢
  rw [List.all_eq_true] at hb ⊢
  exact fun x hx => hb x (h x hx)

theorem shard_ext_tail (f ext : CStr) (he : get_file_extension f = some ext)
    (hshard : ext = "pdf".toList ∨ ext = "txt".toList ∨ ext = "zip".toList) :
    ∃ c, f.getLast? = some c ∧ c ≠ '/' := by
  rcases hshard with h | h | h <;> subst h
  · exact ⟨'f', by rw [ext_last f _ he (by decide)]; rfl, by decide⟩
  · exact ⟨'t', by rw [ext_last f _ he (by decide)]; rfl, by decide⟩
  · exact ⟨'p', by rw [ext_last f _ he (by decide)]; rfl, by decide⟩

theorem upload_parse (f d : CStr) (hf : is_token f = true) (hf0 : f ≠ [])
    (hd : is_token d = true) (hd0 : d ≠ [])
    (hfl : f.length < MAX_FILENAME) (hdl : d.length < MAX_FILEPATH) :
    sscanf "uploadf".toList [MAX_FILENAME, MAX_FILEPATH]
        ("uploadf".toList ++ ' ' :: (f ++ ' ' :: d))
      = some (2, [f, d]) := by
  obtain ⟨s1, _⟩ := is_token_spec f hf
  obtain ⟨s2, _⟩ := is_token_spec d hd
  rw [sscanf_words, words_head f _ s1 hf0, words_single d s2 hd0]
  simp [hfl, hdl]

theorem is_token_append (a b : CStr) (ha : is_token a = true) (hb : is_token b = true) :
    is_token (a ++ b) = true := by
  unfold is_token at ha hb ⊢
  rw [List.all_append, ha, hb]
  rfl

/-! ## Replies when a shard refuses the connection -/

theorem download_refused (w : World) (command path ext : CStr)
    (hrefused : w.net.head?.join = none)
    (hparse : sscanf "downlf".toList [MAX_FILEPATH] command = some (1, [path]))
    (hin : is_path_in_s1 w.home (expand_path w.home path) = true)
    (hext : get_file_extension (expand_path w.home path) = some ext)
    (hshard : ext = "pdf".toList ∨ ext = "txt".toList ∨ ext = "zip".toList) :
    client_sends (handle_download_command command w).2.trace
      = client_sends w.trace ++ ["ERROR: Failed to retrieve file from server".toList] := by
  obtain ⟨hv, hnc, port, hport, _⟩ := valid_of_shard ext hshard
  have hconn : ∀ p, (w.connect_to_server p).1 = none := fun _ => hrefused
  unfold handle_download_command
  simp only [hparse, List.getD_cons_zero, hin, hext, hv, hnc, ne_eq, not_true_eq_false,
    if_false, Bool.true_eq_false, Bool.false_eq_true]
  unfold retrieve_file_from_server
  simp only [hport, hconn]
  simp [World.send_client, World.connect_to_server, client_sends, client_sends_append]

theorem remove_refused (w : World) (command path ext : CStr)
    (hrefused : w.net.head?.join = none)
    (hparse : sscanf "removef".toList [MAX_FILEPATH] command = some (1, [path]))
    (hin : is_path_in_s1 w.home (expand_path w.home path) = true)
    (hext : get_file_extension (expand_path w.home path) = some ext)
    (hshard : ext = "pdf".toList ∨ ext = "txt".toList ∨ ext = "zip".toList) :
    client_sends (handle_remove_command command w).2.trace
      = client_sends w.trace ++ ["ERROR: Failed to connect to server".toList] := by
  obtain ⟨hv, hnc, _⟩ := valid_of_shard ext hshard
  have hconn : ∀ p, (w.connect_to_server p).1 = none := fun _ => hrefused
  unfold handle_remove_command
  simp only [hparse, List.getD_cons_zero, hin, hext, hv, hnc, ne_eq, not_true_eq_false,
    if_false, Bool.true_eq_false, Bool.false_eq_true]
  split
  · simp [World.send_client, client_sends, client_sends_append]
  · simp only [hconn]
    simp [World.send_client, World.connect_to_server, client_sends, client_sends_append]

theorem download_tar_refused (w : World) (command filetype : CStr)
    (hrefused : w.net.head?.join = none)
    (hparse : sscanf "downltar".toList [BUFFER_SIZE] command = some (1, [filetype]))
    (hshard : filetype = "pdf".toList ∨ filetype = "txt".toList ∨ filetype = "zip".toList) :
    client_sends (handle_download_tar_command command w).2.trace
      = client_sends w.trace ++ ["SERVER_CONNECTION_FAILED".toList] := by
  have hconn : ∀ p, (w.connect_to_server p).1 = none := fun _ => hrefused
  have hr : ∀ p, client_sends (download_tar_remote p filetype w).2.trace
      = client_sends w.trace ++ ["SERVER_CONNECTION_FAILED".toList] := by
    intro p
    unfold download_tar_remote
    simp only [hconn]
    simp [World.send_client, World.connect_to_server, client_sends, client_sends_append]
  unfold handle_download_tar_command
  simp only [hparse, List.getD_cons_zero, ne_eq, not_true_eq_false, if_false]
  rcases hshard with h | h | h <;> subst h
  · rw [if_neg (by decide), if_pos (by decide)]; exact hr _
  · rw [if_neg (by decide), if_neg (by decide), if_pos (by decide)]; exact hr _
  · rw [if_neg (by decide), if_neg (by decide), if_neg (by decide), if_pos (by decide)]
    exact hr _

theorem display_filenames_sends (w : World) (command path : CStr) (entries : List Dirent)
    (more : Inbox)
    (hparse : sscanf "dispfnames".toList [MAX_FILEPATH] command = some (1, [path]))
    (hin : is_path_in_s1 w.home (expand_path w.home path) = true)
    (hdir : w.fs.opendir (expand_path w.home path) = some entries)
    (hfit : (c_files_of entries).length < BUFFER_SIZE)
    (hack : w.client.inbox = Recv.data "READY".toList :: more) :
    (handle_display_filenames_command command w).1 = 0
      ∧ client_sends (handle_display_filenames_command command w).2.trace
          = client_sends w.trace ++ ["FILES_COMING".toList,
              if spec_listing (c_files_of entries) w.net = [] then
                "No files found in this directory".toList
              else spec_listing (c_files_of entries) w.net] := by
  obtain ⟨h1, h2, -⟩ := list_files_in_directory_sends w (expand_path w.home path) entries more
    hdir hfit hack
  have hd : w.fs.is_dir (expand_path w.home path) = true := opendir_is_dir _ _ _ hdir
  unfold handle_display_filenames_command
  simp only [hparse, List.getD_cons_zero, hin, hd]
  simp only [h1]
  refine ⟨by simp, ?_⟩
  simp only [ne_eq, not_true_eq_false, if_false, Bool.true_eq_false]
  rw [h2]
/-! ## The acknowledgement `READY` -/

theorem list_files_in_directory_nack (w : World) (path : CStr) (entries : List Dirent)
    (hdir : w.fs.opendir path = some entries)
    (hfit : (c_files_of entries).length < BUFFER_SIZE)
    (hnack : (recv (BUFFER_SIZE - 1) w.client.inbox).1 ≤ 0
      ∨ cstr (recv (BUFFER_SIZE - 1) w.client.inbox).2.1 ≠ "READY".toList) :
    (list_files_in_directory path w).1 = -1
      ∧ client_sends (list_files_in_directory path w).2.trace
          = client_sends w.trace ++ ["FILES_COMING".toList] := by
  have f1 := list_from_server_frame S2_PORT 2 "pdf".toList path w
  have f2 := list_from_server_frame S3_PORT 3 "txt".toList path
    (list_from_server S2_PORT 2 "pdf".toList path w).2
  have f3 := list_from_server_frame S4_PORT 4 "zip".toList path
    (list_from_server S3_PORT 3 "txt".toList path
      (list_from_server S2_PORT 2 "pdf".toList path w).2).2
  obtain ⟨n1, c1, -, -, s1, p1⟩ := f1
  obtain ⟨n2, c2, -, -, s2, p2⟩ := f2
  obtain ⟨n3, c3, -, -, s3, p3⟩ := f3
  unfold list_files_in_directory
  simp only [hdir]
  rw [if_neg (by omega)]
  have hinbox : ∀ buf, ((list_from_server S4_PORT 4 "zip".toList path
      (list_from_server S3_PORT 3 "txt".toList path
        (list_from_server S2_PORT 2 "pdf".toList path w).2).2).2.send_client buf).2.client.inbox
        = w.client.inbox := by
    intro buf
    rw [send_client_inbox, c3, c2, c1]
  simp only [World.recv_client, hinbox]
  rw [if_pos hnack]
  simp only [send_client_trace, client_sends_append, client_sends, s3, s2, s1,
    List.append_nil, and_self]

theorem display_filenames_nack (w : World) (command path : CStr) (entries : List Dirent)
    (hparse : sscanf "dispfnames".toList [MAX_FILEPATH] command = some (1, [path]))
    (hin : is_path_in_s1 w.home (expand_path w.home path) = true)
    (hdir : w.fs.opendir (expand_path w.home path) = some entries)
    (hfit : (c_files_of entries).length < BUFFER_SIZE)
    (hnack : (recv (BUFFER_SIZE - 1) w.client.inbox).1 ≤ 0
      ∨ cstr (recv (BUFFER_SIZE - 1) w.client.inbox).2.1 ≠ "READY".toList) :
    (handle_display_filenames_command command w).1 = -1
      ∧ client_sends (handle_display_filenames_command command w).2.trace
          = client_sends w.trace
              ++ ["FILES_COMING".toList, "ERROR: Failed to list files".toList] := by
  obtain ⟨h1, h2⟩ := list_files_in_directory_nack w (expand_path w.home path) entries hdir hfit
    hnack
  have hd : w.fs.is_dir (expand_path w.home path) = true := opendir_is_dir _ _ _ hdir
  unfold handle_display_filenames_command
  simp only [hparse, List.getD_cons_zero, hin, hd]
  simp only [h1]
  refine ⟨by simp, ?_⟩
  simp only [ne_eq, not_true_eq_false, if_false, Bool.true_eq_false]
  rw [if_pos (by decide)]
  simp only [send_client_trace, client_sends_append, client_sends, h2, List.append_assoc,
    List.cons_append, List.nil_append]
theorem system_tar_made (w : World) (cmd out : CStr) (bytes : List Char)
    (hp : w.pipes.head?.join = some bytes) :
    (w.system_tar cmd out).1 = true
      ∧ (w.system_tar cmd out).2.fs.access out = true
      ∧ (w.system_tar cmd out).2.client = w.client
      ∧ client_sends (w.system_tar cmd out).2.trace = client_sends w.trace := by
  unfold World.system_tar
  simp only [hp]
  refine ⟨trivial, ?_, trivial, ?_⟩
  · unfold FS.access FS.is_file FS.lookup
    rw [lookup_append_new]
    · rfl
    · rw [List.lookup_eq_none_iff]
      intro a hm
      have := (List.mem_filter.mp hm).2
      simp only [ne_eq, decide_not, Bool.not_eq_true', decide_eq_false_iff_not] at this
      simp only [bne_iff_ne, ne_eq]
      exact fun h => this h.symm
  · simp [client_sends_append, client_sends]

theorem S4_create_tar_nack (w : World) (command : CStr) (bytes : List Char)
    (hparse : sscanf "CREATE_TAR".toList [10] command = some (1, ["zip".toList]))
    (hp : w.pipes.head?.join = some bytes)
    (hnack : (recv (BUFFER_SIZE - 1) w.client.inbox).1 ≤ 0
      ∨ cstr (recv (BUFFER_SIZE - 1) w.client.inbox).2.1 ≠ "READY".toList) :
    (S4.handle_create_tar_command command w).1 = -1
      ∧ client_sends (S4.handle_create_tar_command command w).2.trace
          = client_sends w.trace ++ ["READY_TO_SEND_TAR zip.tar".toList] := by
  obtain ⟨m1, m2, m3, m4⟩ := system_tar_made w
    (S4.tar_command (expand_path w.home S4.S4_BASE_DIR) "zip.tar".toList) "zip.tar".toList
    bytes hp
  unfold S4.handle_create_tar_command
  simp only [hparse, List.getD_cons_zero, ne_eq, not_true_eq_false, if_false, m1, m2,
    Bool.true_eq_false]
  rw [if_neg (by decide)]
  simp only [World.recv_client, send_client_inbox, m3]
  rw [if_pos hnack]
  refine ⟨rfl, ?_⟩
  simp only [World.unlink, send_client_trace, client_sends_append, client_sends, m4]
  rfl

theorem S2_list_reads_nothing (w : World) (dir ext : CStr) (entries : List Dirent)
    (hdir : w.fs.opendir (expand_path w.home dir) = some entries)
    (hfit : (join_lines (matching_names ext entries)).length < BUFFER_SIZE) :
    client_sends (S2.run_command "LIST".toList dir ext w).trace
        = client_sends w.trace ++ [join_lines (S2.qsort (matching_names ext entries))]
      ∧ (S2.run_command "LIST".toList dir ext w).client.inbox = w.client.inbox := by
  have hd := opendir_is_dir _ _ _ hdir
  have hfit2 : (join_lines (S2.qsort (matching_names ext entries))).length < BUFFER_SIZE := by
    rw [join_lines_length_perm _ _ (qsort_perm _)]
    exact hfit
  unfold S2.run_command
  rw [if_neg (by decide), if_neg (by decide), if_neg (by decide), if_neg (by decide),
    if_pos (by decide)]
  unfold S2.list_branch S2.get_sorted_files
  simp only [hd, hdir, if_pos hfit2]
  simp [client_sends_append, client_sends]

theorem S4_list_reads_nothing (w : World) (command dir ext : CStr) (entries : List Dirent)
    (hparse : sscanf "LIST".toList [MAX_FILEPATH, 10] command = some (2, [dir, ext]))
    (hdir : w.fs.opendir (expand_path w.home dir) = some entries)
    (hfit : (join_lines (matching_names ext entries)).length < BUFFER_SIZE) :
    client_sends (S4.handle_list_command command w).2.trace
        = client_sends w.trace
          ++ [join_lines (S4.sort_outer (matching_names ext entries).length 0
                (matching_names ext entries))]
      ∧ (S4.handle_list_command command w).2.client.inbox = w.client.inbox := by
  have hd := opendir_is_dir _ _ _ hdir
  have hfit2 : (join_lines (S4.sort_outer (matching_names ext entries).length 0
      (matching_names ext entries))).length < BUFFER_SIZE := by
    rw [join_lines_length_perm _ _ (sort_outer_sorted _).1]
    exact hfit
  unfold S4.handle_list_command
  simp only [hparse]
  unfold S4.list_files_in_directory
  simp only [List.getD_cons_zero, List.getD_cons_succ, hd, hdir, List.take_length, if_pos hfit2]
  simp [client_sends_append, client_sends]

theorem list_from_server_sends (port : Nat) (st : Int) (ext path : CStr) (w : World) :
    server_sends (list_from_server port st ext path w).2.trace
      = server_sends w.trace
        ++ (if w.net.head?.join.isSome then
              [(port, snprintf COMMAND_SIZE ("LIST ".toList
                ++ get_corresponding_server_path w.home path st ++ " ".toList ++ ext))]
            else []) := by
  unfold list_from_server
  simp only [connect_fst]
  cases w.net.head?.join with
  | none => simp [World.connect_to_server, server_sends_append, server_sends]
  | some s =>
    simp only []
    split <;>
    simp [World.connect_to_server, World.send_server, World.close_server, server_sends_append,
      server_sends]

/-! ## Claims C21 to C25: sub-connections, uploads to a shard and archives -/
/-- Claim C21, counterexample. The shard refuses the connection: for `downltar
pdf` the only message the router sends is `SERVER_CONNECTION_FAILED`, and for
`dispfnames ~/S1/d` with all three shards refusing, the router returns 0 after
sending `FILES_COMING` and the names of its own `c` files. No message begins
with `ERROR:`. -/
theorem C21_refusal_without_error_message :
    client_sends (handle_download_tar_command "downltar pdf".toList
        (sample_world [] [none])).2.trace = ["SERVER_CONNECTION_FAILED".toList]
      ∧ (handle_display_filenames_command "dispfnames ~/S1/d".toList
          (listing_world [none, none, none])).1 = 0
      ∧ (client_sends (handle_display_filenames_command "dispfnames ~/S1/d".toList
          (listing_world [none, none, none])).2.trace).all
            (fun msg => !"ERROR:".toList.isPrefixOf msg) = true := by
  decide

/-- Claim C21, amended. When the connection the router attempts next is
refused: `downlf` of a `pdf`, `txt` or `zip` file is answered by
`ERROR: Failed to retrieve file from server`, `removef` of such a file by
`ERROR: Failed to connect to server`, `downltar` of `pdf`, `txt` or `zip` by
the word `SERVER_CONNECTION_FAILED`, and `dispfnames` (whose first connection
is the one for `pdf`) completes with `FILES_COMING` and a listing to which
that shard contributes nothing. Nothing else is sent to the client. -/
theorem C21_refused_shard_replies (w : World) (hrefused : w.net.head?.join = none) :
    (∀ command path ext : CStr,
        sscanf "downlf".toList [MAX_FILEPATH] command = some (1, [path]) →
        is_path_in_s1 w.home (expand_path w.home path) = true →
        get_file_extension (expand_path w.home path) = some ext →
        (ext = "pdf".toList ∨ ext = "txt".toList ∨ ext = "zip".toList) →
        client_sends (handle_download_command command w).2.trace
          = client_sends w.trace ++ ["ERROR: Failed to retrieve file from server".toList])
      ∧ (∀ command path ext : CStr,
        sscanf "removef".toList [MAX_FILEPATH] command = some (1, [path]) →
        is_path_in_s1 w.home (expand_path w.home path) = true →
        get_file_extension (expand_path w.home path) = some ext →
        (ext = "pdf".toList ∨ ext = "txt".toList ∨ ext = "zip".toList) →
        client_sends (handle_remove_command command w).2.trace
          = client_sends w.trace ++ ["ERROR: Failed to connect to server".toList])
      ∧ (∀ command filetype : CStr,
        sscanf "downltar".toList [BUFFER_SIZE] command = some (1, [filetype]) →
        (filetype = "pdf".toList ∨ filetype = "txt".toList ∨ filetype = "zip".toList) →
        client_sends (handle_download_tar_command command w).2.trace
          = client_sends w.trace ++ ["SERVER_CONNECTION_FAILED".toList])
      ∧ (∀ (command path : CStr) (entries : List Dirent) (more : Inbox),
        sscanf "dispfnames".toList [MAX_FILEPATH] command = some (1, [path]) →
        is_path_in_s1 w.home (expand_path w.home path) = true →
        w.fs.opendir (expand_path w.home path) = some entries →
        (c_files_of entries).length < BUFFER_SIZE →
        w.client.inbox = Recv.data "READY".toList :: more →
        (handle_display_filenames_command command w).1 = 0
          ∧ client_sends (handle_display_filenames_command command w).2.trace
              = client_sends w.trace ++ ["FILES_COMING".toList,
                  if c_files_of entries ++ shard_block w.net.tail.head?.join
                      ++ shard_block w.net.tail.tail.head?.join = [] then
                    "No files found in this directory".toList
                  else c_files_of entries ++ shard_block w.net.tail.head?.join
                    ++ shard_block w.net.tail.tail.head?.join]) := by
  refine ⟨?_, ?_, ?_, ?_⟩
  · intro command path ext hparse hin hext hshard
    exact download_refused w command path ext hrefused hparse hin hext hshard
  · intro command path ext hparse hin hext hshard
    exact remove_refused w command path ext hrefused hparse hin hext hshard
  · intro command filetype hparse hshard
    exact download_tar_refused w command filetype hrefused hparse hshard
  · intro command path entries more hparse hin hdir hfit hack
    obtain ⟨h1, h2⟩ := display_filenames_sends w command path entries more hparse hin hdir
      hfit hack
    refine ⟨h1, ?_⟩
    rw [h2]
    have e : spec_listing (c_files_of entries) w.net
        = c_files_of entries ++ shard_block w.net.tail.head?.join
          ++ shard_block w.net.tail.tail.head?.join := by
      unfold spec_listing
      rw [hrefused]
      simp [shard_block]
    rw [e]

theorem C21_refused_shard_replies_witness :
    client_sends (handle_download_command "downlf ~/S1/d/x.pdf".toList
        (listing_world [none, some (Sock.mk [Recv.data "x.txt\n".toList] []), none])).2.trace
      = ["ERROR: Failed to retrieve file from server".toList]
    ∧ client_sends (handle_remove_command "removef ~/S1/d/x.zip".toList
        (listing_world [none, some (Sock.mk [Recv.data "x.txt\n".toList] []), none])).2.trace
      = ["ERROR: Failed to connect to server".toList]
    ∧ client_sends (handle_download_tar_command "downltar txt".toList
        (listing_world [none, some (Sock.mk [Recv.data "x.txt\n".toList] []), none])).2.trace
      = ["SERVER_CONNECTION_FAILED".toList]
    ∧ client_sends (handle_display_filenames_command "dispfnames ~/S1/d".toList
        (listing_world [none, some (Sock.mk [Recv.data "x.txt\n".toList] []), none])).2.trace
      = ["FILES_COMING".toList, "b.c\na.c\nx.txt\n".toList] :=
  ⟨(C21_refused_shard_replies
      (listing_world [none, some (Sock.mk [Recv.data "x.txt\n".toList] []), none]) rfl).1
      "downlf ~/S1/d/x.pdf".toList "~/S1/d/x.pdf".toList "pdf".toList
      (by decide) (by decide) (by decide) (by decide),
   (C21_refused_shard_replies
      (listing_world [none, some (Sock.mk [Recv.data "x.txt\n".toList] []), none]) rfl).2.1
      "removef ~/S1/d/x.zip".toList "~/S1/d/x.zip".toList "zip".toList
      (by decide) (by decide) (by decide) (by decide),
   (C21_refused_shard_replies
      (listing_world [none, some (Sock.mk [Recv.data "x.txt\n".toList] []), none]) rfl).2.2.1
      "downltar txt".toList "txt".toList (by decide) (by decide),
   ((C21_refused_shard_replies
      (listing_world [none, some (Sock.mk [Recv.data "x.txt\n".toList] []), none]) rfl).2.2.2
      "dispfnames ~/S1/d".toList "~/S1/d".toList
      [Dirent.mk ".".toList false, Dirent.mk "..".toList false,
        Dirent.mk "b.c".toList true, Dirent.mk "a.c".toList true,
        Dirent.mk "notes.md".toList true] []
      (by decide) (by decide) (by decide) (by decide) rfl).2⟩
/-- Claim C22. For an upload of a name `f` with extension `pdf`, `txt` or `zip`
to `~/S1<rest>` that the router completes with a shard that accepts the
connection, the first thing the router sends to the shard of the extension is
`RECEIVE`, a space, `basename f`, a space and `~/S<n><rest>`. S2, given that
command for a `pdf` name, stores the bytes that follow at the expansion of
`~/S2<rest>` followed by `/` and `basename f`; S4 does the same for `zip` under
`~/S4<rest>`. The command and the paths fit their buffers. The source of the
shard for `txt` is not part of the repository. -/
theorem C22_upload_command_and_storage (f rest ext : CStr) (w : World) (s : Sock) (port : Nat)
    (hf : is_token f = true) (hrest : is_token rest = true)
    (hfl : f.length < MAX_FILENAME)
    (hlen : ("uploadf".toList ++ ' ' :: (f ++ ' ' :: ("~/S1".toList ++ rest))).length
      < COMMAND_SIZE)
    (he : get_file_extension f = some ext)
    (hshard : ext = "pdf".toList ∨ ext = "txt".toList ∨ ext = "zip".toList)
    (hport : server_port (server_type_of_ext ext) = some port)
    (hpath : (expand_path w.home ("~/S1".toList ++ rest) ++ "/".toList ++ basename f).length
      < MAX_FILEPATH)
    (hc : w.net.head?.join = some s)
    (hok : (handle_upload_command
      ("uploadf".toList ++ ' ' :: (f ++ ' ' :: ("~/S1".toList ++ rest))) w).1 = 0) :
    (∃ more, server_sends (handle_upload_command
          ("uploadf".toList ++ ' ' :: (f ++ ' ' :: ("~/S1".toList ++ rest))) w).2.trace
        = server_sends w.trace
          ++ (port, "RECEIVE".toList ++ ' ' :: (basename f ++ ' ' ::
                ("~/S".toList ++ fmt_int (server_type_of_ext ext) ++ rest))) :: more)
      ∧ (ext = "pdf".toList → ∀ (ws : World) (chunks : List (List Char)),
          ws.client.inbox
            = Recv.data ("RECEIVE".toList ++ ' ' :: (basename f ++ ' ' ::
                ("~/S2".toList ++ rest))) :: chunks.map Recv.data →
          (expand_path ws.home ("~/S2".toList ++ rest) ++ "/".toList ++ basename f).length
            < S2.PATH_MAX_LEN →
          short_read_only_last chunks = true →
          expand_path ws.home ("~/S2".toList ++ rest) ++ "/".toList ++ basename f
            ∉ ws.fs.denied →
          expand_path ws.home ("~/S2".toList ++ rest) ++ "/".toList ++ basename f
            ∉ ws.fs.dirs →
          chunks.flatten.length ≤ ws.fs.space →
          (S2.process_s1_request ws).fs.lookup
              (expand_path ws.home ("~/S2".toList ++ rest) ++ "/".toList ++ basename f)
            = some chunks.flatten)
      ∧ (ext = "zip".toList → ∀ (ws : World) (chunks : List (List Char)),
          ws.client.inbox
            = Recv.data ("RECEIVE".toList ++ ' ' :: (basename f ++ ' ' ::
                ("~/S4".toList ++ rest))) :: chunks.map Recv.data →
          (ws.create_directory_path (expand_path ws.home ("~/S4".toList ++ rest))).1 = 0 →
          (expand_path ws.home ("~/S4".toList ++ rest) ++ "/".toList ++ basename f).length
            < MAX_FILEPATH →
          short_read_only_last chunks = true →
          expand_path ws.home ("~/S4".toList ++ rest) ++ "/".toList ++ basename f
            ∉ ws.fs.denied →
          expand_path ws.home ("~/S4".toList ++ rest) ++ "/".toList ++ basename f
            ∉ ws.fs.dirs →
          chunks.flatten.length ≤ ws.fs.space →
          (S4.process_client_request ws).fs.lookup
              (expand_path ws.home ("~/S4".toList ++ rest) ++ "/".toList ++ basename f)
            = some chunks.flatten) := by
  obtain ⟨c, hl, hc0⟩ := shard_ext_tail f ext he hshard
  obtain ⟨b0, bs⟩ := basename_of_tail f c hl hc0
  obtain ⟨bsub, blen⟩ := basename_sub f c hl hc0
  have hbt : is_token (basename f) = true := is_token_of_sub _ _ bsub hf
  have hf0 : f ≠ [] := by
    intro h
    rw [h] at hl
    simp at hl
  have hC : COMMAND_SIZE = 1024 := rfl
  have hP : MAX_FILEPATH = 1024 := rfl
  have hlen2 : f.length + rest.length + 13 < 1024 := by
    rw [hC] at hlen
    simp only [List.length_append, List.length_cons] at hlen
    have : "uploadf".toList.length = 7 := rfl
    have : "~/S1".toList.length = 4 := rfl
    omega
  have hroot : ∀ r4 : CStr, is_token r4 = true → r4.length = 4 →
      is_token (r4 ++ rest) = true ∧ r4 ++ rest ≠ []
        ∧ ("RECEIVE".toList ++ ' ' :: (basename f ++ ' ' :: (r4 ++ rest))).length < 1024 := by
    intro r4 h4 h4l
    refine ⟨is_token_append _ _ h4 hrest, ?_, ?_⟩
    · intro h
      have := congrArg List.length h
      simp only [List.length_append, List.length_nil] at this
      omega
    · simp only [List.length_append, List.length_cons]
      have : "RECEIVE".toList.length = 7 := rfl
      omega
  refine ⟨?_, ?_, ?_⟩
  · obtain ⟨t1, t0, _⟩ := hroot "~/S1".toList (by decide) rfl
    have hs := upload_parse f ("~/S1".toList ++ rest) hf hf0 t1 t0 hfl
      (by rw [hP]; simp only [List.length_append]; have : "~/S1".toList.length = 4 := rfl; omega)
    obtain ⟨more, hm⟩ := upload_sends _ f ("~/S1".toList ++ rest) ext w s port hs he hshard
      hport hc hok
    refine ⟨more, ?_⟩
    rw [hm]
    have hn : server_type_of_ext ext = 2 ∨ server_type_of_ext ext = 3
        ∨ server_type_of_ext ext = 4 := by
      rcases hshard with h | h | h <;> subst h
      · left; decide
      · right; left; decide
      · right; right; decide
    obtain ⟨d, _, hd⟩ := server_digit _ hn
    have e1 : snprintf MAX_FILEPATH
        (expand_path w.home ("~/S1".toList ++ rest) ++ "/".toList ++ basename f)
        = expand_path w.home ("~/S1".toList ++ rest) ++ '/' :: basename f := by
      unfold snprintf
      rw [List.take_of_length_le (by omega)]
      simp
    have e2 : server_dest_path ("~/S1".toList ++ rest) (server_type_of_ext ext)
        = "~/S".toList ++ fmt_int (server_type_of_ext ext) ++ rest := by
      rw [hd]
      exact server_dest_path_root rest _ d hd
    rw [e1, basename_append _ _ b0 bs, e2]
    have e3 : snprintf COMMAND_SIZE ("RECEIVE ".toList ++ basename f ++ " ".toList
          ++ ("~/S".toList ++ fmt_int (server_type_of_ext ext) ++ rest))
        = "RECEIVE".toList ++ ' ' :: (basename f ++ ' ' ::
            ("~/S".toList ++ fmt_int (server_type_of_ext ext) ++ rest)) := by
      unfold snprintf
      rw [List.take_of_length_le]
      · simp
      · rw [hd, hC]
        simp only [List.length_append, List.length_cons, List.length_nil]
        have : "RECEIVE ".toList.length = 8 := rfl
        have : " ".toList.length = 1 := rfl
        have : "~/S".toList.length = 3 := rfl
        omega
    rw [e3]
  · intro _ ws chunks hin hfit hg h2 h3 hsp
    obtain ⟨t1, t0, tl⟩ := hroot "~/S2".toList (by decide) rfl
    exact S2_receive_stores (basename f) ("~/S2".toList ++ rest) chunks ws hbt b0 t1 t0 tl hin
      hfit hg h2 h3 hsp
  · intro _ ws chunks hin hmk hfit hg h2 h3 hsp
    obtain ⟨t1, t0, tl⟩ := hroot "~/S4".toList (by decide) rfl
    exact S4_receive_stores (basename f) ("~/S4".toList ++ rest) chunks ws hbt b0 t1 t0
      (by omega) tl hin hmk hfit hg h2 h3 hsp
theorem C22_upload_command_and_storage_witness :
    (∃ more, server_sends (handle_upload_command "uploadf note.pdf ~/S1/docs".toList
          (sample_world [Recv.data "%PDF".toList]
            [some (Sock.mk [Recv.data "READY_TO_RECEIVE".toList] [])])).2.trace
        = (8387, "RECEIVE note.pdf ~/S2/docs".toList) :: more)
      ∧ (S2.process_s1_request (shard_world
            [Recv.data "RECEIVE note.pdf ~/S2/docs".toList, Recv.data "%PDF".toList] [])).fs.lookup
          "/home/u/S2/docs/note.pdf".toList = some "%PDF".toList
      ∧ (S4.process_client_request (shard_world
            [Recv.data "RECEIVE a.zip ~/S4/d".toList, Recv.data "PK".toList] [])).fs.lookup
          "/home/u/S4/d/a.zip".toList = some "PK".toList :=
  ⟨(C22_upload_command_and_storage "note.pdf".toList "/docs".toList "pdf".toList
      (sample_world [Recv.data "%PDF".toList]
        [some (Sock.mk [Recv.data "READY_TO_RECEIVE".toList] [])])
      (Sock.mk [Recv.data "READY_TO_RECEIVE".toList] []) 8387
      (by decide) (by decide) (by decide) (by decide) (by decide) (by decide) (by decide)
      (by decide) (by decide) (by decide)).1,
   (C22_upload_command_and_storage "note.pdf".toList "/docs".toList "pdf".toList
      (sample_world [Recv.data "%PDF".toList]
        [some (Sock.mk [Recv.data "READY_TO_RECEIVE".toList] [])])
      (Sock.mk [Recv.data "READY_TO_RECEIVE".toList] []) 8387
      (by decide) (by decide) (by decide) (by decide) (by decide) (by decide) (by decide)
      (by decide) (by decide) (by decide)).2.1 rfl
      (shard_world [Recv.data "RECEIVE note.pdf ~/S2/docs".toList, Recv.data "%PDF".toList] [])
      ["%PDF".toList] (by decide) (by decide) (by decide) (by decide) (by decide) (by decide),
   (C22_upload_command_and_storage "a.zip".toList "/d".toList "zip".toList
      (sample_world [Recv.data "PK".toList]
        [some (Sock.mk [Recv.data "READY_TO_RECEIVE".toList] [])])
      (Sock.mk [Recv.data "READY_TO_RECEIVE".toList] []) 8389
      (by decide) (by decide) (by decide) (by decide) (by decide) (by decide) (by decide)
      (by decide) (by decide) (by decide)).2.2 rfl
      (shard_world [Recv.data "RECEIVE a.zip ~/S4/d".toList, Recv.data "PK".toList] [])
      ["PK".toList] (by decide) (by decide) (by decide) (by decide) (by decide) (by decide)
      (by decide)⟩

/-- Claim C23, evaluated where it fails. S2 announces the size `10`, sends the
four bytes `abcd` and closes the connection: the router forwards `10` to the
client, relays four bytes and returns 0. When a shard announces `3` and sends
seven bytes in one piece, the router relays all seven and returns 0. -/
theorem C23_relay_count_differs_from_size :
    (handle_download_tar_command "downltar pdf".toList
        (sample_world [Recv.data "READY".toList]
          [some (Sock.mk [Recv.data "10".toList, Recv.data "abcd".toList] [])])).1 = 0
      ∧ client_sends (handle_download_tar_command "downltar pdf".toList
          (sample_world [Recv.data "READY".toList]
            [some (Sock.mk [Recv.data "10".toList, Recv.data "abcd".toList] [])])).2.trace
        = ["10".toList, "abcd".toList]
      ∧ (handle_download_tar_command "downltar pdf".toList
          (sample_world [Recv.data "READY".toList]
            [some (Sock.mk [Recv.data "3".toList, Recv.data "abcdefg".toList] [])])).1 = 0
      ∧ client_sends (handle_download_tar_command "downltar pdf".toList
          (sample_world [Recv.data "READY".toList]
            [some (Sock.mk [Recv.data "3".toList, Recv.data "abcdefg".toList] [])])).2.trace
        = ["3".toList, "abcdefg".toList] := by
  decide
/-- Claim C24, counterexample. S2 and S4 have received nothing but the `LIST`
command and send the listing. The router, for `downltar c`, and S2, for
`CREATETAR pdf`, send the size `8`, receive `NO` in place of `READY` and send
the eight bytes of the archive. -/
theorem C24_streams_without_ready :
    client_sends (S2.process_s1_request
        (shard_world [Recv.data "LIST ~/S2/d pdf".toList] [])).trace = ["a.pdf\nb.pdf\n".toList]
      ∧ client_sends (S4.process_client_request
        (shard_world [Recv.data "LIST ~/S4/d zip".toList] [])).trace = ["y.zip\nz.zip\n".toList]
      ∧ client_sends (handle_download_tar_command "downltar c".toList
          { sample_world [Recv.data "NO".toList] [] with
            pipes := [some "tarbytes".toList, some "tarbytes".toList] }).2.trace
        = ["8".toList, "tarbytes".toList]
      ∧ client_sends (S2.process_s1_request
          (shard_world [Recv.data "CREATETAR pdf".toList, Recv.data "NO".toList]
            [some "tarbytes".toList, some "tarbytes".toList])).trace
        = ["8".toList, "tarbytes".toList] := by
  decide

/-- Claim C24, amended. The acknowledgement `READY` is awaited where the
responder has announced what follows: the router sends the listing of
`dispfnames` when the client answers `FILES_COMING` with exactly `READY`, and
otherwise sends `ERROR: Failed to list files` and no listing; S4, having made
the archive and sent `READY_TO_SEND_TAR zip.tar`, sends nothing more when the
answer is not exactly `READY`. A `LIST` command is answered at once: S2 and S4
send the listing and read nothing from the connection, and all the router
sends to a shard it asks for a listing is the `LIST` line. -/
theorem C24_ready_awaited_after_announcement :
    (∀ (w : World) (command path : CStr) (entries : List Dirent) (more : Inbox),
        sscanf "dispfnames".toList [MAX_FILEPATH] command = some (1, [path]) →
        is_path_in_s1 w.home (expand_path w.home path) = true →
        w.fs.opendir (expand_path w.home path) = some entries →
        (c_files_of entries).length < BUFFER_SIZE →
        w.client.inbox = Recv.data "READY".toList :: more →
        (handle_display_filenames_command command w).1 = 0
          ∧ client_sends (handle_display_filenames_command command w).2.trace
              = client_sends w.trace ++ ["FILES_COMING".toList,
                  if spec_listing (c_files_of entries) w.net = [] then
                    "No files found in this directory".toList
                  else spec_listing (c_files_of entries) w.net])
      ∧ (∀ (w : World) (command path : CStr) (entries : List Dirent),
        sscanf "dispfnames".toList [MAX_FILEPATH] command = some (1, [path]) →
        is_path_in_s1 w.home (expand_path w.home path) = true →
        w.fs.opendir (expand_path w.home path) = some entries →
        (c_files_of entries).length < BUFFER_SIZE →
        ((recv (BUFFER_SIZE - 1) w.client.inbox).1 ≤ 0
          ∨ cstr (recv (BUFFER_SIZE - 1) w.client.inbox).2.1 ≠ "READY".toList) →
        (handle_display_filenames_command command w).1 = -1
          ∧ client_sends (handle_display_filenames_command command w).2.trace
              = client_sends w.trace
                  ++ ["FILES_COMING".toList, "ERROR: Failed to list files".toList])
      ∧ (∀ (w : World) (command : CStr) (bytes : List Char),
        sscanf "CREATE_TAR".toList [10] command = some (1, ["zip".toList]) →
        w.pipes.head?.join = some bytes →
        ((recv (BUFFER_SIZE - 1) w.client.inbox).1 ≤ 0
          ∨ cstr (recv (BUFFER_SIZE - 1) w.client.inbox).2.1 ≠ "READY".toList) →
        (S4.handle_create_tar_command command w).1 = -1
          ∧ client_sends (S4.handle_create_tar_command command w).2.trace
              = client_sends w.trace ++ ["READY_TO_SEND_TAR zip.tar".toList])
      ∧ (∀ (w : World) (dir ext : CStr) (entries : List Dirent),
        w.fs.opendir (expand_path w.home dir) = some entries →
        (join_lines (matching_names ext entries)).length < BUFFER_SIZE →
        client_sends (S2.run_command "LIST".toList dir ext w).trace
            = client_sends w.trace ++ [join_lines (S2.qsort (matching_names ext entries))]
          ∧ (S2.run_command "LIST".toList dir ext w).client.inbox = w.client.inbox)
      ∧ (∀ (w : World) (command dir ext : CStr) (entries : List Dirent),
        sscanf "LIST".toList [MAX_FILEPATH, 10] command = some (2, [dir, ext]) →
        w.fs.opendir (expand_path w.home dir) = some entries →
        (join_lines (matching_names ext entries)).length < BUFFER_SIZE →
        client_sends (S4.handle_list_command command w).2.trace
            = client_sends w.trace
              ++ [join_lines (S4.sort_outer (matching_names ext entries).length 0
                    (matching_names ext entries))]
          ∧ (S4.handle_list_command command w).2.client.inbox = w.client.inbox)
      ∧ (∀ (w : World) (port : Nat) (server_type : Int) (ext path : CStr),
        server_sends (list_from_server port server_type ext path w).2.trace
          = server_sends w.trace
            ++ (if w.net.head?.join.isSome then
                  [(port, snprintf COMMAND_SIZE ("LIST ".toList
                    ++ get_corresponding_server_path w.home path server_type
                    ++ " ".toList ++ ext))]
                else [])) :=
  ⟨fun w command path entries more hparse hin hdir hfit hack =>
      display_filenames_sends w command path entries more hparse hin hdir hfit hack,
   fun w command path entries hparse hin hdir hfit hnack =>
      display_filenames_nack w command path entries hparse hin hdir hfit hnack,
   fun w command bytes hparse hp hnack => S4_create_tar_nack w command bytes hparse hp hnack,
   fun w dir ext entries hdir hfit => S2_list_reads_nothing w dir ext entries hdir hfit,
   fun w command dir ext entries hparse hdir hfit =>
      S4_list_reads_nothing w command dir ext entries hparse hdir hfit,
   fun w port server_type ext path => list_from_server_sends port server_type ext path w⟩

theorem C24_ready_awaited_after_announcement_witness :
    client_sends (handle_display_filenames_command "dispfnames ~/S1/d".toList
        (listing_world [none, none, none])).2.trace
      = ["FILES_COMING".toList, "b.c\na.c\n".toList]
    ∧ client_sends (handle_display_filenames_command "dispfnames ~/S1/d".toList
        { listing_world [none, none, none] with
          client := Sock.mk [Recv.data "READY\n".toList] [] }).2.trace
      = ["FILES_COMING".toList, "ERROR: Failed to list files".toList]
    ∧ client_sends (S4.handle_create_tar_command "CREATE_TAR zip".toList
        (shard_world [Recv.data "OK".toList] [some "tarbytes".toList])).2.trace
      = ["READY_TO_SEND_TAR zip.tar".toList]
    ∧ (S2.run_command "LIST".toList "~/S2/d".toList "pdf".toList
        (shard_world [] [])).client.inbox = []
    ∧ client_sends (S4.handle_list_command "LIST ~/S4/d zip".toList
        (shard_world [] [])).2.trace = ["y.zip\nz.zip\n".toList]
    ∧ server_sends (list_from_server 8387 2 "pdf".toList "/home/u/S1/d".toList
        (listing_world [some (Sock.mk [Recv.data "x.pdf\n".toList] [])])).2.trace
      = [(8387, "LIST /home/u/S2/d pdf".toList)] :=
  ⟨(C24_ready_awaited_after_announcement.1 (listing_world [none, none, none])
      "dispfnames ~/S1/d".toList "~/S1/d".toList
      [Dirent.mk ".".toList false, Dirent.mk "..".toList false,
        Dirent.mk "b.c".toList true, Dirent.mk "a.c".toList true,
        Dirent.mk "notes.md".toList true] []
      (by decide) (by decide) (by decide) (by decide) rfl).2,
   (C24_ready_awaited_after_announcement.2.1
      { listing_world [none, none, none] with
        client := Sock.mk [Recv.data "READY\n".toList] [] }
      "dispfnames ~/S1/d".toList "~/S1/d".toList
      [Dirent.mk ".".toList false, Dirent.mk "..".toList false,
        Dirent.mk "b.c".toList true, Dirent.mk "a.c".toList true,
        Dirent.mk "notes.md".toList true]
      (by decide) (by decide) (by decide) (by decide) (by decide)).2,
   (C24_ready_awaited_after_announcement.2.2.1
      (shard_world [Recv.data "OK".toList] [some "tarbytes".toList])
      "CREATE_TAR zip".toList "tarbytes".toList (by decide) rfl (by decide)).2,
   (C24_ready_awaited_after_announcement.2.2.2.1 (shard_world [] [])
      "~/S2/d".toList "pdf".toList
      [Dirent.mk ".".toList false, Dirent.mk "..".toList false,
        Dirent.mk "b.pdf".toList true, Dirent.mk "a.pdf".toList true,
        Dirent.mk "c.txt".toList true]
      (by decide) (by decide)).2,
   (C24_ready_awaited_after_announcement.2.2.2.2.1 (shard_world [] [])
      "LIST ~/S4/d zip".toList "~/S4/d".toList "zip".toList
      [Dirent.mk ".".toList false, Dirent.mk "..".toList false,
        Dirent.mk "z.zip".toList true, Dirent.mk "y.zip".toList true]
      (by decide) (by decide) (by decide)).1,
   C24_ready_awaited_after_announcement.2.2.2.2.2
      (listing_world [some (Sock.mk [Recv.data "x.pdf\n".toList] [])]) 8387 2
      "pdf".toList "/home/u/S1/d".toList⟩
/-- Claim C25, counterexample. S2, the shard for `pdf`, given `RECEIVE a.txt
~/S2/d` stores the bytes that follow as `~/S2/d/a.txt`, and S4, the shard for
`zip`, given `RECEIVE a.pdf ~/S4/d` stores them as `~/S4/d/a.pdf` and
reports success. -/
theorem C25_shard_stores_other_extension :
    (S2.process_s1_request (shard_world
        [Recv.data "RECEIVE a.txt ~/S2/d".toList, Recv.data "text".toList] [])).fs.lookup
          "/home/u/S2/d/a.txt".toList = some "text".toList
      ∧ (S4.process_client_request (shard_world
        [Recv.data "RECEIVE a.pdf ~/S4/d".toList, Recv.data "%PDF".toList] [])).fs.lookup
          "/home/u/S4/d/a.pdf".toList = some "%PDF".toList
      ∧ client_sends (S4.process_client_request (shard_world
        [Recv.data "RECEIVE a.pdf ~/S4/d".toList, Recv.data "%PDF".toList] [])).trace
          = ["READY_TO_RECEIVE".toList,
             "SUCCESS: File received and stored successfully".toList] := by
  decide

/-- Claim C25, amended. A shard stores what `RECEIVE` names, whatever the
extension of the name: for every name and directory without whitespace that
fit the buffers, S2 and S4 each store the bytes that follow the command at the
expansion of the directory followed by `/` and the name, when that path can be
written and, for S4, the directory can be created. -/
theorem C25_shard_stores_any_name (name dir : CStr) (chunks : List (List Char)) (ws : World)
    (hname : is_token name = true) (hn0 : name ≠ [])
    (hdir : is_token dir = true) (hd0 : dir ≠ [])
    (hnl : name.length < MAX_FILENAME)
    (hcmd : ("RECEIVE".toList ++ ' ' :: (name ++ ' ' :: dir)).length < COMMAND_SIZE)
    (hin : ws.client.inbox
      = Recv.data ("RECEIVE".toList ++ ' ' :: (name ++ ' ' :: dir)) :: chunks.map Recv.data)
    (hmk : (ws.create_directory_path (expand_path ws.home dir)).1 = 0)
    (hfit : (expand_path ws.home dir ++ "/".toList ++ name).length < MAX_FILEPATH)
    (hg : short_read_only_last chunks = true)
    (h2 : expand_path ws.home dir ++ "/".toList ++ name ∉ ws.fs.denied)
    (h3 : expand_path ws.home dir ++ "/".toList ++ name ∉ ws.fs.dirs)
    (hs : chunks.flatten.length ≤ ws.fs.space) :
    (S2.process_s1_request ws).fs.lookup (expand_path ws.home dir ++ "/".toList ++ name)
        = some chunks.flatten
      ∧ (S4.process_client_request ws).fs.lookup
          (expand_path ws.home dir ++ "/".toList ++ name) = some chunks.flatten :=
  ⟨S2_receive_stores name dir chunks ws hname hn0 hdir hd0 hcmd hin hfit hg h2 h3 hs,
   S4_receive_stores name dir chunks ws hname hn0 hdir hd0 hnl hcmd hin hmk hfit hg h2 h3 hs⟩

theorem C25_shard_stores_any_name_witness :
    (S2.process_s1_request (shard_world
        [Recv.data "RECEIVE notes.md ~/S2/d".toList, Recv.data "# notes".toList] [])).fs.lookup
          "/home/u/S2/d/notes.md".toList = some "# notes".toList
      ∧ (S4.process_client_request (shard_world
        [Recv.data "RECEIVE notes.md ~/S2/d".toList, Recv.data "# notes".toList] [])).fs.lookup
          "/home/u/S2/d/notes.md".toList = some "# notes".toList :=
  C25_shard_stores_any_name "notes.md".toList "~/S2/d".toList ["# notes".toList]
    (shard_world [Recv.data "RECEIVE notes.md ~/S2/d".toList, Recv.data "# notes".toList] [])
    (by decide) (by decide) (by decide) (by decide) (by decide) (by decide) (by decide)
    (by decide) (by decide) (by decide) (by decide) (by decide) (by decide)

/-! ## Claims C26 to C30: the client, translation and extensions -/

/-- Claim C26, evaluated where the code breaks it. The client accepts the path
`~/S1x/a.c`, which does not begin with `~/S1/` and is not within `~/S1`, and
puts it into the commands it sends: `downlf ~/S1x/a.c`, `removef ~/S1x/a.c`,
`dispfnames ~/S1x` and `uploadf note.pdf ~/S1x`. -/
theorem C26_client_accepts_sibling_of_root :
    W25.validate_s1_path "~/S1x/a.c".toList = true
      ∧ "~/S1/".toList.isPrefixOf "~/S1x/a.c".toList = false
      ∧ client_sends (W25.handle_downlf "~/S1x/a.c".toList (client_world [])).2.trace
        = ["downlf ~/S1x/a.c".toList]
      ∧ client_sends (W25.handle_removef "~/S1x/a.c".toList (client_world [])).2.trace
        = ["removef ~/S1x/a.c".toList]
      ∧ client_sends (W25.handle_dispfnames "~/S1x".toList (client_world [])).2.trace
        = ["dispfnames ~/S1x".toList]
      ∧ client_sends (W25.handle_uploadf "note.pdf".toList "~/S1x".toList
          (client_world [])).2.trace = ["uploadf note.pdf ~/S1x".toList] := by
  decide

/-- Claim C27. For every value of `HOME`, set or not, every path `~/S1<rest>`
that fits a buffer of `MAX_FILEPATH` bytes and every shard number 2, 3 or 4:
expanding the path that `transfer_file_to_server` derives (the first `S1`
overwritten by `S<n>`) gives the path that `get_corresponding_server_path`
derives from the expanded path. -/
theorem C27_translations_agree (home : Option CStr) (rest : CStr) (n : Int)
    (hn : n = 2 ∨ n = 3 ∨ n = 4)
    (hp : ("~/S1".toList ++ rest).length < MAX_FILEPATH) :
    expand_path home (server_dest_path ("~/S1".toList ++ rest) n)
      = get_corresponding_server_path home (expand_path home ("~/S1".toList ++ rest)) n := by
  obtain ⟨d, _, hf⟩ := server_digit n hn
  have e : "~/S1".toList ++ rest = '~' :: '/' :: 'S' :: '1' :: rest := rfl
  rw [e] at hp ⊢
  rw [server_dest_path_root rest n d hf, gcsp_def home _ n d hf, S1_BASE_DIR_lit]
  cases home with
  | none =>
    simp only [expand_path, if_true]
    simp only [List.length_cons, List.drop_succ_cons, List.drop_zero, List.cons_append,
      List.nil_append]
    have hm : MAX_FILEPATH = 1024 := rfl
    rw [hm] at hp ⊢
    rw [List.take_of_length_le]
    · simp only [List.length_nil, List.drop_zero]
    · simp only [List.length_cons, List.length_nil, List.drop_zero] at hp ⊢
      omega
  | some h =>
    simp only [expand_path, if_true, snprintf]
    have := take_swap (h ++ ['/', 'S', '1']) (h ++ ['/', 'S', d]) rest (MAX_FILEPATH - 1)
      (by simp)
    simp only [List.append_assoc, List.cons_append, List.nil_append] at this
    rw [this]

theorem C27_translations_agree_witness :
    ("~/S1".toList ++ "/docs/a.pdf".toList).length < MAX_FILEPATH
      ∧ expand_path (some "/home/u".toList)
          (server_dest_path ("~/S1".toList ++ "/docs/a.pdf".toList) 2)
        = get_corresponding_server_path (some "/home/u".toList)
          (expand_path (some "/home/u".toList) ("~/S1".toList ++ "/docs/a.pdf".toList)) 2 :=
  ⟨by decide,
   C27_translations_agree (some "/home/u".toList) "/docs/a.pdf".toList 2 (by decide)
    (by decide)⟩

/-- Claim C28, evaluated where it fails. The router answers
`uploadf a.exe ~/S1/new` with `ERROR: Unsupported file type...` and
`uploadf noext ~/S1/other` with `ERROR: File must have an extension`, neither
preceded by `READY_TO_RECEIVE`, and in both cases the destination directory,
which did not exist, has been created. A command rejected for its syntax or
its path leaves the file system as it was. -/
theorem C28_rejected_upload_creates_directory :
    client_sends (handle_upload_command "uploadf a.exe ~/S1/new".toList
        (sample_world [] [])).2.trace = [msg_unsupported]
      ∧ (sample_world [] []).fs.is_dir "/home/u/S1/new".toList = false
      ∧ (handle_upload_command "uploadf a.exe ~/S1/new".toList
          (sample_world [] [])).2.fs.is_dir "/home/u/S1/new".toList = true
      ∧ client_sends (handle_upload_command "uploadf noext ~/S1/other".toList
          (sample_world [] [])).2.trace = ["ERROR: File must have an extension".toList]
      ∧ (handle_upload_command "uploadf noext ~/S1/other".toList
          (sample_world [] [])).2.fs.is_dir "/home/u/S1/other".toList = true
      ∧ (handle_upload_command "uploadf a.c ~/S2/new".toList (sample_world [] [])).2.fs
          = (sample_world [] []).fs
      ∧ (handle_upload_command "uploadf a.c".toList (sample_world [] [])).2.fs
          = (sample_world [] []).fs := by
  decide

/-- Claim C29, refuted for every reply. Whatever the router sends first in
answer to a `downltar` command (a decimal size, `NO_FILES`,
`TAR_CREATION_FAILED`, `SERVER_CONNECTION_FAILED` or an `ERROR:` text), the
client, which waits for `READY_TO_SEND_TAR <name>`, does not accept it:
`handle_downltar` returns -1, creates no file and sends nothing after its
command, in particular no `READY`. -/
theorem C29_client_rejects_every_first_reply (command filetype : CStr) (w cw : World)
    (r : List Char) (rest : Inbox)
    (hfirst : first_client_message w.trace (handle_download_tar_command command w).2.trace
      = some r)
    (hin : cw.client.inbox = Recv.data r :: rest) :
    (W25.handle_downltar filetype cw).1 = -1
      ∧ (W25.handle_downltar filetype cw).2.fs = cw.fs
      ∧ (client_sends (W25.handle_downltar filetype cw).2.trace = client_sends cw.trace
        ∨ client_sends (W25.handle_downltar filetype cw).2.trace
          = client_sends cw.trace
              ++ [snprintf W25.CMD_SIZE ("downltar ".toList ++ filetype)]) :=
  client_rejects_reply filetype cw r rest hin (tar_first_reply command w r hfirst)

theorem C29_client_rejects_every_first_reply_witness :
    (first_client_message []
          (handle_download_tar_command "downltar pdf".toList
            (sample_world [] [some (Sock.mk [Recv.data "10240".toList] [])])).2.trace
        = some "10240".toList
      ∧ (client_world [Recv.data "10240".toList]).client.inbox
        = Recv.data "10240".toList :: [])
    ∧ (W25.handle_downltar "pdf".toList (client_world [Recv.data "10240".toList])).1 = -1
    ∧ client_sends (W25.handle_downltar "pdf".toList
        (client_world [Recv.data "10240".toList])).2.trace = ["downltar pdf".toList] :=
  ⟨⟨by decide, rfl⟩,
    (C29_client_rejects_every_first_reply "downltar pdf".toList "pdf".toList
      (sample_world [] [some (Sock.mk [Recv.data "10240".toList] [])])
      (client_world [Recv.data "10240".toList]) "10240".toList [] (by decide) rfl).1,
    by decide⟩

/-- Claim C30, evaluated where it fails. On the path `/home/u/S1/d/.c` the
function `get_file_extension` returns `c`, on its last component `.c` it
returns `NULL`; on `/home/u/S1/v1.2/file` it returns `2/file`, on `file` it
returns `NULL`. So `removef ~/S1/d/.c` is treated as a `c` file and deletes
it, while `uploadf .c ~/S1/d` is answered `ERROR: File must have an extension`,
and the listing of `~/S1/d` does not show `.c`. -/
theorem C30_extension_of_path_differs :
    get_file_extension "/home/u/S1/d/.c".toList = some "c".toList
      ∧ get_file_extension (basename "/home/u/S1/d/.c".toList) = none
      ∧ get_file_extension "/home/u/S1/v1.2/file".toList = some "2/file".toList
      ∧ get_file_extension (basename "/home/u/S1/v1.2/file".toList) = none
      ∧ client_sends (handle_remove_command "removef ~/S1/d/.c".toList
          hidden_file_world).2.trace = ["SUCCESS: File removed successfully".toList]
      ∧ client_sends (handle_upload_command "uploadf .c ~/S1/d".toList
          hidden_file_world).2.trace = ["ERROR: File must have an extension".toList]
      ∧ c_files_of ((hidden_file_world.fs.opendir "/home/u/S1/d".toList).getD []) = [] := by
  decide

end DFS
